import Mathlib

/-!
# Freelance-Flow: milestones, revenue and cascading deletes

A shallow embedding of the backend of Freelance-Flow (Express controllers over
Mongoose models).  Collections are lists of documents inside a `Store`; a
controller is a function from a request and a store to a response and the next
store.  A JS number is carried as the rational it denotes, an instant as
integer milliseconds, an ObjectId as a natural number.  The arithmetic of the
percentage total of `createMilestones`, of `calculateCurrentMonthRevenue` and
of the Expense `amount` setter rounds to binary64.

Sources embedded here:
* `backend/models/ProjectSchema.js`      (`milestoneSchema`, `projectSchema`)
* `backend/models/revenueModel.js`       (`revenueSchema` and its statics)
* `backend/models/ExpenseModel.js`       (`expenseSchema`)
* `backend/models/DashboardSchema.js`     (`dashboardStatsSchema`, `updateDashboardStats`)
* `backend/models/EstimateModel.js`      (`estimatePlanSchema`)
* `backend/controller/milestoneController.js`
* `backend/controller/clientController.js`
* `backend/controller/projectController.js`
* `backend/controller/expenseController.js`
* `backend/controller/EstimateController.js`
* `backend/controller/authControllers.js`
* `backend/Triggers.js`
-/

set_option autoImplicit false

namespace FreelanceFlow

/-! ## Values -/

/-- A Mongo ObjectId. -/
abbrev ObjectId := Nat

/-- The value of `new Date(x)`: milliseconds since the epoch, `none` for an
Invalid Date. -/
abbrev JsDate := Option Int

/-- One piece of a JS template literal: literal text or an interpolated number
(the carried `2 ^ 1024` being the text `Infinity`). -/
inductive Piece where
  | text (s : String)
  | num (n : ℚ)
deriving DecidableEq, Repr

/-- What a controller answers: `res.status(status)` and the `success` and
`message` members of the JSON body (`success` is `none` where the body has no
such member). -/
structure Response where
  status : Nat
  success : Option Bool
  message : List Piece
deriving DecidableEq, Repr

/-- A body `{ success: false, message }` under `res.status(code)`. -/
def failure (code : Nat) (msg : String) : Response :=
  { status := code, success := some false, message := [Piece.text msg] }

/-- The characters `String.prototype.trim` strips: WhiteSpace and
LineTerminator of ECMA-262. -/
def isJsWhitespace (c : Char) : Bool :=
  let n := c.toNat
  n == 0x09 || n == 0x0A || n == 0x0B || n == 0x0C || n == 0x0D || n == 0x20 ||
  n == 0xA0 || n == 0x1680 || (0x2000 ≤ n && n ≤ 0x200A) || n == 0x2028 ||
  n == 0x2029 || n == 0x202F || n == 0x205F || n == 0x3000 || n == 0xFEFF

/-- JS `s.trim()`, which Mongoose applies to a String path declared `trim: true`. -/
def jsTrim (s : String) : String :=
  String.mk ((s.data.dropWhile isJsWhitespace).reverse.dropWhile isJsWhitespace).reverse

/-- JS `s.length`: the number of UTF-16 code units. -/
def utf16Length (s : String) : Nat :=
  (s.data.map (fun c => if c.toNat < 0x10000 then 1 else 2)).sum

/-! ## JS numbers (binary64)

The numbers of a request and of a stored document are finite binary64 values;
the operations below give what JS computes from them, overflow to `Infinity`
included. -/

/-- The rational `2 ^ k` for an integer `k`. -/
def pow2 : Int → ℚ
  | Int.ofNat n => ((2 ^ n : Nat) : ℚ)
  | Int.negSucc n => 1 / ((2 ^ (n + 1) : Nat) : ℚ)

/-- The integer nearest to `x`, a tie going to the even one. -/
def roundHalfEven (x : ℚ) : ℤ :=
  if x - ⌊x⌋ < 1 / 2 then ⌊x⌋
  else if 1 / 2 < x - ⌊x⌋ then ⌊x⌋ + 1
  else if ⌊x⌋ % 2 = 0 then ⌊x⌋ else ⌊x⌋ + 1

/-- The number of binary digits of `n`, counted in at most `fuel` halvings
(`bitLength n n` is the number of binary digits of `n`). -/
def bitLength : Nat → Nat → Nat
  | 0, _ => 0
  | fuel + 1, n => if n = 0 then 0 else bitLength fuel (n / 2) + 1

/-- The binary exponent `⌊log₂ |x|⌋` of a rational `x ≠ 0`: the difference of
the digit counts of numerator and denominator, or one less. -/
def exponentOf (x : ℚ) : ℤ :=
  if pow2 ((bitLength x.num.natAbs x.num.natAbs : ℤ) - (bitLength x.den x.den : ℤ)) ≤ |x| then
    (bitLength x.num.natAbs x.num.natAbs : ℤ) - (bitLength x.den x.den : ℤ)
  else (bitLength x.num.natAbs x.num.natAbs : ℤ) - (bitLength x.den x.den : ℤ) - 1

/-- `Number.MAX_VALUE`, the largest finite binary64 number. -/
@[irreducible]
def maxValue : ℚ := (((2 ^ 53 - 1) * 2 ^ 971 : Nat) : ℚ)

/-- How `Infinity` is carried: a finite JS number is carried as the rational it
denotes, `Infinity` as `2 ^ 1024`, the first power of two beyond the finite
range, and `-Infinity` as its negative.  NaN is not carried. -/
@[irreducible]
def infinity : ℚ := ((2 ^ 1024 : Nat) : ℚ)

/-- Whether a carried number is `Infinity` or `-Infinity`. -/
def isInfinite (x : ℚ) : Bool := maxValue < |x|

/-- The binary64 number an operation with exact result `x` yields: `x` rounded
to the nearest multiple of `2 ^ (e - 52)`, `e` the binary exponent of `x` (of
`2 ^ -1074` in the subnormal range), a tie going to the even multiple, and
`Infinity` or `-Infinity` when that lies beyond `Number.MAX_VALUE`. -/
def round64 (x : ℚ) : ℚ :=
  if x = 0 then 0
  else if maxValue < (roundHalfEven (x / pow2 (max (exponentOf x - 52) (-1074))) : ℚ) *
      pow2 (max (exponentOf x - 52) (-1074)) then infinity
  else if (roundHalfEven (x / pow2 (max (exponentOf x - 52) (-1074))) : ℚ) *
      pow2 (max (exponentOf x - 52) (-1074)) < -maxValue then -infinity
  else (roundHalfEven (x / pow2 (max (exponentOf x - 52) (-1074))) : ℚ) *
    pow2 (max (exponentOf x - 52) (-1074))

/-- JS `a + b` on numbers: an infinite operand is the result, finite operands
give their exact sum rounded.  (`Infinity + -Infinity` is NaN, which is not
carried; a running total of finite numbers becomes infinite by overflow only
and keeps its sign from then on.) -/
def jsAdd (a b : ℚ) : ℚ :=
  if isInfinite a then a else if isInfinite b then b else round64 (a + b)

/-- JS `a * b` on numbers with a non-zero product: infinite as soon as an
operand is, the exact product rounded otherwise.  (`0 * Infinity` is NaN,
which is not carried.) -/
def jsMul (a b : ℚ) : ℚ :=
  if isInfinite a ∨ isInfinite b then (if 0 < a * b then infinity else -infinity)
  else round64 (a * b)

/-- JS `a / b` for a finite divisor `b ≠ 0`: an infinite dividend stays
infinite with the sign of the quotient, a finite one gives the exact quotient
rounded. -/
def jsDiv (a b : ℚ) : ℚ :=
  if isInfinite a then (if 0 < a / b then infinity else -infinity) else round64 (a / b)

/-! ## Documents (`models/ProjectSchema.js`) -/

/-- A stored subdocument of `milestoneSchema`.  The schema declares `name`,
`description`, `percentage`, `amount`, `dueDate`, `isAchived`, `notes`, an
`_id` and the two timestamps, and nothing else. -/
structure Milestone where
  _id : ObjectId
  name : String
  description : Option String
  percentage : ℚ
  amount : ℚ
  dueDate : Int
  isAchived : Bool
  notes : Option String
  createdAt : Option Int
  updatedAt : Option Int
deriving DecidableEq, Repr

/-- Reading `milestone.status` on a subdocument: `milestoneSchema` has no
`status` path, the schema is strict, so the property is `undefined` on every
subdocument. -/
def Milestone.status (_m : Milestone) : Option String := none

/-- A stored document of `projectSchema`. -/
structure Project where
  _id : ObjectId
  name : String
  description : Option String
  clientId : ObjectId
  userId : ObjectId
  estimateId : Option ObjectId
  totalAmount : Option ℚ
  currency : String
  status : String
  startDate : Int
  endDate : Option Int
  actualEndDate : Option Int
  milestones : List Milestone
  tags : List String
  projectNumber : Option String
  updatedAt : Int
deriving DecidableEq, Repr

/-- Modelled from the spec: a stored Client document.  `models/clientModel.js`
is not among the sources; the spec gives a Client its owner `userId`, a
denormalized `projects` counter and a status `Active | Inactive`. -/
structure Client where
  _id : ObjectId
  userId : ObjectId
  name : String
  projects : Int
  status : String
deriving DecidableEq, Repr

/-- A stored document of `estimatePlanSchema` (`models/EstimateModel.js`). -/
structure Estimate where
  _id : ObjectId
  projectId : ObjectId
  name : String
  description : String
  timeline : String
  price : ℚ
  features : List String
  techStack : List String
  isSelected : Bool
deriving DecidableEq, Repr

/-- A stored document of `revenueSchema` (`models/revenueModel.js`).  The
schema has no `clientId` path. -/
structure Revenue where
  _id : ObjectId
  userId : ObjectId
  year : Int
  month : String
  revenue : ℚ
  calculatedAt : Int
deriving DecidableEq, Repr

/-- A stored document of `expenseSchema` (`models/ExpenseModel.js`).  The
schema has no `clientId` path. -/
structure Expense where
  _id : ObjectId
  title : String
  description : String
  amount : ℚ
  currency : String
  category : String
  expenseDate : Int
  tags : List String
  userId : ObjectId
deriving DecidableEq, Repr

/-- A stored document of `dashboardStatsSchema` (`models/DashboardSchema.js`):
`userId`, `totalClients`, `activeClients`, `totalRevenue`, `totalExpenses`,
`completedProjects`, `lastUpdated` and, by `timestamps: true`, `createdAt`
and `updatedAt`.  The schema declares no `activeProjects` path. -/
structure DashboardStats where
  _id : ObjectId
  userId : ObjectId
  totalClients : Nat
  activeClients : Nat
  totalRevenue : ℚ
  totalExpenses : ℚ
  completedProjects : Nat
  lastUpdated : Int
  createdAt : Int
  updatedAt : Int
deriving DecidableEq, Repr

/-- Reading `activeProjects` on a stats document: the schema has no such
path, the schema is strict, so the member is `undefined` on every document. -/
def DashboardStats.activeProjects (_d : DashboardStats) : Option Nat := none

/-- The database: one list of documents per collection, and the source of
fresh ObjectIds. -/
structure Store where
  projects : List Project
  clients : List Client
  estimates : List Estimate
  revenues : List Revenue
  expenses : List Expense
  nextId : ObjectId
  dashboards : List DashboardStats := []
deriving DecidableEq, Repr

/-- Every id in use lies below the store's source of fresh ids. -/
def Store.idsBelowNext (s : Store) : Prop :=
  ∀ p ∈ s.projects, p._id < s.nextId ∧ ∀ m ∈ p.milestones, m._id < s.nextId

/-- The effect of `project.save()` on the collection: the document with the
project's `_id` is overwritten. -/
def saveProject (p : Project) (ps : List Project) : List Project :=
  ps.map (fun q => if q._id = p._id then p else q)

/-! ## `controller/milestoneController.js`: bulk creation -/

/-- One element of `req.body.milestones`.  `dueDate` holds the value of
`new Date(milestone.dueDate)`. -/
structure MilestoneInput where
  name : Option String
  description : Option String
  percentage : Option ℚ
  amount : Option ℚ
  dueDate : JsDate
  status : Option String
  notes : Option String
deriving DecidableEq, Repr

/-- The request `createMilestones` reads: `req.user._id` and the members of
`req.body`.  `milestones` is `none` when the member is missing or not an
array; `startDate` and `endDate` are `none` when falsy and otherwise hold the
value of `new Date(..)`. -/
structure CreateMilestonesRequest where
  userId : ObjectId
  milestones : Option (List MilestoneInput)
  projectId : ObjectId
  clientId : ObjectId
  estimateId : Option ObjectId
  startDate : Option JsDate
  endDate : Option JsDate
deriving DecidableEq, Repr

/-- `Project.findOne({ _id: projectId, clientId, userId })`. -/
def findProject (ps : List Project) (projectId clientId userId : ObjectId) : Option Project :=
  ps.find? (fun p => p._id = projectId ∧ p.clientId = clientId ∧ p.userId = userId)

/-- `milestones.reduce((sum, m) => sum + (m.percentage || 0), 0)`. -/
def totalPercentage (ms : List MilestoneInput) : ℚ :=
  ms.foldl (fun sum m => jsAdd sum (m.percentage.getD 0)) 0

/-- One `project.milestones.push({ name, description, percentage, amount,
dueDate, status, notes })` together with the validation `project.save()` runs
on the new subdocument: the cast keeps the schema's paths only (so `status`
is dropped), trims `name`, fills `isAchived` with its default and gives the
subdocument an `_id`; the validators are `required` on `name`, `percentage`,
`amount` and `dueDate`, `maxlength 7000` on `description`, `min 0`/`max 100`
on `percentage` and `min 0` on `amount`; the timestamps are set on save.
`none` is a ValidationError. -/
def pushMilestone (id : ObjectId) (now : Int) (m : MilestoneInput) : Option Milestone :=
  match m.name, m.percentage, m.amount, m.dueDate with
  | some name, some percentage, some amount, some dueDate =>
    if jsTrim name ≠ "" ∧ (∀ d, m.description = some d → utf16Length d ≤ 7000) ∧
        0 ≤ percentage ∧ percentage ≤ 100 ∧ 0 ≤ amount then
      some { _id := id, name := jsTrim name, description := m.description,
             percentage := percentage, amount := amount, dueDate := dueDate,
             isAchived := false, notes := m.notes,
             createdAt := some now, updatedAt := some now }
    else none
  | _, _, _, _ => none

/-- The `milestones.forEach(milestone => project.milestones.push(..))` loop
over an emptied array, ids drawn in order from `id` on. -/
def pushMilestones : ObjectId → Int → List MilestoneInput → Option (List Milestone)
  | _, _, [] => some []
  | id, now, m :: rest =>
    match pushMilestone id now m, pushMilestones (id + 1) now rest with
    | some d, some ds => some (d :: ds)
    | _, _ => none

/-- The assignment `if (x) project.path = new Date(x)` as `save()` sees it:
`none` when the new value is an Invalid Date (a CastError). -/
def assignDate (current : Option Int) : Option JsDate → Option (Option Int)
  | none => some current
  | some none => none
  | some (some t) => some (some t)

/-- The project document `createMilestones` hands to `save()`: the milestone
array replaced by the pushed subdocuments, `startDate` and `endDate` as
assigned, `if (estimateId) project.estimateId = estimateId`, and
`project.updatedAt = new Date()`. -/
def bulkAssigned (project : Project) (docs : List Milestone) (startDate : Int)
    (endDate : Option Int) (estimateId : Option ObjectId) (now : Int) : Project :=
  { project with
    milestones := docs
    startDate := startDate
    endDate := endDate
    estimateId := (match estimateId with
                   | some e => some e
                   | none => project.estimateId)
    updatedAt := now }

/-- The handler `createMilestones`.  An exception inside the `try` (here: the
ValidationError of `project.save()`) is answered with 500, nothing written. -/
def createMilestones (now : Int) (req : CreateMilestonesRequest) (s : Store) :
    Response × Store :=
  match req.milestones with
  | none => (failure 400 "Milestones array is required and cannot be empty", s)
  | some milestones =>
    if milestones.length = 0 then
      (failure 400 "Milestones array is required and cannot be empty", s)
    else
      match findProject s.projects req.projectId req.clientId req.userId with
      | none => (failure 404 "Project not found or access denied", s)
      | some project =>
        if totalPercentage milestones > 100 then
          ({ status := 400, success := some false,
             message := [Piece.text "Total milestone percentages cannot exceed 100%. Current total: ",
                         Piece.num (totalPercentage milestones), Piece.text "%"] }, s)
        else
          match pushMilestones s.nextId now milestones,
                assignDate (some project.startDate) req.startDate,
                assignDate project.endDate req.endDate with
          | some docs, some (some startDate), some endDate =>
            ({ status := 201, success := some true,
               message := [Piece.text "Successfully created ",
                           Piece.num milestones.length, Piece.text " milestones"] },
             { s with
               projects := saveProject
                 (bulkAssigned project docs startDate endDate req.estimateId now) s.projects
               nextId := s.nextId + milestones.length })
          | _, _, _ =>
            (failure 500 "Internal server error while creating milestones", s)

/-- A stored milestone carries what an input element gave: its `name` with the
surrounding whitespace trimmed, and its `description`, `percentage`, `amount`,
`dueDate` and `notes` as given. -/
def carries (input : MilestoneInput) (doc : Milestone) : Prop :=
  input.name.map jsTrim = some doc.name ∧ doc.description = input.description ∧
  input.percentage = some doc.percentage ∧ input.amount = some doc.amount ∧
  input.dueDate = some doc.dueDate ∧ doc.notes = input.notes

/-! ## `controller/milestoneController.js`: deletion -/

/-- The handler `deleteMilestone`: `findOne({ userId, 'milestones._id': id })`,
`project.milestones.id(id)`, the guard on `milestone.status`, then
`project.milestones.pull(milestone._id)` and `project.save()`. -/
def deleteMilestone (now : Int) (milestoneId userId : ObjectId) (s : Store) :
    Response × Store :=
  match s.projects.find? (fun p => p.userId = userId ∧
          p.milestones.any (fun m => m._id = milestoneId)) with
  | none => (failure 404 "Milestone not found or access denied", s)
  | some project =>
    match project.milestones.find? (fun m => m._id = milestoneId) with
    | none => (failure 404 "Milestone not found", s)
    | some milestone =>
      if milestone.status = some "Paid" then
        (failure 400 "Cannot delete a paid milestone. Please contact support if needed.", s)
      else
        let saved : Project :=
          { project with
            milestones := project.milestones.filter (fun m => m._id ≠ milestone._id)
            updatedAt := now }
        ({ status := 200, success := some true,
           message := [Piece.text "Milestone deleted successfully"] },
         { s with projects := saveProject saved s.projects })

/-! ## `models/revenueModel.js` -/

/-- The array `months` of `getMonthName` and `getMonthNumber`. -/
def months : List String :=
  ["January", "February", "March", "April", "May", "June",
   "July", "August", "September", "October", "November", "December"]

/-- `getMonthName(monthNumber)`, that is `months[monthNumber]`: `none` is
`undefined`. -/
def getMonthName (monthNumber : Int) : Option String :=
  if 0 ≤ monthNumber then months[monthNumber.toNat]? else none

/-- `getMonthNumber(monthName)`, that is `months.indexOf(monthName)`. -/
def getMonthNumber (monthName : String) : Int :=
  if months.indexOf monthName < months.length then (months.indexOf monthName : Int) else -1

/-- The calendar of the JS runtime: `getFullYear()` and `getMonth()` of the
Date at an instant. -/
structure Calendar where
  getFullYear : Int → Int
  getMonth : Int → Nat
  getMonth_lt : ∀ t, getMonth t < 12

/-- Days since the epoch to the month-from-March index of the proleptic
Gregorian calendar, with the year that starts in March. -/
def marchYearMonth (days : Int) : Int × Int :=
  let z := days + 719468
  let era := z / 146097
  let doe := z - era * 146097
  let yoe := (doe - doe / 1460 + doe / 36524 - doe / 146096) / 365
  let doy := doe - (365 * yoe + yoe / 4 - yoe / 100)
  (yoe + era * 400, (5 * doy + 2) / 153)

/-- The Gregorian calendar of a zone `offset` milliseconds ahead of UTC. -/
def gregorian (offset : Int) : Calendar where
  getFullYear t :=
    let ym := marchYearMonth ((t + offset) / 86400000)
    if (ym.2 + 2) % 12 < 2 then ym.1 + 1 else ym.1
  getMonth t := ((marchYearMonth ((t + offset) / 86400000)).2 + 2) % 12 |>.toNat
  getMonth_lt t := by
    show (((marchYearMonth ((t + offset) / 86400000)).2 + 2) % 12).toNat < 12
    omega

/-- What `calculateCurrentMonthRevenue` returns. -/
structure RevenueResult where
  userId : ObjectId
  year : Int
  month : Option String
  revenue : ℚ
  calculatedAt : Int
deriving DecidableEq, Repr

/-- The static `calculateCurrentMonthRevenue(userId)`, evaluated at the
instant `now`: the projects found by `$or: [{ userId }, { clientId: userId }]`,
then the two nested `for` loops over `totalRevenue`. -/
def calculateCurrentMonthRevenue (cal : Calendar) (now : Int) (userId : ObjectId)
    (s : Store) : RevenueResult :=
  let currentYear := cal.getFullYear now
  let currentMonth := getMonthName (cal.getMonth now)
  let projects := s.projects.filter (fun p => p.userId = userId ∨ p.clientId = userId)
  let totalRevenue := projects.foldl (fun totalRevenue project =>
    if project.milestones.length > 0 then
      project.milestones.foldl (fun totalRevenue milestone =>
        match milestone.updatedAt with
        | some updatedAt =>
          if milestone.isAchived then
            let achievedYear := cal.getFullYear updatedAt
            let achievedMonth := getMonthName (cal.getMonth updatedAt)
            if achievedMonth = currentMonth ∧ achievedYear = currentYear then
              jsAdd totalRevenue milestone.amount
            else totalRevenue
          else totalRevenue
        | none => totalRevenue) totalRevenue
    else totalRevenue) 0
  { userId := userId, year := currentYear, month := currentMonth,
    revenue := totalRevenue, calculatedAt := now }

/-- The values `i` of `for (let i = a; i <= b; i++)`. -/
def forRange (a b : Int) : List Int :=
  (List.range (b + 1 - a).toNat).map (fun (k : Nat) => a + (k : Int))

/-- A filter `{ year, month: { $in } }` or `{ year }`, as pushed on `query.$or`. -/
structure YearClause where
  year : Int
  month : Option (List (Option String))
deriving DecidableEq, Repr

/-- The filter `getRevenueForPeriod` hands to `find`. -/
structure RevenueQuery where
  userId : ObjectId
  year : Option Int
  month : Option (List (Option String))
  or : Option (List YearClause)
deriving DecidableEq, Repr

/-- The query object `getRevenueForPeriod` builds. -/
def periodQuery (userId : ObjectId) (startYear : Int) (startMonth : String)
    (endYear : Int) (endMonth : String) : RevenueQuery :=
  let startMonthNumber := getMonthNumber startMonth
  let endMonthNumber := getMonthNumber endMonth
  if startYear = endYear then
    { userId := userId, year := some startYear,
      month := some ((forRange startMonthNumber endMonthNumber).map getMonthName),
      or := none }
  else
    { userId := userId, year := none, month := none,
      or := some (
        [{ year := startYear, month := some ((forRange startMonthNumber 11).map getMonthName) },
         { year := endYear, month := some ((forRange 0 endMonthNumber).map getMonthName) }] ++
        (forRange (startYear + 1) (endYear - 1)).map (fun year => { year := year, month := none })) }

/-- A stored month matches `{ $in: names }` (an `undefined` entry matches no
stored month, the path being required). -/
def monthIn (names : Option (List (Option String))) (month : String) : Bool :=
  match names with
  | none => true
  | some names => names.contains (some month)

/-- Whether a Revenue row satisfies one member of `$or`. -/
def YearClause.matches (c : YearClause) (r : Revenue) : Bool :=
  r.year = c.year ∧ monthIn c.month r.month

/-- Whether a Revenue row satisfies the filter. -/
def RevenueQuery.matches (q : RevenueQuery) (r : Revenue) : Bool :=
  r.userId = q.userId ∧ (∀ y, q.year = some y → r.year = y) ∧ monthIn q.month r.month ∧
  (∀ cs, q.or = some cs → cs.any (fun c => c.matches r))

/-- The order of `.sort({ year: 1, month: 1 })`: `year` ascending as a number,
then `month` ascending as a string. -/
def sortKeyLe (a b : Revenue) : Bool :=
  a.year < b.year ∨ (a.year = b.year ∧ a.month ≤ b.month)

/-- The static `getRevenueForPeriod`: `this.find(query).sort({ year: 1, month: 1 })`. -/
def getRevenueForPeriod (userId : ObjectId) (startYear : Int) (startMonth : String)
    (endYear : Int) (endMonth : String) (s : Store) : List Revenue :=
  (s.revenues.filter (periodQuery userId startYear startMonth endYear endMonth).matches).insertionSort
    (fun a b => sortKeyLe a b)

/-! ## `controller/clientController.js`: `deleteClient` -/

/-- The four database calls of `deleteClient`, in program order. -/
inductive DbOp where
  | clientFindOneAndDelete
  | projectDeleteMany
  | revenueDeleteMany
  | expenseDeleteMany
deriving DecidableEq, Repr

/-- A run of `deleteClient`: the answer, the store left behind, and the
database calls that completed. -/
structure DeleteClientRun where
  response : Response
  store : Store
  completed : List DbOp
deriving DecidableEq, Repr

/-- The body `{ error: e.message }` under `res.status(500)` of the `catch`. -/
def caught : Response := { status := 500, success := none, message := [] }

/-- How a filter member on a path the schema does not declare (`clientId` on
Revenue and Expense) treats a document: with `strictQuery` on the member is
stripped from the filter and every document passes it; with `strictQuery` off
it is sent as is and no document, none having that field, passes it. -/
def undeclaredPathMatches (strictQuery : Bool) : Bool := strictQuery

/-- The handler `deleteClient`.  `fails op` says that the database call `op`
rejects; a rejected call writes nothing and transfers control to the `catch`.
`strictQuery` is the Mongoose option of that name. -/
def deleteClient (strictQuery : Bool) (fails : DbOp → Bool) (clientId userId : ObjectId)
    (s : Store) : DeleteClientRun :=
  if fails DbOp.clientFindOneAndDelete then
    { response := caught, store := s, completed := [] }
  else
    let deleted := s.clients.find? (fun c => c._id = clientId ∧ c.userId = userId)
    let s1 := { s with clients := s.clients.eraseP (fun c => c._id = clientId ∧ c.userId = userId) }
    if fails DbOp.projectDeleteMany then
      { response := caught, store := s1, completed := [DbOp.clientFindOneAndDelete] }
    else
      let s2 := { s1 with projects :=
        s1.projects.filter (fun p => ¬ (p.clientId = clientId ∧ p.userId = userId)) }
      if fails DbOp.revenueDeleteMany then
        { response := caught, store := s2,
          completed := [DbOp.clientFindOneAndDelete, DbOp.projectDeleteMany] }
      else
        let s3 := { s2 with revenues :=
          s2.revenues.filter (fun r => ¬ (undeclaredPathMatches strictQuery ∧ r.userId = userId)) }
        if fails DbOp.expenseDeleteMany then
          { response := caught, store := s3,
            completed := [DbOp.clientFindOneAndDelete, DbOp.projectDeleteMany,
                          DbOp.revenueDeleteMany] }
        else
          let s4 := { s3 with expenses :=
            s3.expenses.filter (fun e => ¬ (undeclaredPathMatches strictQuery ∧ e.userId = userId)) }
          { response :=
              (match deleted with
               | none => { status := 404, success := none,
                           message := [Piece.text "Client not found"] }
               | some _ => { status := 200, success := none,
                             message := [Piece.text "Client deleted successfully"] }),
            store := s4,
            completed := [DbOp.clientFindOneAndDelete, DbOp.projectDeleteMany,
                          DbOp.revenueDeleteMany, DbOp.expenseDeleteMany] }

/-! ## `controller/projectController.js`: `deleteProject` -/

/-- `Model.findByIdAndUpdate(id, update)` on a list of documents: the first
document the filter finds is rewritten. -/
def updateFirst {α : Type} (p : α → Bool) (f : α → α) : List α → List α
  | [] => []
  | a :: as => if p a then f a :: as else a :: updateFirst p f as

/-- The handler `deleteProject`: `Project.findOne({ _id: id, userId })`, then
`Project.findByIdAndDelete(id)`, `Estimate.deleteMany({ projectId: id })` and
`client.findByIdAndUpdate(project.clientId, { $inc: { projects: -1 } })`.
(The pre-hook of `Triggers.js` on `findOneAndDelete` issues the same
`Estimate.deleteMany({ projectId })`.) -/
def deleteProject (id userId : ObjectId) (s : Store) : Response × Store :=
  match s.projects.find? (fun p => p._id = id ∧ p.userId = userId) with
  | none =>
    (failure 404 "Project not found or you don't have permission to delete it", s)
  | some project =>
    ({ status := 200, success := some true,
       message := [Piece.text "Project deleted successfully"] },
     { s with
       projects := s.projects.eraseP (fun p => p._id = id)
       estimates := s.estimates.filter (fun e => e.projectId ≠ id)
       clients := updateFirst (fun c => c._id = project.clientId)
                    (fun c => { c with projects := c.projects + (-1) }) s.clients })

/-! ## `models/ExpenseModel.js` and `controller/expenseController.js` -/

/-- JS `Math.round(x)`: the nearest integer, a tie going towards `+∞`
(`Math.round(Infinity)` is `Infinity`, as the carried `2 ^ 1024` gives). -/
def mathRound (x : ℚ) : ℤ := ⌊x + 1 / 2⌋

/-- The setter of `expenseSchema.amount`:
`(value) => Math.round(value * 100) / 100`, the product and the quotient being
binary64 operations. -/
def amountSet (value : ℚ) : ℚ := jsDiv (mathRound (jsMul value 100) : ℚ) 100

/-- JS `toUpperCase` on one character, as far as the result can be an ASCII
capital: the ASCII letters, and the two letters outside ASCII that upper-case
into ASCII (dotless i and long s). -/
def upperChar (c : Char) : Char :=
  if c.toNat = 0x131 then 'I' else if c.toNat = 0x17F then 'S' else c.toUpper

/-- JS `s.toUpperCase()`, exact on every string whose result is one of the
currency codes. -/
def toUpperCase (s : String) : String := String.mk (s.data.map upperChar)

/-- The `enum` of `expenseSchema.currency`. -/
def currencies : List String := ["USD", "EUR", "GBP", "INR", "CAD", "AUD", "JPY"]

/-- The request `addExpense` reads: `req.user.id` and the members of
`req.body`.  `expenseDate` is `none` when falsy and otherwise the value of
`new Date(expenseDate)`; `tags` is `none` when the member is not an array. -/
structure AddExpenseRequest where
  userId : ObjectId
  title : Option String
  description : Option String
  amount : Option ℚ
  currency : Option String
  category : Option String
  expenseDate : Option JsDate
  tags : Option (List String)
deriving DecidableEq, Repr

/-- The handler `addExpense`: the two guards, `new Expense(expenseData)` with
the schema's setters (`trim`, `uppercase`, the `amount` setter), then
`expense.save()` with the schema's validators, whose ValidationError is
answered with 400. -/
def addExpense (now : Int) (req : AddExpenseRequest) (s : Store) : Response × Store :=
  match req.title, req.amount, req.category with
  | some title, some amount, some category =>
    if title = "" ∨ amount = 0 ∨ category = "" then
      (failure 400 "Title, amount, and category are required fields", s)
    else if amount ≤ 0 then
      (failure 400 "Amount must be a valid positive number", s)
    else
      let expense : Expense :=
        { _id := s.nextId
          title := jsTrim (jsTrim title)
          description := jsTrim ((req.description.map jsTrim).getD "")
          amount := amountSet amount
          currency := toUpperCase (toUpperCase (req.currency.getD "INR"))
          category := category
          expenseDate := ((req.expenseDate.getD (some now)).getD 0)
          tags := (((req.tags.getD []).map jsTrim).filter (fun t => t ≠ "")).map jsTrim
          userId := req.userId }
      if expense.title ≠ "" ∧ utf16Length expense.title ≤ 100 ∧
          utf16Length expense.description ≤ 500 ∧ 0 ≤ expense.amount ∧
          expense.currency ∈ currencies ∧ req.expenseDate ≠ some none ∧
          (∀ t ∈ expense.tags, utf16Length t ≤ 30) then
        ({ status := 201, success := some true,
           message := [Piece.text "Expense created successfully"] },
         { s with expenses := s.expenses ++ [expense], nextId := s.nextId + 1 })
      else
        (failure 400 "Validation error", s)
  | _, _, _ => (failure 400 "Title, amount, and category are required fields", s)

/-! ## Properties the operations are checked against -/

/-- A milestone counts for the month of `now`: its `isAchived` flag is true
and its `updatedAt` lies in the calendar month and year of `now`. -/
def countsThisMonth (cal : Calendar) (now : Int) (m : Milestone) : Bool :=
  m.isAchived &&
    (match m.updatedAt with
     | some t => cal.getFullYear t = cal.getFullYear now ∧ cal.getMonth t = cal.getMonth now
     | none => false)

/-- Calendar order on (year, month number) pairs. -/
def monthLe (y₁ m₁ y₂ m₂ : Int) : Bool :=
  y₁ < y₂ ∨ (y₁ = y₂ ∧ m₁ ≤ m₂)

/-- A Revenue row of `userId` whose (year, month) lies in the closed range
from (startYear, startMonth) to (endYear, endMonth) in calendar order. -/
def inPeriod (userId : ObjectId) (startYear : Int) (startMonth : String) (endYear : Int)
    (endMonth : String) (r : Revenue) : Bool :=
  r.userId = userId ∧
  monthLe startYear (getMonthNumber startMonth) r.year (getMonthNumber r.month) ∧
  monthLe r.year (getMonthNumber r.month) endYear (getMonthNumber endMonth)

/-- The total of a list of numbers as `reduce((sum, x) => sum + x, 0)` and a
`+=` loop compute it: added left to right from 0, every sum rounded to
binary64. -/
def binary64Sum (xs : List ℚ) : ℚ := xs.foldl jsAdd 0

/-- The exact value `v` in hundredths, rounded half-up to a whole number of
hundredths. -/
def halfUpCents (v : ℚ) : ℤ := ⌊v * 100 + 1 / 2⌋

/-! ## Sample data -/

/-- A stored milestone of 100 percent. -/
def demoMilestone : Milestone :=
  { _id := 11, name := "Old", description := none, percentage := 100, amount := 10000,
    dueDate := 5, isAchived := false, notes := none, createdAt := some 0, updatedAt := some 0 }

/-- A project of user 1 and client 2 with one stored milestone. -/
def demoProject : Project :=
  { _id := 10, name := "Website", description := none, clientId := 2, userId := 1,
    estimateId := none, totalAmount := some 10000, currency := "INR", status := "active",
    startDate := 0, endDate := none, actualEndDate := none,
    milestones := [demoMilestone],
    tags := [], projectNumber := none, updatedAt := 0 }

/-- A store holding `demoProject` and its client. -/
def demoStore : Store :=
  { projects := [demoProject],
    clients := [{ _id := 2, userId := 1, name := "Acme", projects := 1, status := "Active" }],
    estimates := [], revenues := [], expenses := [], nextId := 100 }

/-- An input milestone with the given name, percentage and amount. -/
def demoInput (name : String) (percentage amount : ℚ) : MilestoneInput :=
  { name := some name, description := none, percentage := some percentage,
    amount := some amount, dueDate := some 7, status := none, notes := none }

/-- A bulk-create request of user 1 on `demoProject`. -/
def demoRequest (ms : List MilestoneInput) : CreateMilestonesRequest :=
  { userId := 1, milestones := some ms, projectId := 10, clientId := 2,
    estimateId := some 55, startDate := some (some 3), endDate := none }

/-- The scenario of `calculateCurrentMonthRevenue`: one project of user 1 with
an achieved milestone of 4000 last updated on 2025-11-05 and a milestone of
6000 that is not achieved. -/
def scenarioStore : Store :=
  { demoStore with
    projects := [{ demoProject with
      milestones :=
        [{ _id := 11, name := "Design", description := none, percentage := 40, amount := 4000,
           dueDate := 5, isAchived := true, notes := none, createdAt := some 0,
           updatedAt := some 1762300800000 },
         { _id := 12, name := "Build", description := none, percentage := 60, amount := 6000,
           dueDate := 6, isAchived := false, notes := none, createdAt := some 0,
           updatedAt := some 1762300800000 }] }] }

/-- The double nearest to `1e-17`. -/
def tinyPercentage : ℚ := round64 (1 / 10 ^ 17)

/-- Two input milestones of 100 percent and of `1e-17` percent. -/
def overfullInputs : List MilestoneInput :=
  [demoInput "A" 100 10000, demoInput "B" tinyPercentage 1]

/-- Three input milestones of 0.2, 83.9 and 15.9 percent (the doubles nearest
to them), whose binary64 total is 100.00000000000001. -/
def fractionalInputs : List MilestoneInput :=
  [demoInput "A" (round64 (2 / 10)) 20, demoInput "B" (round64 (839 / 10)) 8390,
   demoInput "C" (round64 (159 / 10)) 1590]

/-- The store `scenarioStore` with two milestones of amounts 0.1 and 0.2 (the
doubles nearest to them), both achieved and last updated on 2025-11-05. -/
def dimeStore : Store :=
  { demoStore with
    projects := [{ demoProject with
      milestones :=
        [{ _id := 11, name := "Design", description := none, percentage := 40,
           amount := round64 (1 / 10), dueDate := 5, isAchived := true, notes := none,
           createdAt := some 0, updatedAt := some 1762300800000 },
         { _id := 12, name := "Build", description := none, percentage := 60,
           amount := round64 (2 / 10), dueDate := 6, isAchived := true, notes := none,
           createdAt := some 0, updatedAt := some 1762300800000 }] }] }

/-- A Revenue row of 10 for the given user, year and month. -/
def demoRevenue (id : ObjectId) (userId : ObjectId) (year : Int) (month : String) : Revenue :=
  { _id := id, userId := userId, year := year, month := month, revenue := 10, calculatedAt := 0 }

/-- Rows of user 1 for October 2023 to March 2024, stored in calendar order,
and a row of user 2. -/
def periodStore : Store :=
  { demoStore with
    revenues := [demoRevenue 21 1 2023 "October", demoRevenue 22 1 2023 "November",
                 demoRevenue 23 1 2023 "December", demoRevenue 24 1 2024 "January",
                 demoRevenue 25 1 2024 "February", demoRevenue 26 1 2024 "March",
                 demoRevenue 27 2 2024 "January"] }

/-- The database calls of `deleteClient` in program order. -/
def deleteClientOps : List DbOp :=
  [DbOp.clientFindOneAndDelete, DbOp.projectDeleteMany, DbOp.revenueDeleteMany,
   DbOp.expenseDeleteMany]

/-- The store `demoStore` with the client's `projects` counter at 0 and one
estimate of `demoProject` and one of another project. -/
def zeroCountStore : Store :=
  { demoStore with
    clients := [{ _id := 2, userId := 1, name := "Acme", projects := 0, status := "Active" }]
    estimates :=
      [{ _id := 31, projectId := 10, name := "Basic", description := "d", timeline := "2w",
         price := 500, features := [], techStack := [], isSelected := true },
       { _id := 32, projectId := 77, name := "Other", description := "d", timeline := "3w",
         price := 900, features := [], techStack := [], isSelected := false }] }

/-- A request to add an expense of the given amount. -/
def demoExpenseRequest (amount : ℚ) : AddExpenseRequest :=
  { userId := 1, title := some "Hosting", description := none, amount := some amount,
    currency := none, category := some "Infra", expenseDate := none, tags := none }

/-! ## `models/DashboardSchema.js`: `updateDashboardStats` -/

/-- The update object `updateDashboardStats` hands to `findOneAndUpdate`. -/
structure StatsUpdate where
  totalClients : Nat
  activeClients : Nat
  totalRevenue : ℚ
  totalExpenses : ℚ
  activeProjects : Nat
  completedProjects : Nat
  lastUpdated : Int
deriving DecidableEq, Repr

/-- The values `updateDashboardStats` computes: the loop over the user's
projects and their selected estimates (`totalRevenue += estimate.price || 0`),
then the five results of the `Promise.all`. -/
def computeStats (now : Int) (userId : ObjectId) (s : Store) : StatsUpdate :=
  let projects := s.projects.filter (fun p => p.userId = userId)
  let totalRevenue := projects.foldl (fun totalRevenue project =>
    (s.estimates.filter (fun e => e.projectId = project._id ∧ e.isSelected = true)).foldl
      (fun totalRevenue estimate => totalRevenue + estimate.price) totalRevenue) 0
  { totalClients := (s.clients.filter (fun c => c.userId = userId)).length
    activeClients := (s.clients.filter (fun c => c.userId = userId ∧ c.status = "Active")).length
    totalRevenue := totalRevenue
    totalExpenses :=
      (match s.expenses.filter (fun e => e.userId = userId) with
       | [] => 0
       | es => es.foldl (fun total e => total + e.amount) 0)
    activeProjects := (s.projects.filter (fun p => p.userId = userId)).length
    completedProjects :=
      (s.projects.filter (fun p => p.userId = userId ∧ p.status = "completed")).length
    lastUpdated := now }

/-- The update as cast against `dashboardStatsSchema` and applied to a stored
document: the declared paths are set, `activeProjects`, which the schema does
not declare, is dropped, and `timestamps` sets `updatedAt`. -/
def applyStatsUpdate (now : Int) (u : StatsUpdate) (d : DashboardStats) : DashboardStats :=
  { d with
    totalClients := u.totalClients
    activeClients := u.activeClients
    totalRevenue := u.totalRevenue
    totalExpenses := u.totalExpenses
    completedProjects := u.completedProjects
    lastUpdated := u.lastUpdated
    updatedAt := now }

/-- The static `updateDashboardStats(userId)` evaluated at `now`:
`findOneAndUpdate({ userId }, update, { upsert: true, new: true })`, which
returns the document as stored after the update. -/
def updateDashboardStats (now : Int) (userId : ObjectId) (s : Store) : DashboardStats × Store :=
  let update := computeStats now userId s
  match s.dashboards.find? (fun d => d.userId = userId) with
  | some d =>
    (applyStatsUpdate now update d,
     { s with dashboards :=
        updateFirst (fun d => d.userId = userId) (applyStatsUpdate now update) s.dashboards })
  | none =>
    let inserted := applyStatsUpdate now update
      { _id := s.nextId, userId := userId, totalClients := 0, activeClients := 0,
        totalRevenue := 0, totalExpenses := 0, completedProjects := 0, lastUpdated := now,
        createdAt := now, updatedAt := now }
    (inserted, { s with dashboards := s.dashboards ++ [inserted], nextId := s.nextId + 1 })

/-! ## `models/revenueModel.js`: `calculateMonthRevenue` -/

/-- Reading `milestone.isAchieved` on a subdocument: `milestoneSchema`
declares `isAchived`, not `isAchieved`, so the property is `undefined` on
every subdocument. -/
def Milestone.isAchieved (_m : Milestone) : Option Bool := none

/-- The two errors `calculateMonthRevenue` throws: the invalid month name, and
the rethrow `Error calculating revenue: ..` of the `catch` around the read. -/
inductive RevenueError where
  | invalidMonth
  | calculating
deriving DecidableEq, Repr

/-- A run of `calculateMonthRevenue`: what it returns or throws, and how many
times it issued `Project.find`. -/
structure MonthRevenueRun where
  result : Except RevenueError RevenueResult
  projectReads : Nat

/-- The static `calculateMonthRevenue(userId, year, month)` evaluated at
`now`.  `findFails` says that `Project.find` rejects. -/
def calculateMonthRevenue (cal : Calendar) (now : Int) (findFails : Bool) (userId : ObjectId)
    (year : Int) (month : String) (s : Store) : MonthRevenueRun :=
  if month ∉ months then
    { result := Except.error RevenueError.invalidMonth, projectReads := 0 }
  else
    let monthNumber := getMonthNumber month
    if findFails then
      { result := Except.error RevenueError.calculating, projectReads := 1 }
    else
      let projects := s.projects.filter (fun p => p.userId = userId ∨ p.clientId = userId)
      let totalRevenue := projects.foldl (fun totalRevenue project =>
        if project.milestones.length > 0 then
          project.milestones.foldl (fun totalRevenue milestone =>
            match milestone.isAchieved, milestone.updatedAt with
            | some true, some updatedAt =>
              let achievedYear := cal.getFullYear updatedAt
              let achievedMonth : Int := cal.getMonth updatedAt
              if achievedMonth = monthNumber ∧ achievedYear = year then
                totalRevenue + milestone.amount
              else totalRevenue
            | _, _ => totalRevenue) totalRevenue
        else totalRevenue) 0
      { result := Except.ok { userId := userId, year := year, month := some month,
                              revenue := totalRevenue, calculatedAt := now },
        projectReads := 1 }

/-! ## `Triggers.js`: the user cascade hook -/

/-- The three collections the user cascade hook cleans. -/
inductive Dependent where
  | dashboard
  | revenue
  | expense
deriving DecidableEq, Repr

/-- The three `deletedCount`s the hook logs. -/
structure CascadeCounts where
  dashboard : Nat
  revenue : Nat
  expense : Nat
deriving DecidableEq, Repr

/-- What the hook leaves behind when it returns: the store, and the counts
when the `Promise.all` was reached. -/
structure UserCascadeRun where
  store : Store
  counts : Option CascadeCounts
deriving DecidableEq, Repr

/-- The `try` block of the pre-delete hook on User.  `registered name` says
whether `mongoose.model(name)` finds the model (it throws otherwise);
`queryId` is `this.getQuery()._id`; `fails c` says that the `deleteMany` on
collection `c` rejects, which its own `.catch` turns into `deletedCount: 0`. -/
def userCascadeBody (registered : String → Bool) (fails : Dependent → Bool)
    (queryId : Option ObjectId) (s : Store) : Except String UserCascadeRun :=
  if ¬ registered "Dashboard" then Except.error "Schema hasn't been registered for model Dashboard"
  else if ¬ registered "Revenue" then Except.error "Schema hasn't been registered for model Revenue"
  else if ¬ registered "Expense" then Except.error "Schema hasn't been registered for model Expense"
  else
    match queryId with
    | none => Except.ok { store := s, counts := none }
    | some userId =>
      Except.ok
        { store :=
            { s with
              dashboards := if fails Dependent.dashboard then s.dashboards
                            else s.dashboards.filter (fun d => d.userId ≠ userId)
              revenues := if fails Dependent.revenue then s.revenues
                          else s.revenues.filter (fun r => r.userId ≠ userId)
              expenses := if fails Dependent.expense then s.expenses
                          else s.expenses.filter (fun e => e.userId ≠ userId) }
          counts := some
            { dashboard := if fails Dependent.dashboard then 0
                           else (s.dashboards.filter (fun d => d.userId = userId)).length
              revenue := if fails Dependent.revenue then 0
                         else (s.revenues.filter (fun r => r.userId = userId)).length
              expense := if fails Dependent.expense then 0
                         else (s.expenses.filter (fun e => e.userId = userId)).length } }

/-- The pre-delete hook on User: the `try` block, with the `catch` that logs
the error and does not rethrow. -/
def userCascadeHook (registered : String → Bool) (fails : Dependent → Bool)
    (queryId : Option ObjectId) (s : Store) : Except String UserCascadeRun :=
  match userCascadeBody registered fails queryId s with
  | Except.ok run => Except.ok run
  | Except.error _ => Except.ok { store := s, counts := none }

/-! ## `controller/projectController.js`: `updateProject` -/

/-- The members of the request `updateProject` reads or the update carries:
`req.params.id`, `req.user.id` as `protect` set it, and `title`, `name`,
`status` and `description` of `req.body`. -/
structure UpdateProjectRequest where
  id : ObjectId
  userId : ObjectId
  title : Option String
  name : Option String
  status : Option String
  description : Option String
deriving DecidableEq, Repr

/-- The object `statusMapping` of the handler. -/
def statusMapping (status : String) : Option String :=
  if status = "Active" then some "active"
  else if status = "Completed" then some "completed"
  else if status = "On Hold" then some "on_hold"
  else if status = "Cancelled" then some "cancelled"
  else none

/-- JS `s.toLowerCase()`, exact on every string whose result is one of the
project statuses (no character outside ASCII lower-cases into their letters). -/
def toLowerCase (s : String) : String := String.mk (s.data.map Char.toLower)

/-- The `enum` of `projectSchema.status`. -/
def projectStatuses : List String := ["planning", "active", "on_hold", "completed", "cancelled"]

/-- The handler `updateProject` with the helper it calls as a parameter:
`none` when the identifier `getUserIdFromToken` is not bound, in which case
the call throws a ReferenceError inside the `try` and the `catch` answers 500.
With a helper: the ownership lookup, the `title`/`name` and status mappings,
`actualEndDate` set when the status becomes `completed` and the stored one is
unset, then `findByIdAndUpdate(id, updateData, { new: true, runValidators: true })`. -/
def updateProjectWith (helper : Option (UpdateProjectRequest → ObjectId)) (now : Int)
    (req : UpdateProjectRequest) (s : Store) : Response × Store :=
  match helper with
  | none => (failure 500 "Failed to update project", s)
  | some getUserId =>
    match s.projects.find? (fun p => p._id = req.id ∧ p.userId = getUserId req) with
    | none =>
      (failure 404 "Project not found or you don't have permission to update it", s)
    | some existingProject =>
      let name : Option String :=
        match req.title, req.name with
        | some title, none => if title ≠ "" then some title else none
        | some title, some name => if title ≠ "" ∧ name = "" then some title else some name
        | none, name => name
      let status : Option String :=
        req.status.map (fun st => if st ≠ "" then (statusMapping st).getD (toLowerCase st) else st)
      if (∀ n, name = some n → jsTrim n ≠ "" ∧ utf16Length (jsTrim n) ≤ 200) ∧
          (∀ st, status = some st → st ∈ projectStatuses) then
        let apply : Project → Project := fun p =>
          { p with
            name := (name.map jsTrim).getD p.name
            description := (match req.description with
                            | some d => some d
                            | none => p.description)
            status := status.getD p.status
            actualEndDate :=
              if status = some "completed" ∧ existingProject.actualEndDate = none then some now
              else p.actualEndDate
            updatedAt := now }
        ({ status := 200, success := some true,
           message := [Piece.text "Project updated successfully"] },
         { s with projects := updateFirst (fun p => p._id = req.id) apply s.projects })
      else
        (failure 400 "Validation failed", s)

/-- The binding of the identifier `getUserIdFromToken` in
`projectController.js`: the module neither declares nor imports it (only the
comment that announced the helper is left). -/
def getUserIdFromToken : Option (UpdateProjectRequest → ObjectId) := none

/-- The handler `updateProject` as the module defines it. -/
def updateProject (now : Int) (req : UpdateProjectRequest) (s : Store) : Response × Store :=
  updateProjectWith getUserIdFromToken now req s

/-! ## `controller/milestoneController.js`: `updateMilestone` and `addMilestone` -/

/-- The handler `updateMilestone`.  `validationErrors` is the result of
`validationResult(req)`.  After the two lookups,
`Project.updateOne({ userId, 'milestones._id': id }, { $set: { 'milestones.$.isAchived': true } })`
sets the flag on the first matching element of the first matching project,
and `timestamps: true` on both schemas adds `milestones.$.updatedAt` and the
project's `updatedAt` to the update; `project.save()` then writes the only
path modified on the loaded document, `updatedAt`. -/
def updateMilestone (now : Int) (validationErrors : List String)
    (milestoneId userId : ObjectId) (s : Store) : Response × Store :=
  if validationErrors ≠ [] then (failure 400 "Validation failed", s)
  else
    match s.projects.find? (fun p => p.userId = userId ∧
            p.milestones.any (fun m => m._id = milestoneId)) with
    | none => (failure 404 "Milestone not found or access denied", s)
    | some project =>
      match project.milestones.find? (fun m => m._id = milestoneId) with
      | none => (failure 404 "Milestone not found", s)
      | some _ =>
        let updated := updateFirst
          (fun p => p.userId = userId ∧ p.milestones.any (fun m => m._id = milestoneId))
          (fun p => { p with
            milestones := updateFirst (fun m => m._id = milestoneId)
              (fun m => { m with isAchived := true, updatedAt := some now }) p.milestones
            updatedAt := now }) s.projects
        ({ status := 200, success := some true,
           message := [Piece.text "Milestone updated successfully"] },
         { s with projects :=
            updated.map (fun q => if q._id = project._id then { q with updatedAt := now } else q) })

/-- The request `addMilestone` reads: the result of `validationResult(req)`,
`req.params.clientId`, `req.user._id` and the members of `req.body`
(`dueDate` is `none` when falsy and otherwise the value of `new Date(dueDate)`). -/
structure AddMilestoneRequest where
  validationErrors : List String
  clientId : ObjectId
  userId : ObjectId
  projectId : Option ObjectId
  name : Option String
  description : Option String
  percentage : Option ℚ
  amount : Option ℚ
  dueDate : Option JsDate
  status : Option String
  paymentMethod : Option String
  transactionId : Option String
  notes : Option String
deriving DecidableEq, Repr

/-- The handler `addMilestone`: the guard on the required members (a falsy
`name`, `percentage` or `amount` is "missing"), the project lookup, the
`push` of the new subdocument (the schema keeps none of `status`,
`paymentMethod`, `transactionId`, `paidDate`) and `project.save()`, whose
ValidationError the `catch` answers with 500. -/
def addMilestone (now : Int) (req : AddMilestoneRequest) (s : Store) : Response × Store :=
  if req.validationErrors ≠ [] then (failure 400 "Validation failed", s)
  else
    match req.projectId, req.name, req.percentage, req.amount, req.dueDate with
    | some projectId, some name, some percentage, some amount, some dueDate =>
      if name = "" ∨ percentage = 0 ∨ amount = 0 then
        (failure 400 "Missing required fields: projectId, name, percentage, amount, dueDate", s)
      else
        match findProject s.projects projectId req.clientId req.userId with
        | none => (failure 404 "Project not found or access denied", s)
        | some project =>
          match pushMilestone s.nextId now
              { name := some name, description := req.description,
                percentage := some percentage, amount := some amount, dueDate := dueDate,
                status := some (req.status.getD "Pending"), notes := req.notes } with
          | none => (failure 500 "Internal server error while adding milestone", s)
          | some doc =>
            ({ status := 201, success := some true,
               message := [Piece.text "Milestone added successfully"] },
             { s with
               projects := saveProject
                 { project with milestones := project.milestones ++ [doc], updatedAt := now }
                 s.projects
               nextId := s.nextId + 1 })
    | _, _, _, _, _ =>
      (failure 400 "Missing required fields: projectId, name, percentage, amount, dueDate", s)

/-! ## `controller/milestoneController.js`: `getMilestoneStats` -/

/-- Reading `milestone.paidDate` on a subdocument: `milestoneSchema` declares
no such path, so the property is `undefined` on every subdocument. -/
def Milestone.paidDate (_m : Milestone) : Option Int := none

/-- An element of `upcomingMilestones` or `recentPayments`:
`{ ...milestone.toObject(), projectName, clientName }`. -/
structure StatsEntry where
  milestone : Milestone
  projectName : String
  clientName : Option String
deriving DecidableEq, Repr

/-- The object `stats` of `getMilestoneStats`. -/
structure MilestoneStats where
  totalMilestones : Nat
  pendingMilestones : Nat
  paidMilestones : Nat
  overdueMilestones : Nat
  totalValue : ℚ
  pendingValue : ℚ
  paidValue : ℚ
  overdueValue : ℚ
  upcomingMilestones : List StatsEntry
  recentPayments : List StatsEntry
deriving DecidableEq, Repr

/-- Thirty days in milliseconds, `30 * 24 * 60 * 60 * 1000`. -/
def thirtyDays : Int := 30 * 24 * 60 * 60 * 1000

/-- The body of the inner `forEach` of `getMilestoneStats` for one milestone
of a project: the totals, the in-memory switch of a past-due `Pending` to
`Overdue`, the count by status, the recent payments and the upcoming list. -/
def statsStep (now : Int) (projectName : String) (clientName : Option String)
    (stats : MilestoneStats) (milestone : Milestone) : MilestoneStats :=
  let stats := { stats with
    totalMilestones := stats.totalMilestones + 1
    totalValue := stats.totalValue + milestone.amount }
  let entry : StatsEntry :=
    { milestone := milestone, projectName := projectName, clientName := clientName }
  let status : Option String :=
    if milestone.status = some "Pending" ∧ milestone.dueDate < now then some "Overdue"
    else milestone.status
  let stats :=
    if status = some "Pending" then
      { stats with
        pendingMilestones := stats.pendingMilestones + 1
        pendingValue := stats.pendingValue + milestone.amount }
    else if status = some "Paid" then
      let stats := { stats with
        paidMilestones := stats.paidMilestones + 1
        paidValue := stats.paidValue + milestone.amount }
      match milestone.paidDate with
      | some paidDate =>
        if paidDate ≥ now - thirtyDays then
          { stats with recentPayments := stats.recentPayments ++ [entry] }
        else stats
      | none => stats
    else if status = some "Overdue" then
      { stats with
        overdueMilestones := stats.overdueMilestones + 1
        overdueValue := stats.overdueValue + milestone.amount }
    else stats
  if status = some "Pending" ∧ milestone.dueDate ≤ now + thirtyDays then
    { stats with upcomingMilestones := stats.upcomingMilestones ++ [entry] }
  else stats

/-- The handler `getMilestoneStats` evaluated at `now`: `Project.find(query)`
with `clientId` in the query when the route gives one, the two nested
`forEach`, the two sorts and the two `slice(0, 10)`.  The handler answers 200
with these stats and issues no write: the store is returned as it was. -/
def getMilestoneStats (now : Int) (userId : ObjectId) (clientId : Option ObjectId)
    (s : Store) : MilestoneStats × Store :=
  let projects := s.projects.filter
    (fun p => p.userId = userId ∧ ∀ c, clientId = some c → p.clientId = c)
  let stats := projects.foldl (fun stats project =>
    project.milestones.foldl
      (statsStep now project.name
        ((s.clients.find? (fun c => c._id = project.clientId)).map (fun c => c.name)))
      stats)
    { totalMilestones := 0, pendingMilestones := 0, paidMilestones := 0,
      overdueMilestones := 0, totalValue := 0, pendingValue := 0, paidValue := 0,
      overdueValue := 0, upcomingMilestones := [], recentPayments := [] }
  ({ stats with
     upcomingMilestones :=
       (stats.upcomingMilestones.insertionSort
         (fun a b => a.milestone.dueDate ≤ b.milestone.dueDate)).take 10
     recentPayments :=
       (stats.recentPayments.insertionSort
         (fun a b => b.milestone.paidDate.getD 0 ≤ a.milestone.paidDate.getD 0)).take 10 }, s)

/-! ## More properties the operations are checked against -/

/-- What marking the milestone `milestoneId` achieved at `now` does to a
stored milestone: the one with that `_id` gets `isAchived = true` and
`updatedAt = now`, every other one is left as it is. -/
def achievedAt (now : Int) (milestoneId : ObjectId) (x : Milestone) : Milestone :=
  if x._id = milestoneId then { x with isAchived := true, updatedAt := some now } else x

/-- The milestone `_id`s of a store are pairwise distinct. -/
def Store.milestoneIdsDistinct (s : Store) : Prop :=
  ((s.projects.flatMap (fun p => p.milestones)).map (fun m => m._id)).Nodup

/-! ## More sample data -/

/-- The store `zeroCountStore` with two expenses of user 1 and one of user 2. -/
def statsStore : Store :=
  { zeroCountStore with
    expenses :=
      [{ _id := 41, title := "Hosting", description := "", amount := 120, currency := "INR",
         category := "Infra", expenseDate := 0, tags := [], userId := 1 },
       { _id := 42, title := "Domain", description := "", amount := 30, currency := "INR",
         category := "Infra", expenseDate := 0, tags := [], userId := 1 },
       { _id := 43, title := "Other", description := "", amount := 7, currency := "INR",
         category := "Misc", expenseDate := 0, tags := [], userId := 2 }] }

/-- A request of user 1 to add a milestone of the given percentage and amount
to `demoProject`. -/
def demoAddRequest (percentage amount : ℚ) : AddMilestoneRequest :=
  { validationErrors := [], clientId := 2, userId := 1, projectId := some 10,
    name := some "Extra", description := none, percentage := some percentage,
    amount := some amount, dueDate := some (some 7), status := none, paymentMethod := none,
    transactionId := none, notes := none }

/-- A request of user 1 to mark `demoProject` completed. -/
def demoUpdateRequest : UpdateProjectRequest :=
  { id := 10, userId := 1, title := none, name := none, status := some "Completed",
    description := none }

/-! ## `controller/milestoneController.js`: the lists of `getMilestoneStats` -/

/-- The body of the inner `forEach` of `getMilestoneStats` with the two
property reads as parameters: `statusOf m` is what `milestone.status`
evaluates to and `paidDateOf m` what `milestone.paidDate` evaluates to. -/
def statsStepWith (statusOf : Milestone → Option String) (paidDateOf : Milestone → Option Int)
    (now : Int) (projectName : String) (clientName : Option String)
    (stats : MilestoneStats) (milestone : Milestone) : MilestoneStats :=
  let stats := { stats with
    totalMilestones := stats.totalMilestones + 1
    totalValue := stats.totalValue + milestone.amount }
  let entry : StatsEntry :=
    { milestone := milestone, projectName := projectName, clientName := clientName }
  let status : Option String :=
    if statusOf milestone = some "Pending" ∧ milestone.dueDate < now then some "Overdue"
    else statusOf milestone
  let stats :=
    if status = some "Pending" then
      { stats with
        pendingMilestones := stats.pendingMilestones + 1
        pendingValue := stats.pendingValue + milestone.amount }
    else if status = some "Paid" then
      let stats := { stats with
        paidMilestones := stats.paidMilestones + 1
        paidValue := stats.paidValue + milestone.amount }
      match paidDateOf milestone with
      | some paidDate =>
        if paidDate ≥ now - thirtyDays then
          { stats with recentPayments := stats.recentPayments ++ [entry] }
        else stats
      | none => stats
    else if status = some "Overdue" then
      { stats with
        overdueMilestones := stats.overdueMilestones + 1
        overdueValue := stats.overdueValue + milestone.amount }
    else stats
  if status = some "Pending" ∧ milestone.dueDate ≤ now + thirtyDays then
    { stats with upcomingMilestones := stats.upcomingMilestones ++ [entry] }
  else stats

/-- The handler `getMilestoneStats` with the two property reads as
parameters; `getMilestoneStats` is this function at the reads the schema
gives, `Milestone.status` and `Milestone.paidDate`. -/
def getMilestoneStatsWith (statusOf : Milestone → Option String)
    (paidDateOf : Milestone → Option Int) (now : Int) (userId : ObjectId)
    (clientId : Option ObjectId) (s : Store) : MilestoneStats × Store :=
  let projects := s.projects.filter
    (fun p => p.userId = userId ∧ ∀ c, clientId = some c → p.clientId = c)
  let stats := projects.foldl (fun stats project =>
    project.milestones.foldl
      (statsStepWith statusOf paidDateOf now project.name
        ((s.clients.find? (fun c => c._id = project.clientId)).map (fun c => c.name)))
      stats)
    { totalMilestones := 0, pendingMilestones := 0, paidMilestones := 0,
      overdueMilestones := 0, totalValue := 0, pendingValue := 0, paidValue := 0,
      overdueValue := 0, upcomingMilestones := [], recentPayments := [] }
  ({ stats with
     upcomingMilestones :=
       (stats.upcomingMilestones.insertionSort
         (fun a b => a.milestone.dueDate ≤ b.milestone.dueDate)).take 10
     recentPayments :=
       (stats.recentPayments.insertionSort
         (fun a b => (paidDateOf b.milestone).getD 0 ≤ (paidDateOf a.milestone).getD 0)).take 10 },
   s)

/-- The milestones `getMilestoneStats` visits, in the order of the two nested
`forEach`, each with its project's name and its client's name. -/
def statsEntries (userId : ObjectId) (clientId : Option ObjectId) (s : Store) :
    List StatsEntry :=
  (s.projects.filter
    (fun p => p.userId = userId ∧ ∀ c, clientId = some c → p.clientId = c)).flatMap
    (fun p => p.milestones.map (fun m =>
      { milestone := m, projectName := p.name,
        clientName := (s.clients.find? (fun c => c._id = p.clientId)).map (fun c => c.name) }))

/-- A milestone that reads `Pending` and is due between `now` and thirty days
after `now`. -/
def isUpcoming (statusOf : Milestone → Option String) (now : Int) (e : StatsEntry) : Bool :=
  statusOf e.milestone = some "Pending" ∧ now ≤ e.milestone.dueDate ∧
    e.milestone.dueDate ≤ now + thirtyDays

/-- A milestone that reads `Paid` with a `paidDate` not older than thirty days
before `now`. -/
def isRecentPayment (statusOf : Milestone → Option String)
    (paidDateOf : Milestone → Option Int) (now : Int) (e : StatsEntry) : Bool :=
  decide (statusOf e.milestone = some "Paid") &&
    (match paidDateOf e.milestone with
     | some paidDate => decide (now - thirtyDays ≤ paidDate)
     | none => false)

/-! ## `controller/EstimateController.js` -/

/-- One element of `req.body.estimates`. -/
structure EstimateInput where
  name : Option String
  description : Option String
  timeline : Option String
  price : Option ℚ
  features : Option (List String)
  techStack : Option (List String)
deriving DecidableEq, Repr

/-- The request `AddAllEstimate` reads: `req.user.id`, `req.params.id`
(`none` when `mongoose.Types.ObjectId.isValid` rejects it) and
`req.body.estimates` (`none` when missing or not an array). -/
structure AddAllEstimateRequest where
  userId : ObjectId
  projectId : Option ObjectId
  estimates : Option (List EstimateInput)
deriving DecidableEq, Repr

/-- The test of the validation loop that an estimate lacks `name`,
`description`, `timeline` or `price`:
`!estimate.name || !estimate.description || !estimate.timeline || estimate.price == null`. -/
def lacksField (e : EstimateInput) : Bool :=
  e.name.getD "" = "" ∨ e.description.getD "" = "" ∨ e.timeline.getD "" = "" ∨ e.price = none

/-- The test `estimate.price < 0` of the validation loop. -/
def negativePrice (e : EstimateInput) : Bool :=
  match e.price with
  | some price => decide (price < 0)
  | none => false

/-- The loop `for (const estimate of estimatesToSave)`: the answer of the
first estimate that fails a test, `none` when every estimate passes. -/
def validateEstimates : List EstimateInput → Option Response
  | [] => none
  | e :: rest =>
    if lacksField e then
      some (failure 400 "Each estimate must have name, description, timeline, and price")
    else if negativePrice e then some (failure 400 "Price cannot be negative")
    else validateEstimates rest

/-- One document of `Estimate.insertMany` as `estimatePlanSchema` casts and
validates it: `name` and every entry of `features` and `techStack` trimmed,
`required` on `name`, `description`, `timeline` and `price`,
`maxlength 1000` on `description`, `min 0` on `price`; `isSelected: false`.
`none` is a ValidationError. -/
def castEstimate (id projectId : ObjectId) (e : EstimateInput) : Option Estimate :=
  match e.name, e.description, e.timeline, e.price with
  | some name, some description, some timeline, some price =>
    if jsTrim name ≠ "" ∧ description ≠ "" ∧ utf16Length description ≤ 1000 ∧
        timeline ≠ "" ∧ 0 ≤ price then
      some { _id := id, projectId := projectId, name := jsTrim name,
             description := description, timeline := timeline, price := price,
             features := (e.features.getD []).map jsTrim,
             techStack := (e.techStack.getD []).map jsTrim, isSelected := false }
    else none
  | _, _, _, _ => none

/-- The documents of `Estimate.insertMany(estimatesToSave)`, ids drawn in
order from `id` on; `none` when one of them fails validation, in which case
none is inserted. -/
def castEstimates : ObjectId → ObjectId → List EstimateInput → Option (List Estimate)
  | _, _, [] => some []
  | id, projectId, e :: rest =>
    match castEstimate id projectId e, castEstimates (id + 1) projectId rest with
    | some d, some ds => some (d :: ds)
    | _, _ => none

/-- The handler `AddAllEstimate`: the two guards, the deletion of the
project's existing estimates, the validation loop, `insertMany`, whose
ValidationError the `catch` answers with 400. -/
def AddAllEstimate (req : AddAllEstimateRequest) (s : Store) : Response × Store :=
  match req.estimates with
  | none => (failure 400 "Estimates array is required and cannot be empty", s)
  | some estimates =>
    if estimates.length = 0 then
      (failure 400 "Estimates array is required and cannot be empty", s)
    else
      match req.projectId with
      | none => (failure 400 "Invalid project ID", s)
      | some projectId =>
        let existingEstimates := s.estimates.filter (fun e => e.projectId = projectId)
        let s1 : Store :=
          if existingEstimates.length > 0 then
            { s with estimates := s.estimates.filter (fun e => e.projectId ≠ projectId) }
          else s
        match validateEstimates estimates with
        | some answer => (answer, s1)
        | none =>
          match castEstimates s1.nextId projectId estimates with
          | none => (failure 400 "Validation error", s1)
          | some savedEstimates =>
            ({ status := 201, success := some true,
               message := [Piece.num savedEstimates.length,
                           Piece.text " estimates saved successfully"] },
             { s1 with estimates := s1.estimates ++ savedEstimates,
                       nextId := s1.nextId + estimates.length })

/-- The handler `SelectEstimateById`: `req.params.id` is `none` when
`ObjectId.isValid` rejects it; otherwise
`Estimate.findByIdAndUpdate(estimateId, { isSelected: true }, { new: true })`. -/
def SelectEstimateById (estimateId : Option ObjectId) (s : Store) : Response × Store :=
  match estimateId with
  | none => (failure 400 "Invalid estimate ID", s)
  | some id =>
    match s.estimates.find? (fun e => e._id = id) with
    | none => (failure 404 "Estimate not found", s)
    | some _ =>
      ({ status := 200, success := some true,
         message := [Piece.text "Estimate selected successfully"] },
       { s with estimates :=
          updateFirst (fun e => e._id = id) (fun e => { e with isSelected := true }) s.estimates })

/-- A sequence of `SelectEstimateById` calls, one after the other. -/
def selectEstimates (ids : List (Option ObjectId)) (s : Store) : Store :=
  ids.foldl (fun st id => (SelectEstimateById id st).2) s

/-! ## `Triggers.js`: the project cascade hook -/

/-- A filter on the Project collection, as `this.getQuery()` returns it. -/
structure ProjectFilter where
  _id : Option ObjectId
  clientId : Option ObjectId
  userId : Option ObjectId
deriving DecidableEq, Repr

/-- The filter of the `Project.deleteMany({ clientId, userId })` of
`deleteClient`: it has no `_id` member. -/
def deleteClientProjectFilter (clientId userId : ObjectId) : ProjectFilter :=
  { _id := none, clientId := some clientId, userId := some userId }

/-- The pre-delete hook on Project: `mongoose.model('Estimate')` (which throws
when the model is not registered), `this.getQuery()._id`, and when that is
set `Estimate.deleteMany({ projectId })`, whose rejection its `.catch` turns
into `deletedCount: 0`; the outer `catch` logs and does not rethrow.  The
result is the store and the logged count, when the delete was reached. -/
def projectCascadeHook (registered : String → Bool) (estimateFails : Bool)
    (query : ProjectFilter) (s : Store) : Store × Option Nat :=
  if ¬ registered "Estimate" then (s, none)
  else
    match query._id with
    | none => (s, none)
    | some projectId =>
      if estimateFails then (s, some 0)
      else
        ({ s with estimates := s.estimates.filter (fun e => e.projectId ≠ projectId) },
         some (s.estimates.filter (fun e => e.projectId = projectId)).length)

/-! ## `controller/authControllers.js`: `protect` -/

/-- The database calls of `protect` that can reject, in program order. -/
inductive ProtectOp where
  | userFindById
  | updateDashboardStats
  | calculateCurrentMonthRevenue
  | revenueUpdateOne
deriving DecidableEq, Repr

/-- How `protect` ends: it answers the request itself, or it calls `next()`. -/
inductive ProtectOutcome where
  | answered (response : Response)
  | next
deriving DecidableEq, Repr

/-- `Revenue.updateOne({ userId, month, year }, { userId, month, year, revenue },
{ upsert: true })`: the first matching row gets the revenue, and a row is
inserted when none matches. -/
def upsertRevenue (now : Int) (userId : ObjectId) (year : Int) (month : String) (revenue : ℚ)
    (s : Store) : Store :=
  match s.revenues.find? (fun r => r.userId = userId ∧ r.month = month ∧ r.year = year) with
  | some _ =>
    { s with
      revenues :=
        updateFirst (fun r => r.userId = userId ∧ r.month = month ∧ r.year = year)
          (fun r => { r with revenue := revenue }) s.revenues }
  | none =>
    { s with
      revenues := s.revenues ++
        [{ _id := s.nextId, userId := userId, year := year, month := month,
           revenue := revenue, calculatedAt := now }]
      nextId := s.nextId + 1 }

/-- The answer of the `catch` of `protect`. -/
def protectCaught : ProtectOutcome :=
  ProtectOutcome.answered (failure 500 "Internal server error")

/-- The middleware `protect` evaluated at `now`.  `token` is the bearer token
of the Authorization header, `verify token` the id `verifyToken` decodes
(`none` when the token is invalid), `users` the `_id`s of the stored users;
`fails op` says that the database call `op` rejects, which transfers control
to the `catch`. -/
def protect (cal : Calendar) (now : Int) (token : Option String)
    (verify : String → Option ObjectId) (users : List ObjectId) (fails : ProtectOp → Bool)
    (s : Store) : ProtectOutcome × Store :=
  match token with
  | none => (ProtectOutcome.answered (failure 401 "Not authorized. No token provided."), s)
  | some token =>
    match verify token with
    | none => (ProtectOutcome.answered (failure 401 "Not authorized. Invalid token."), s)
    | some id =>
      if fails ProtectOp.userFindById then (protectCaught, s)
      else if id ∉ users then (ProtectOutcome.answered (failure 401 "User not found."), s)
      else if fails ProtectOp.updateDashboardStats then (protectCaught, s)
      else
        let s1 := (updateDashboardStats now id s).2
        if fails ProtectOp.calculateCurrentMonthRevenue then (protectCaught, s1)
        else
          let revenue1 := calculateCurrentMonthRevenue cal now id s1
          if fails ProtectOp.revenueUpdateOne then (protectCaught, s1)
          else
            (ProtectOutcome.next,
             upsertRevenue now id revenue1.year (revenue1.month.getD "") revenue1.revenue s1)

/-! ## Properties the estimate operations are checked against -/

/-- A stored estimate carries what an input element gave: the project id of
the request, the `name` with the surrounding whitespace trimmed, the
`description`, `timeline` and `price` as given, every entry of `features` and
`techStack` trimmed, and `isSelected` false. -/
def estimateCarries (projectId : ObjectId) (input : EstimateInput) (doc : Estimate) : Prop :=
  doc.projectId = projectId ∧ input.name.map jsTrim = some doc.name ∧
  input.description = some doc.description ∧ input.timeline = some doc.timeline ∧
  input.price = some doc.price ∧ doc.features = (input.features.getD []).map jsTrim ∧
  doc.techStack = (input.techStack.getD []).map jsTrim ∧ doc.isSelected = false

/-- The `_id`s of the stored estimates are pairwise distinct and lie below the
store's source of fresh ids. -/
def Store.estimateIdsFresh (s : Store) : Prop :=
  (s.estimates.map (fun e => e._id)).Nodup ∧ ∀ e ∈ s.estimates, e._id < s.nextId

/-- The estimate with `isSelected` set when one of the calls addressed it. -/
def selectedBy (ids : List (Option ObjectId)) (e : Estimate) : Estimate :=
  if some e._id ∈ ids then { e with isSelected := true } else e

/-! ## Sample data for the estimate operations -/

/-- An input estimate with the given name and price. -/
def demoEstimateInput (name : String) (price : ℚ) : EstimateInput :=
  { name := some name, description := some "d", timeline := some "2w", price := some price,
    features := some [" login "], techStack := none }

/-- A request of user 1 to store estimates for project 10. -/
def demoEstimateRequest (es : List EstimateInput) : AddAllEstimateRequest :=
  { userId := 1, projectId := some 10, estimates := some es }

/-! ## Lemmas and theorems -/
theorem foldl_add_eq_sum {α : Type} (f : α → ℚ) (l : List α) (a : ℚ) :
    l.foldl (fun sum m => sum + f m) a = a + (l.map f).sum := by
  induction l generalizing a with
  | nil => simp
  | cons x xs ih => simp [List.foldl_cons, ih, add_assoc]

theorem totalPercentage_eq_binary64Sum (ms : List MilestoneInput) :
    totalPercentage ms = binary64Sum (ms.map (fun m => m.percentage.getD 0)) := by
  unfold totalPercentage binary64Sum
  rw [List.foldl_map]

theorem findProject_of_mem {ps : List Project} {p : Project} (hp : p ∈ ps) :
    ∃ q, findProject ps p._id p.clientId p.userId = some q := by
  cases h : findProject ps p._id p.clientId p.userId with
  | some q => exact ⟨q, rfl⟩
  | none =>
    simp [findProject, List.find?_eq_none] at h
    exact absurd rfl (h p hp rfl rfl)

theorem findProject_saveProject {ps : List Project} {i c u : ObjectId} {p p' : Project}
    (h : findProject ps i c u = some p) (hi : p'._id = p._id) (hc : p'.clientId = p.clientId)
    (hu : p'.userId = p.userId) :
    findProject (saveProject p' ps) i c u = some p' := by
  induction ps with
  | nil => simp [findProject] at h
  | cons q qs ih =>
    have hp : p._id = i ∧ p.clientId = c ∧ p.userId = u := by
      have := List.find?_some h
      simpa using this
    have hp' : p'._id = i ∧ p'.clientId = c ∧ p'.userId = u := by
      rw [hi, hc, hu]; exact hp
    unfold findProject at h ih ⊢
    simp only [saveProject, List.map_cons, List.find?_cons] at h ih ⊢
    by_cases hq : q._id = p'._id
    · simp [hq, hp']
    · simp only [hq, if_false]
      by_cases hm : (q._id = i ∧ q.clientId = c ∧ q.userId = u)
      · exfalso
        apply hq
        rw [hm.1, hp'.1]
      · simp only [hm, decide_False] at h ⊢
        exact ih h

theorem pushMilestones_spec {id : ObjectId} {now : Int} {ms : List MilestoneInput}
    {docs : List Milestone} (h : pushMilestones id now ms = some docs) :
    List.Forall₂ carries ms docs ∧
    (docs.map (fun d => d.percentage)).sum = (ms.map (fun m => m.percentage.getD 0)).sum ∧
    ∀ d ∈ docs, id ≤ d._id := by
  induction ms generalizing id docs with
  | nil =>
    simp [pushMilestones] at h
    subst h
    simp
  | cons m rest ih =>
    unfold pushMilestones at h
    cases hd : pushMilestone id now m with
    | none => simp [hd] at h
    | some d =>
      cases hr : pushMilestones (id + 1) now rest with
      | none => simp [hd, hr] at h
      | some ds =>
        simp only [hd, hr, Option.some.injEq] at h
        subst h
        obtain ⟨h1, h2, h3⟩ := ih hr
        have hcar : carries m d ∧ d.percentage = m.percentage.getD 0 ∧ d._id = id := by
          unfold pushMilestone at hd
          split at hd
          · rename_i name percentage amount dueDate hn hpc ha hdd
            split at hd
            · simp only [Option.some.injEq] at hd
              subst hd
              simp [carries, hn, hpc, ha, hdd]
            · simp at hd
          · simp at hd
        refine ⟨List.Forall₂.cons hcar.1 h1, ?_, ?_⟩
        · simp [h2, hcar.2.1]
        · intro x hx
          rcases List.mem_cons.1 hx with rfl | hx
          · exact le_of_eq hcar.2.2.symm
          · exact le_trans (Nat.le_succ id) (h3 x hx)

/-- C1 (counterexample): the percentages 100 and 1e-17 sum to more than 100,
but their total as the `reduce` computes it in binary64 is 100: the request is
answered 201 and the project's milestone list is replaced. -/
theorem createMilestones_accepts_sum_over_100 :
    100 < (overfullInputs.map (fun m => m.percentage.getD 0)).sum ∧
    totalPercentage overfullInputs = 100 ∧
    (createMilestones 9 (demoRequest overfullInputs) demoStore).1.status = 201 ∧
    demoStore.projects.map (fun p => p.milestones.map (fun m => m.name)) = [["Old"]] ∧
    (createMilestones 9 (demoRequest overfullInputs) demoStore).2.projects.map
      (fun p => p.milestones.map (fun m => m.name)) = [["A", "B"]] := by
  decide!

/-- C1 (amended): when the request addresses a stored project as its owner and
the percentages of a non-empty list, added left to right in binary64 (an
absent one counting 0), total more than 100, `createMilestones` answers 400,
the message carries that total, and the store (so the project's milestones,
startDate, endDate and estimateId) is unchanged. -/
theorem createMilestones_rejects_total_over_100 (now : Int) (req : CreateMilestonesRequest)
    (s : Store) (p : Project) (ms : List MilestoneInput) (hp : p ∈ s.projects)
    (hid : req.projectId = p._id) (hc : req.clientId = p.clientId)
    (hu : req.userId = p.userId) (hms : req.milestones = some ms) (hne : ms ≠ [])
    (hsum : 100 < binary64Sum (ms.map (fun m => m.percentage.getD 0))) :
    (createMilestones now req s).1.status = 400 ∧
    (createMilestones now req s).1.message =
      [Piece.text "Total milestone percentages cannot exceed 100%. Current total: ",
       Piece.num (binary64Sum (ms.map (fun m => m.percentage.getD 0))), Piece.text "%"] ∧
    (createMilestones now req s).2 = s := by
  obtain ⟨q, hq⟩ := findProject_of_mem hp
  have hlen : ¬ ms.length = 0 := fun h => hne (List.length_eq_zero.1 h)
  unfold createMilestones
  simp only [hms, hlen, if_false, hid, hc, hu, hq, totalPercentage_eq_binary64Sum, gt_iff_lt,
    hsum, if_true]
  exact ⟨trivial, trivial, trivial⟩

theorem createMilestones_rejects_total_over_100_witness :
    (createMilestones 9 (demoRequest fractionalInputs) demoStore).1.status = 400 ∧
    (createMilestones 9 (demoRequest fractionalInputs) demoStore).1.message =
      [Piece.text "Total milestone percentages cannot exceed 100%. Current total: ",
       Piece.num (binary64Sum (fractionalInputs.map (fun m => m.percentage.getD 0))),
       Piece.text "%"] ∧
    (createMilestones 9 (demoRequest fractionalInputs) demoStore).2 = demoStore :=
  createMilestones_rejects_total_over_100 9 _ demoStore demoProject _
    (by simp [demoStore]) rfl rfl rfl rfl (by simp [fractionalInputs]) (by decide!)

/-- What a successful `createMilestones` leaves behind. -/
theorem createMilestones_success {now : Int} {req : CreateMilestonesRequest} {s : Store}
    (h : (createMilestones now req s).1.status = 201) :
    ∃ ms p docs p',
      req.milestones = some ms ∧
      findProject s.projects req.projectId req.clientId req.userId = some p ∧
      pushMilestones s.nextId now ms = some docs ∧
      totalPercentage ms ≤ 100 ∧
      p'.milestones = docs ∧
      findProject (createMilestones now req s).2.projects req.projectId req.clientId
        req.userId = some p' := by
  unfold createMilestones at h ⊢
  cases hms : req.milestones with
  | none => simp [hms, failure] at h
  | some ms =>
    simp only [hms] at h ⊢
    by_cases hlen : ms.length = 0
    · simp [hlen, failure] at h
    · simp only [hlen, if_false] at h ⊢
      cases hf : findProject s.projects req.projectId req.clientId req.userId with
      | none => simp [hf, failure] at h
      | some p =>
        simp only [hf] at h ⊢
        by_cases htot : totalPercentage ms > 100
        · simp [htot] at h
        · simp only [htot, if_false] at h ⊢
          cases hd : pushMilestones s.nextId now ms with
          | none => simp [hd, failure] at h
          | some docs =>
            cases hs : assignDate (some p.startDate) req.startDate with
            | none => simp [hd, hs, failure] at h
            | some sd =>
              cases sd with
              | none => simp [hd, hs, failure] at h
              | some startDate =>
                cases he : assignDate p.endDate req.endDate with
                | none => simp [hd, hs, he, failure] at h
                | some endDate =>
                  simp only [hd, hs, he]
                  exact ⟨ms, p, docs, bulkAssigned p docs startDate endDate req.estimateId now, rfl, rfl,
                    hd, not_lt.1 htot, rfl, findProject_saveProject hf rfl rfl rfl⟩

theorem pushMilestones_percentages {id : ObjectId} {now : Int} {ms : List MilestoneInput}
    {docs : List Milestone} (h : pushMilestones id now ms = some docs) :
    docs.map (fun d => d.percentage) = ms.map (fun m => m.percentage.getD 0) ∧
    ∀ d ∈ docs, 0 ≤ d.percentage ∧ d.percentage ≤ 100 := by
  induction ms generalizing id docs with
  | nil =>
    simp [pushMilestones] at h
    subst h
    simp
  | cons m rest ih =>
    unfold pushMilestones at h
    cases hd : pushMilestone id now m with
    | none => simp [hd] at h
    | some d =>
      cases hr : pushMilestones (id + 1) now rest with
      | none => simp [hd, hr] at h
      | some ds =>
        simp only [hd, hr, Option.some.injEq] at h
        subst h
        obtain ⟨h1, h2⟩ := ih hr
        have hfirst : d.percentage = m.percentage.getD 0 ∧ 0 ≤ d.percentage ∧
            d.percentage ≤ 100 := by
          unfold pushMilestone at hd
          split at hd
          · rename_i name percentage amount dueDate hn hpc ha hdd
            split at hd
            · rename_i hvalid
              simp only [Option.some.injEq] at hd
              subst hd
              exact ⟨by simp [hpc], hvalid.2.2.1, hvalid.2.2.2.1⟩
            · simp at hd
          · simp at hd
        refine ⟨?_, ?_⟩
        · simp only [List.map_cons, h1, hfirst.1]
        · intro x hx
          rcases List.mem_cons.1 hx with rfl | hx
          · exact hfirst.2
          · exact h2 x hx

/-- C2 (counterexample): after the successful `createMilestones` with the
percentages 100 and 1e-17, the stored percentages of the project sum to more
than 100. -/
theorem createMilestones_stored_sum_over_100 :
    (createMilestones 9 (demoRequest overfullInputs) demoStore).1.status = 201 ∧
    (createMilestones 9 (demoRequest overfullInputs) demoStore).2.projects.map
      (fun p => decide (100 < (p.milestones.map (fun m => m.percentage)).sum)) = [true] ∧
    (createMilestones 9 (demoRequest overfullInputs) demoStore).2.projects.map
      (fun p => binary64Sum (p.milestones.map (fun m => m.percentage))) = [100] := by
  decide!

/-- C2 (amended): after a successful `createMilestones` (201) the project the
request addresses is stored with milestones whose percentages lie between 0
and 100 and, added left to right in binary64, total at most 100. -/
theorem createMilestones_success_total_le_100 (now : Int) (req : CreateMilestonesRequest)
    (s : Store) (h : (createMilestones now req s).1.status = 201) :
    ∃ p', findProject (createMilestones now req s).2.projects req.projectId req.clientId
            req.userId = some p' ∧
          binary64Sum (p'.milestones.map (fun m => m.percentage)) ≤ 100 ∧
          ∀ m ∈ p'.milestones, 0 ≤ m.percentage ∧ m.percentage ≤ 100 := by
  obtain ⟨ms, p, docs, p', _, _, hd, htot, hm, hf⟩ := createMilestones_success h
  obtain ⟨hmap, hrange⟩ := pushMilestones_percentages hd
  refine ⟨p', hf, ?_, ?_⟩
  · rw [hm, hmap, ← totalPercentage_eq_binary64Sum]
    exact htot
  · rw [hm]
    exact hrange

theorem createMilestones_success_total_le_100_witness :
    ∃ p', findProject (createMilestones 9 (demoRequest [demoInput "A" 60 6000, demoInput "B" 40 4000])
              demoStore).2.projects 10 2 1 = some p' ∧
          binary64Sum (p'.milestones.map (fun m => m.percentage)) ≤ 100 ∧
          ∀ m ∈ p'.milestones, 0 ≤ m.percentage ∧ m.percentage ≤ 100 :=
  createMilestones_success_total_le_100 9 (demoRequest [demoInput "A" 60 6000, demoInput "B" 40 4000])
    demoStore (by decide!)

/-- C3, the claim as stated fails: a name with surrounding whitespace is
accepted (201) and stored trimmed, so the stored element does not carry the
input's name. -/
theorem createMilestones_stores_trimmed_name :
    (createMilestones 9 (demoRequest [demoInput " Kickoff " 40 4000]) demoStore).1.status = 201 ∧
    (createMilestones 9 (demoRequest [demoInput " Kickoff " 40 4000]) demoStore).2.projects.map
        (fun p => p.milestones.map (fun m => some m.name)) = [[some "Kickoff"]] ∧
    (createMilestones 9 (demoRequest [demoInput " Kickoff " 40 4000]) demoStore).2.projects.map
        (fun p => p.milestones.map (fun m => some m.name)) ≠
      [[(demoInput " Kickoff " 40 4000).name]] := by
  decide!

/-- C3 (amended): a successful `createMilestones` (201) on a project with any
prior milestone list stores, for the addressed project, a list of the input's
length and order whose elements carry the input's name trimmed of surrounding
whitespace and its description, percentage, amount, dueDate and notes; no
subdocument stored before remains (every new `_id` differs from every old one). -/
theorem createMilestones_replaces_list (now : Int) (req : CreateMilestonesRequest)
    (s : Store) (p : Project) (ms : List MilestoneInput) (hids : s.idsBelowNext)
    (hfind : findProject s.projects req.projectId req.clientId req.userId = some p)
    (hms : req.milestones = some ms)
    (hok : (createMilestones now req s).1.status = 201) :
    ∃ p', findProject (createMilestones now req s).2.projects req.projectId req.clientId
            req.userId = some p' ∧
          p'.milestones.length = ms.length ∧
          List.Forall₂ carries ms p'.milestones ∧
          (∀ old ∈ p.milestones, ∀ m ∈ p'.milestones, m._id ≠ old._id) ∧
          (∀ old ∈ p.milestones, old ∉ p'.milestones) := by
  obtain ⟨ms', p0, docs, p', hms', hf0, hd, _, hm, hf⟩ := createMilestones_success hok
  have e1 : ms' = ms := by rw [hms] at hms'; exact (Option.some.inj hms').symm
  have e2 : p0 = p := by rw [hfind] at hf0; exact (Option.some.inj hf0).symm
  subst e1 e2
  obtain ⟨hcar, _, hge⟩ := pushMilestones_spec hd
  have hmem : p0 ∈ s.projects := List.mem_of_find?_eq_some hfind
  have hfresh : ∀ old ∈ p0.milestones, ∀ m ∈ p'.milestones, m._id ≠ old._id := by
    intro old hold m hm'
    rw [hm] at hm'
    have h1 := (hids p0 hmem).2 old hold
    have h2 := hge m hm'
    intro h
    rw [h] at h2
    exact absurd h1 (not_lt.2 h2)
  refine ⟨p', hf, ?_, ?_, hfresh, ?_⟩
  · rw [hm]; exact hcar.length_eq.symm
  · rw [hm]; exact hcar
  · intro old hold hin
    exact hfresh old hold old hin rfl

theorem createMilestones_replaces_list_witness :
    ∃ p', findProject (createMilestones 9 (demoRequest [demoInput " Kickoff " 40 4000, demoInput "Launch" 60 6000])
              demoStore).2.projects 10 2 1 = some p' ∧
          p'.milestones.length = 2 ∧
          List.Forall₂ carries [demoInput " Kickoff " 40 4000, demoInput "Launch" 60 6000] p'.milestones ∧
          (∀ old ∈ demoProject.milestones, ∀ m ∈ p'.milestones, m._id ≠ old._id) ∧
          (∀ old ∈ demoProject.milestones, old ∉ p'.milestones) :=
  createMilestones_replaces_list 9
    (demoRequest [demoInput " Kickoff " 40 4000, demoInput "Launch" 60 6000]) demoStore demoProject
    [demoInput " Kickoff " 40 4000, demoInput "Launch" 60 6000]
    (by simp [Store.idsBelowNext, demoStore, demoProject, demoMilestone]) (by decide!) rfl (by decide!)

/-- C4 (the code at the failing input): the guard of `deleteMilestone` reads a
property the schema never stores, so no request is ever answered 400; a
milestone submitted with status "Paid" is stored (with `_id` 100) and then
deleted with answer 200, leaving the project without milestones. -/
theorem deleteMilestone_deletes_paid_milestone :
    (∀ (now : Int) (milestoneId userId : ObjectId) (s : Store),
      (deleteMilestone now milestoneId userId s).1.status ≠ 400) ∧
    (createMilestones 9
        (demoRequest [{ demoInput "Deposit" 40 4000 with status := some "Paid" }]) demoStore).1.status = 201 ∧
    (createMilestones 9
        (demoRequest [{ demoInput "Deposit" 40 4000 with status := some "Paid" }]) demoStore).2.projects.map
      (fun p => p.milestones.map (fun m => m._id)) = [[100]] ∧
    (deleteMilestone 12 100 1 (createMilestones 9
        (demoRequest [{ demoInput "Deposit" 40 4000 with status := some "Paid" }]) demoStore).2).1.status = 200 ∧
    (deleteMilestone 12 100 1 (createMilestones 9
        (demoRequest [{ demoInput "Deposit" 40 4000 with status := some "Paid" }]) demoStore).2).2.projects.map
      (fun p => p.milestones) = [[]] := by
  refine ⟨?_, by decide!, by decide!, by decide!, by decide!⟩
  intro now milestoneId userId s
  unfold deleteMilestone
  split
  · simp [failure]
  · split
    · simp [failure]
    · simp [Milestone.status]

theorem getMonthName_inj {a b : Nat} (ha : a < 12) (hb : b < 12) :
    getMonthName a = getMonthName b ↔ a = b := by
  constructor
  · intro h
    interval_cases a <;> interval_cases b <;> first | rfl | (exact absurd h (by decide!))
  · intro h; rw [h]

theorem inner_revenue_loop (cal : Calendar) (now : Int) (ms : List Milestone) (acc : ℚ) :
    ms.foldl (fun totalRevenue milestone =>
        match milestone.updatedAt with
        | some updatedAt =>
          if milestone.isAchived then
            if getMonthName (cal.getMonth updatedAt) = getMonthName (cal.getMonth now) ∧
                cal.getFullYear updatedAt = cal.getFullYear now then
              jsAdd totalRevenue milestone.amount
            else totalRevenue
          else totalRevenue
        | none => totalRevenue) acc =
      ((ms.filter (countsThisMonth cal now)).map (fun m => m.amount)).foldl jsAdd acc := by
  induction ms generalizing acc with
  | nil => rfl
  | cons m rest ih =>
    rw [List.foldl_cons, ih]
    cases hu : m.updatedAt with
    | none => simp [countsThisMonth, hu]
    | some t =>
      cases ha : m.isAchived with
      | false => simp [countsThisMonth, hu, ha]
      | true =>
        by_cases hm : cal.getMonth t = cal.getMonth now
        · by_cases hy : cal.getFullYear t = cal.getFullYear now
          · simp [countsThisMonth, hu, ha, hm, hy]
          · simp [countsThisMonth, hu, ha, hm, hy]
        · have hn : ¬ getMonthName (cal.getMonth t) = getMonthName (cal.getMonth now) :=
            fun h => hm ((getMonthName_inj (cal.getMonth_lt t) (cal.getMonth_lt now)).1 h)
          simp [countsThisMonth, hu, ha, hm, hn]

/-- C5 (counterexample): two milestones of amounts 0.1 and 0.2, both achieved
in the month of the evaluation, give the revenue 0.30000000000000004, the
binary64 sum, which is not the sum of the two amounts. -/
theorem calculateCurrentMonthRevenue_not_exact_sum :
    (calculateCurrentMonthRevenue (gregorian 0) 1763596800000 1 dimeStore).revenue =
      1351079888211149 / 4503599627370496 ∧
    ((((dimeStore.projects.filter (fun p => p.userId = 1 ∨ p.clientId = 1)).flatMap
        (fun p => p.milestones)).filter (countsThisMonth (gregorian 0) 1763596800000)).map
      (fun m => m.amount)) = [round64 (1 / 10), round64 (2 / 10)] ∧
    (calculateCurrentMonthRevenue (gregorian 0) 1763596800000 1 dimeStore).revenue ≠
      round64 (1 / 10) + round64 (2 / 10) := by
  decide!

/-- C5 (amended): at every evaluation instant `now`,
`calculateCurrentMonthRevenue` returns as revenue the total, added in the
order of the projects and their milestones and in binary64, of `amount` over
exactly the milestones, of the projects matched by `userId` or `clientId`,
whose `isAchived` is true and whose `updatedAt` lies in the month and year of
`now`, labelled with that year and month name; in the scenario (4000 achieved
on 2025-11-05, 6000 not achieved) evaluated on 2025-11-20 the revenue is 4000
for November 2025. -/
theorem calculateCurrentMonthRevenue_sum :
    (∀ (cal : Calendar) (now : Int) (userId : ObjectId) (s : Store),
      (calculateCurrentMonthRevenue cal now userId s).revenue =
        binary64Sum
          ((((s.projects.filter (fun p => p.userId = userId ∨ p.clientId = userId)).flatMap
              (fun p => p.milestones)).filter (countsThisMonth cal now)).map
            (fun m => m.amount)) ∧
      (calculateCurrentMonthRevenue cal now userId s).year = cal.getFullYear now ∧
      (calculateCurrentMonthRevenue cal now userId s).month = getMonthName (cal.getMonth now)) ∧
    (calculateCurrentMonthRevenue (gregorian 0) 1763596800000 1 scenarioStore).revenue = 4000 ∧
    (calculateCurrentMonthRevenue (gregorian 0) 1763596800000 1 scenarioStore).year = 2025 ∧
    (calculateCurrentMonthRevenue (gregorian 0) 1763596800000 1 scenarioStore).month =
      some "November" := by
  refine ⟨?_, by decide!, by decide!, by decide!⟩
  intro cal now userId s
  refine ⟨?_, rfl, rfl⟩
  unfold calculateCurrentMonthRevenue binary64Sum
  simp only
  generalize s.projects.filter (fun p => p.userId = userId ∨ p.clientId = userId) = ps
  generalize (0 : ℚ) = acc
  induction ps generalizing acc with
  | nil => rfl
  | cons p rest ih =>
    rw [List.foldl_cons, ih]
    by_cases hl : p.milestones.length > 0
    · rw [if_pos hl, inner_revenue_loop]
      simp only [List.flatMap_cons, List.filter_append, List.map_append, List.foldl_append]
    · rw [if_neg hl]
      have : p.milestones = [] := List.length_eq_zero.1 (by omega)
      simp [this]

theorem mem_forRange (a b x : Int) : x ∈ forRange a b ↔ a ≤ x ∧ x ≤ b := by
  unfold forRange
  simp only [List.mem_map, List.mem_range]
  constructor
  · rintro ⟨k, hk, rfl⟩
    omega
  · intro h
    exact ⟨(x - a).toNat, by omega, by omega⟩

theorem getMonthName_eq_some {m : String} (hm : m ∈ months) (i : Int) :
    getMonthName i = some m ↔ i = getMonthNumber m := by
  by_cases h0 : 0 ≤ i
  · by_cases h12 : i < 12
    · simp only [months, List.mem_cons, List.mem_singleton, List.not_mem_nil, or_false] at hm
      rcases hm with rfl | rfl | rfl | rfl | rfl | rfl | rfl | rfl | rfl | rfl | rfl | rfl <;>
        interval_cases i <;> decide!
    · have hn : getMonthName i = none := by
        unfold getMonthName
        rw [if_pos h0]
        apply List.getElem?_eq_none
        simp only [months, List.length_cons, List.length_nil]
        omega
      have hb : getMonthNumber m < 12 := by
        simp only [months, List.mem_cons, List.mem_singleton, List.not_mem_nil, or_false] at hm
        rcases hm with rfl | rfl | rfl | rfl | rfl | rfl | rfl | rfl | rfl | rfl | rfl | rfl <;>
          decide!
      rw [hn]
      constructor
      · intro h; cases h
      · intro h; omega
  · have hn : getMonthName i = none := by
      unfold getMonthName
      rw [if_neg h0]
    have hb : 0 ≤ getMonthNumber m := by
      simp only [months, List.mem_cons, List.mem_singleton, List.not_mem_nil, or_false] at hm
      rcases hm with rfl | rfl | rfl | rfl | rfl | rfl | rfl | rfl | rfl | rfl | rfl | rfl <;>
        decide!
    rw [hn]
    constructor
    · intro h; cases h
    · intro h; omega

theorem getMonthNumber_bounds {m : String} (hm : m ∈ months) :
    0 ≤ getMonthNumber m ∧ getMonthNumber m ≤ 11 := by
  simp only [months, List.mem_cons, List.mem_singleton, List.not_mem_nil, or_false] at hm
  rcases hm with rfl | rfl | rfl | rfl | rfl | rfl | rfl | rfl | rfl | rfl | rfl | rfl <;>
    decide!

theorem monthIn_forRange {m : String} (hm : m ∈ months) (a b : Int) :
    monthIn (some ((forRange a b).map getMonthName)) m = true ↔
      a ≤ getMonthNumber m ∧ getMonthNumber m ≤ b := by
  simp only [monthIn, List.contains_iff_exists_mem_beq, List.mem_map, beq_iff_eq]
  constructor
  · rintro ⟨_, ⟨i, hi, rfl⟩, h⟩
    rw [(getMonthName_eq_some hm i).1 h.symm] at hi
    exact (mem_forRange _ _ _).1 hi
  · intro h
    exact ⟨_, ⟨getMonthNumber m, (mem_forRange _ _ _).2 h, rfl⟩,
      ((getMonthName_eq_some hm _).2 rfl).symm⟩

theorem periodQuery_matches_iff {u : ObjectId} {sy ey : Int} {sm em : String}
    {r : Revenue} (hr : r.month ∈ months) :
    (periodQuery u sy sm ey em).matches r = true ↔
      r.userId = u ∧
      ((sy = ey ∧ r.year = sy ∧ getMonthNumber sm ≤ getMonthNumber r.month ∧
          getMonthNumber r.month ≤ getMonthNumber em) ∨
       (sy ≠ ey ∧ ((r.year = sy ∧ getMonthNumber sm ≤ getMonthNumber r.month) ∨
          (r.year = ey ∧ getMonthNumber r.month ≤ getMonthNumber em) ∨
          (sy + 1 ≤ r.year ∧ r.year ≤ ey - 1)))) := by
  have hb := getMonthNumber_bounds hr
  unfold periodQuery
  by_cases hy : sy = ey
  · simp only [hy, if_true, RevenueQuery.matches, decide_eq_true_eq, Option.some.injEq,
      forall_eq', monthIn_forRange hr, reduceCtorEq, false_implies, implies_true, and_true]
    constructor
    · rintro ⟨h1, h2, h3⟩
      exact ⟨h1, Or.inl ⟨trivial, h2, h3⟩⟩
    · rintro ⟨h1, h2 | h2⟩
      · exact ⟨h1, h2.2.1, h2.2.2⟩
      · exact absurd rfl h2.1
  · have h1 := monthIn_forRange hr (getMonthNumber sm) 11
    have h2 := monthIn_forRange hr 0 (getMonthNumber em)
    simp only [hy, if_false, RevenueQuery.matches, decide_eq_true_eq, Option.some.injEq,
      forall_eq', reduceCtorEq, false_implies, implies_true, true_and, List.any_eq_true,
      YearClause.matches, ne_eq, not_false_eq_true]
    constructor
    · rintro ⟨hu, _, x, hx, hyr, hmo⟩
      refine ⟨hu, Or.inr ?_⟩
      rcases List.mem_append.1 hx with hx | hx
      · simp only [List.mem_cons, List.mem_singleton, List.not_mem_nil, or_false] at hx
        rcases hx with rfl | rfl
        · exact Or.inl ⟨hyr, (h1.1 hmo).1⟩
        · exact Or.inr (Or.inl ⟨hyr, (h2.1 hmo).2⟩)
      · obtain ⟨y, hy', rfl⟩ := List.mem_map.1 hx
        have := (mem_forRange _ _ _).1 hy'
        simp only at hyr
        exact Or.inr (Or.inr (by omega))
    · rintro ⟨hu, h⟩
      refine ⟨hu, ?_⟩
      rcases h with h | h
      · exact h.1.elim
      · refine ⟨rfl, ?_⟩
        rcases h with ⟨ha, hb'⟩ | ⟨ha, hb'⟩ | hc
        · exact ⟨_, List.mem_append_left _ (List.mem_cons_self _ _), ha, h1.2 ⟨hb', hb.2⟩⟩
        · exact ⟨_, List.mem_append_left _ (List.mem_cons_of_mem _ (List.mem_cons_self _ _)),
            ha, h2.2 ⟨hb.1, hb'⟩⟩
        · exact ⟨_, List.mem_append_right _
            (List.mem_map.2 ⟨r.year, (mem_forRange _ _ _).2 hc, rfl⟩), rfl, rfl⟩

theorem periodQuery_matches_eq_inPeriod {u : ObjectId} {sy ey : Int} {sm em : String}
    (hord : monthLe sy (getMonthNumber sm) ey (getMonthNumber em) = true)
    {r : Revenue} (hr : r.month ∈ months) :
    (periodQuery u sy sm ey em).matches r = inPeriod u sy sm ey em r := by
  rw [Bool.eq_iff_iff, periodQuery_matches_iff hr]
  simp only [inPeriod, monthLe, decide_eq_true_eq, Bool.decide_or, Bool.decide_and,
    Bool.or_eq_true, Bool.and_eq_true] at hord ⊢
  constructor
  · rintro ⟨hu, h⟩
    refine ⟨hu, ?_⟩
    omega
  · rintro ⟨hu, h⟩
    refine ⟨hu, ?_⟩
    omega

/-- C6: when every stored row carries one of the twelve month names and
(startYear, startMonth) is not after (endYear, endMonth), `getRevenueForPeriod`
returns, up to order, exactly the stored rows of the user whose (year, month)
lies in the closed calendar range: the same rows with the same multiplicity,
and no others. -/
theorem getRevenueForPeriod_exact (userId : ObjectId) (startYear : Int) (startMonth : String)
    (endYear : Int) (endMonth : String) (s : Store)
    (hrows : ∀ r ∈ s.revenues, r.month ∈ months)
    (hord : monthLe startYear (getMonthNumber startMonth) endYear (getMonthNumber endMonth)
      = true) :
    (getRevenueForPeriod userId startYear startMonth endYear endMonth s).Perm
      (s.revenues.filter (inPeriod userId startYear startMonth endYear endMonth)) ∧
    ∀ r, r ∈ getRevenueForPeriod userId startYear startMonth endYear endMonth s ↔
      r ∈ s.revenues ∧ inPeriod userId startYear startMonth endYear endMonth r = true := by
  have hfilter : s.revenues.filter (periodQuery userId startYear startMonth endYear endMonth).matches
      = s.revenues.filter (inPeriod userId startYear startMonth endYear endMonth) :=
    List.filter_congr (fun r hr => periodQuery_matches_eq_inPeriod hord (hrows r hr))
  have hperm : (getRevenueForPeriod userId startYear startMonth endYear endMonth s).Perm
      (s.revenues.filter (inPeriod userId startYear startMonth endYear endMonth)) := by
    unfold getRevenueForPeriod
    rw [hfilter]
    exact List.perm_insertionSort _ _
  refine ⟨hperm, fun r => ?_⟩
  rw [hperm.mem_iff, List.mem_filter]

theorem getRevenueForPeriod_exact_witness :
    (getRevenueForPeriod 1 2023 "November" 2024 "February" periodStore).Perm
      (periodStore.revenues.filter (inPeriod 1 2023 "November" 2024 "February")) ∧
    ∀ r, r ∈ getRevenueForPeriod 1 2023 "November" 2024 "February" periodStore ↔
      r ∈ periodStore.revenues ∧ inPeriod 1 2023 "November" 2024 "February" r = true :=
  getRevenueForPeriod_exact 1 2023 "November" 2024 "February" periodStore
    (by decide!) (by decide!)

/-- C7 (the code at the failing input): with rows stored for October 2023 to
March 2024, the period November 2023 to February 2024 comes back as December,
November, February, January: within a year the rows are in the alphabetical
order of the month names, December before November and February before
January. -/
theorem getRevenueForPeriod_month_name_order :
    (getRevenueForPeriod 1 2023 "November" 2024 "February" periodStore).map
        (fun r => (r.year, r.month)) =
      [(2023, "December"), (2023, "November"), (2024, "February"), (2024, "January")] := by
  decide!

/-- C8, the claim as stated fails: when `Project.deleteMany` rejects, the
Revenue and Expense deletes are never issued, the project of the client is
still stored and the answer is 500; when `Revenue.deleteMany` rejects, the
Expense delete is never issued. -/
theorem deleteClient_stops_at_failed_delete :
    (deleteClient false (fun op => op = DbOp.projectDeleteMany) 2 1 demoStore).completed =
      [DbOp.clientFindOneAndDelete] ∧
    (deleteClient false (fun op => op = DbOp.projectDeleteMany) 2 1 demoStore).response.status = 500 ∧
    (deleteClient false (fun op => op = DbOp.projectDeleteMany) 2 1 demoStore).store.projects =
      [demoProject] ∧
    demoProject.clientId = 2 ∧
    (deleteClient false (fun op => op = DbOp.revenueDeleteMany) 2 1 demoStore).completed =
      [DbOp.clientFindOneAndDelete, DbOp.projectDeleteMany] := by
  decide!

/-- C8 (amended): the database calls of `deleteClient` run in sequence inside
one `try`: the calls that complete are those before the first one that fails,
and a failure is answered with 500.  When no call fails and the projects that
reference the client belong to the requesting user, no Project referencing
that `clientId` remains. -/
theorem deleteClient_cascade (strictQuery : Bool) (fails : DbOp → Bool)
    (clientId userId : ObjectId) (s : Store) :
    (deleteClient strictQuery fails clientId userId s).completed =
      deleteClientOps.takeWhile (fun op => !fails op) ∧
    ((∃ op, fails op = true) →
      (deleteClient strictQuery fails clientId userId s).response.status = 500) ∧
    ((∀ op, fails op = false) →
      (∀ p ∈ s.projects, p.clientId = clientId → p.userId = userId) →
      ∀ p ∈ (deleteClient strictQuery fails clientId userId s).store.projects,
        p.clientId ≠ clientId) := by
  refine ⟨?_, ?_, ?_⟩
  · cases h1 : fails DbOp.clientFindOneAndDelete <;> cases h2 : fails DbOp.projectDeleteMany <;>
      cases h3 : fails DbOp.revenueDeleteMany <;> cases h4 : fails DbOp.expenseDeleteMany <;>
      simp [deleteClient, deleteClientOps, h1, h2, h3, h4]
  · rintro ⟨op, hop⟩
    cases h1 : fails DbOp.clientFindOneAndDelete <;> cases h2 : fails DbOp.projectDeleteMany <;>
      cases h3 : fails DbOp.revenueDeleteMany <;> cases h4 : fails DbOp.expenseDeleteMany <;>
      simp only [deleteClient, h1, h2, h3, h4, if_true, if_false, Bool.false_eq_true, caught]
    cases op <;> simp_all
  · intro hall hown p hp hc
    simp only [deleteClient, hall, if_false, Bool.false_eq_true, List.mem_filter,
      decide_eq_true_eq, decide_not, Bool.not_eq_true', decide_eq_false_iff_not] at hp
    exact hp.2 ⟨hc, hown p hp.1 hc⟩

theorem deleteClient_cascade_witness :
    ∀ p ∈ (deleteClient false (fun _ => false) 2 1 demoStore).store.projects, p.clientId ≠ 2 :=
  (deleteClient_cascade false (fun _ => false) 2 1 demoStore).2.2 (fun _ => rfl) (by decide!)

theorem find?_updateFirst {α : Type} (p : α → Bool) (f : α → α) (hf : ∀ a, p (f a) = p a)
    (l : List α) : (updateFirst p f l).find? p = (l.find? p).map f := by
  induction l with
  | nil => rfl
  | cons a as ih =>
    unfold updateFirst
    by_cases h : p a = true
    · simp [h, hf]
    · simp [h, ih]

/-- C9, the claim as stated fails: with the client's counter at 0, deleting
its project succeeds (200) and leaves the counter at -1, below 0. -/
theorem deleteProject_counter_below_zero :
    zeroCountStore.clients.map (fun c => c.projects) = [0] ∧
    (deleteProject 10 1 zeroCountStore).1.status = 200 ∧
    (deleteProject 10 1 zeroCountStore).2.clients.map (fun c => c.projects) = [-1] := by
  decide!

/-- C9 (amended): for a project the requesting user owns, `deleteProject`
answers 200, leaves no Estimate with that `projectId`, and leaves the owning
client's `projects` counter decremented by exactly 1 whatever its value; the
counter is not kept at or above 0 (it is at least 0 afterwards exactly when it
was at least 1 before). -/
theorem deleteProject_cascade (id userId : ObjectId) (s : Store) (project : Project)
    (hfind : s.projects.find? (fun p => p._id = id ∧ p.userId = userId) = some project) :
    (deleteProject id userId s).1.status = 200 ∧
    (∀ e ∈ (deleteProject id userId s).2.estimates, e.projectId ≠ id) ∧
    (∀ c, s.clients.find? (fun c => c._id = project.clientId) = some c →
      ∃ c', (deleteProject id userId s).2.clients.find? (fun c => c._id = project.clientId)
              = some c' ∧
            c'.projects = c.projects - 1 ∧ (0 ≤ c'.projects ↔ 1 ≤ c.projects)) := by
  unfold deleteProject
  simp only [hfind]
  refine ⟨trivial, ?_, ?_⟩
  · intro e he
    simp only [List.mem_filter, decide_eq_true_eq, ne_eq, decide_not, Bool.not_eq_true',
      decide_eq_false_iff_not] at he
    exact he.2
  · intro c hc
    refine ⟨{ c with projects := c.projects + (-1) }, ?_, ?_, ?_⟩
    · have h := find?_updateFirst (fun c : Client => decide (c._id = project.clientId))
        (fun c : Client => { c with projects := c.projects + (-1) }) (fun _ => rfl) s.clients
      rw [h, hc]
      rfl
    · show c.projects + (-1) = c.projects - 1
      omega
    · show 0 ≤ c.projects + (-1) ↔ 1 ≤ c.projects
      omega

theorem deleteProject_cascade_witness :
    (deleteProject 10 1 zeroCountStore).1.status = 200 ∧
    (∀ e ∈ (deleteProject 10 1 zeroCountStore).2.estimates, e.projectId ≠ 10) ∧
    (∀ c, zeroCountStore.clients.find? (fun c => c._id = demoProject.clientId) = some c →
      ∃ c', (deleteProject 10 1 zeroCountStore).2.clients.find?
              (fun c => c._id = demoProject.clientId) = some c' ∧
            c'.projects = c.projects - 1 ∧ (0 ≤ c'.projects ↔ 1 ≤ c.projects)) :=
  deleteProject_cascade 10 1 zeroCountStore demoProject (by decide!)

theorem mathRound_bounds (p : ℚ) :
    p - 1 / 2 < (mathRound p : ℚ) ∧ (mathRound p : ℚ) ≤ p + 1 / 2 := by
  unfold mathRound
  have h1 := Int.lt_floor_add_one (p + 1 / 2)
  have h2 := Int.floor_le (p + 1 / 2)
  constructor <;> linarith

theorem isInfinite_hundred : isInfinite 100 = false := by decide!

theorem amountSet_of_exact_product {v : ℚ} (hv : isInfinite v = false)
    (he : round64 (v * 100) = v * 100) :
    amountSet v = jsDiv (halfUpCents v : ℚ) 100 := by
  have hmul : jsMul v 100 = v * 100 := by
    simp only [jsMul, hv, isInfinite_hundred, Bool.false_eq_true, or_self, if_false, he]
  unfold amountSet
  rw [hmul]
  rfl

/-- C10 (counterexample): an expense amount of 1.005 (the double nearest to it)
is stored as 1, where rounding 1.005 half-up to 2 decimals gives 1.01; the
double 2.675 lies below 2.675, so its half-up rounding is 2.67, and it is
stored as 2.68, also by `addExpense`. -/
theorem expense_amount_not_half_up :
    amountSet (round64 (1005 / 1000)) = 1 ∧ halfUpCents (1005 / 1000) = 101 ∧
    round64 (2675 / 1000) < 2675 / 1000 ∧ halfUpCents (round64 (2675 / 1000)) = 267 ∧
    amountSet (round64 (2675 / 1000)) = round64 (268 / 100) ∧
    (addExpense 9 (demoExpenseRequest (round64 (2675 / 1000))) demoStore).1.status = 201 ∧
    (addExpense 9 (demoExpenseRequest (round64 (2675 / 1000))) demoStore).2.expenses.map
      (fun e => e.amount) = [round64 (268 / 100)] := by
  decide!

/-- C10 (amended): the `amount` setter computes `value * 100` in binary64,
rounds that product half-up to a whole number `k` of hundredths and yields the
binary64 quotient `k / 100`; when the product is exact, `k` is the half-up
rounding of the amount itself.  Every expense `addExpense` accepts is appended
with its amount passed through the setter; 19.995 is set to 20, and an expense
added with amount 19.995 is stored with amount 20. -/
theorem expense_amount_rounds_binary64_product :
    (∀ v : ℚ, ∃ k : ℤ, amountSet v = jsDiv (k : ℚ) 100 ∧ jsMul v 100 - 1 / 2 < (k : ℚ) ∧
      (k : ℚ) ≤ jsMul v 100 + 1 / 2) ∧
    (∀ v : ℚ, isInfinite v = false → round64 (v * 100) = v * 100 →
      amountSet v = jsDiv (halfUpCents v : ℚ) 100) ∧
    (∀ (now : Int) (req : AddExpenseRequest) (s : Store) (v : ℚ), req.amount = some v →
      (addExpense now req s).1.status = 201 →
      ∃ e, (addExpense now req s).2.expenses = s.expenses ++ [e] ∧ e.amount = amountSet v) ∧
    amountSet (round64 (19995 / 1000)) = 20 ∧
    (addExpense 9 (demoExpenseRequest (round64 (19995 / 1000))) demoStore).1.status = 201 ∧
    (addExpense 9 (demoExpenseRequest (round64 (19995 / 1000))) demoStore).2.expenses.map
      (fun e => e.amount) = [20] := by
  refine ⟨fun v => ⟨mathRound (jsMul v 100), rfl, mathRound_bounds _⟩,
    fun v hv he => amountSet_of_exact_product hv he, ?_, by decide!, by decide!, by decide!⟩
  intro now req s v hv hok
  unfold addExpense at hok ⊢
  cases ht : req.title with
  | none => simp [ht, failure] at hok
  | some title =>
    cases hc : req.category with
    | none => simp [ht, hv, hc, failure] at hok
    | some category =>
      simp only [ht, hv, hc] at hok ⊢
      split at hok
      · simp [failure] at hok
      · split at hok
        · simp [failure] at hok
        · split at hok
          · rename_i h1 h2 h3
            rw [if_neg h1, if_neg h2, if_pos h3]
            exact ⟨_, rfl, rfl⟩
          · simp [failure] at hok

theorem expense_amount_rounds_binary64_product_witness :
    (amountSet (39 / 2) = jsDiv (halfUpCents (39 / 2) : ℚ) 100) ∧
    ∃ e, (addExpense 9 (demoExpenseRequest (round64 (19995 / 1000))) demoStore).2.expenses =
        demoStore.expenses ++ [e] ∧ e.amount = amountSet (round64 (19995 / 1000)) :=
  ⟨expense_amount_rounds_binary64_product.2.1 (39 / 2) (by decide!) (by decide!),
   expense_amount_rounds_binary64_product.2.2.1 9
    (demoExpenseRequest (round64 (19995 / 1000))) demoStore
    (round64 (19995 / 1000)) rfl (by decide!)⟩

theorem selected_revenue_loop (es : List Estimate) (ps : List Project) (acc : ℚ) :
    ps.foldl (fun totalRevenue project =>
      (es.filter (fun e => e.projectId = project._id ∧ e.isSelected = true)).foldl
        (fun totalRevenue estimate => totalRevenue + estimate.price) totalRevenue) acc =
      acc + ((ps.flatMap (fun p =>
        es.filter (fun e => e.projectId = p._id ∧ e.isSelected = true))).map
          (fun e => e.price)).sum := by
  induction ps generalizing acc with
  | nil => simp
  | cons p rest ih =>
    rw [List.foldl_cons, ih, foldl_add_eq_sum]
    simp [add_assoc]

theorem computeStats_totalExpenses (now : Int) (userId : ObjectId) (s : Store) :
    (computeStats now userId s).totalExpenses =
      ((s.expenses.filter (fun e => e.userId = userId)).map (fun e => e.amount)).sum := by
  unfold computeStats
  simp only
  cases h : s.expenses.filter (fun e => e.userId = userId) with
  | nil => simp
  | cons e es => simp [foldl_add_eq_sum]

theorem updateDashboardStats_fields (now : Int) (userId : ObjectId) (s : Store) :
    (updateDashboardStats now userId s).1 =
      { (updateDashboardStats now userId s).1 with
        userId := userId
        totalClients := (computeStats now userId s).totalClients
        activeClients := (computeStats now userId s).activeClients
        totalRevenue := (computeStats now userId s).totalRevenue
        totalExpenses := (computeStats now userId s).totalExpenses
        completedProjects := (computeStats now userId s).completedProjects
        lastUpdated := now
        updatedAt := now } ∧
    (updateDashboardStats now userId s).2.dashboards.find? (fun d => d.userId = userId) =
      some (updateDashboardStats now userId s).1 ∧
    (updateDashboardStats now userId s).2.projects = s.projects ∧
    (updateDashboardStats now userId s).2.clients = s.clients ∧
    (updateDashboardStats now userId s).2.estimates = s.estimates ∧
    (updateDashboardStats now userId s).2.expenses = s.expenses := by
  unfold updateDashboardStats
  cases h : s.dashboards.find? (fun d => d.userId = userId) with
  | some d =>
    have hd : d.userId = userId := by simpa using List.find?_some h
    refine ⟨?_, ?_, rfl, rfl, rfl, rfl⟩
    · simp [applyStatsUpdate, hd, computeStats]
    · simp only
      rw [find?_updateFirst (fun d : DashboardStats => decide (d.userId = userId))
        (applyStatsUpdate now (computeStats now userId s)) (fun _ => rfl), h]
      rfl
  | none =>
    refine ⟨?_, ?_, rfl, rfl, rfl, rfl⟩
    · simp [applyStatsUpdate, computeStats]
    · simp only
      rw [List.find?_append, h]
      simp [applyStatsUpdate]

/-- C11 (the code at the failing input): the document `updateDashboardStats`
writes carries the five declared statistics as the claim gives them
(`totalRevenue`, `totalClients`, `activeClients`, `totalExpenses`,
`completedProjects`), but never `activeProjects`: the function computes the
number of the user's projects and puts it in the update, and the schema, which
declares no such path, drops it.  For user 1 of `statsStore`, who has one
project, the written document has no `activeProjects`. -/
theorem updateDashboardStats_drops_activeProjects :
    (∀ (now : Int) (userId : ObjectId) (s : Store),
      (updateDashboardStats now userId s).1.totalRevenue =
        (((s.projects.filter (fun p => p.userId = userId)).flatMap (fun p =>
            s.estimates.filter (fun e => e.projectId = p._id ∧ e.isSelected = true))).map
          (fun e => e.price)).sum ∧
      (updateDashboardStats now userId s).1.totalClients =
        (s.clients.filter (fun c => c.userId = userId)).length ∧
      (updateDashboardStats now userId s).1.activeClients =
        (s.clients.filter (fun c => c.userId = userId ∧ c.status = "Active")).length ∧
      (updateDashboardStats now userId s).1.totalExpenses =
        ((s.expenses.filter (fun e => e.userId = userId)).map (fun e => e.amount)).sum ∧
      (updateDashboardStats now userId s).1.completedProjects =
        (s.projects.filter (fun p => p.userId = userId ∧ p.status = "completed")).length ∧
      (updateDashboardStats now userId s).2.dashboards.find? (fun d => d.userId = userId) =
        some (updateDashboardStats now userId s).1 ∧
      (computeStats now userId s).activeProjects =
        (s.projects.filter (fun p => p.userId = userId)).length ∧
      (updateDashboardStats now userId s).1.activeProjects = none) ∧
    (statsStore.projects.filter (fun p => p.userId = 1)).length = 1 ∧
    (updateDashboardStats 5 1 statsStore).1.activeProjects = none := by
  refine ⟨?_, by decide!, rfl⟩
  intro now userId s
  obtain ⟨hf, hfind, _⟩ := updateDashboardStats_fields now userId s
  refine ⟨?_, ?_, ?_, ?_, ?_, hfind, rfl, rfl⟩
  · rw [hf]
    show (computeStats now userId s).totalRevenue = _
    unfold computeStats
    simp only
    rw [selected_revenue_loop, zero_add]
  · rw [hf]; rfl
  · rw [hf]; rfl
  · rw [hf]
    exact computeStats_totalExpenses now userId s
  · rw [hf]; rfl

theorem computeStats_congr (now now' : Int) (userId : ObjectId) (s s' : Store)
    (hp : s'.projects = s.projects) (hc : s'.clients = s.clients)
    (he : s'.estimates = s.estimates) (hx : s'.expenses = s.expenses) :
    computeStats now' userId s' = { computeStats now userId s with lastUpdated := now' } := by
  unfold computeStats
  simp only [hp, hc, he, hx]

/-- C12, the claim as stated fails: two calls in succession, at instants 5 and
9, return documents that differ in `updatedAt` (5 and 9), a field other than
`lastUpdated`. -/
theorem updateDashboardStats_updatedAt_differs :
    (updateDashboardStats 5 1 statsStore).1.updatedAt = 5 ∧
    (updateDashboardStats 9 1 (updateDashboardStats 5 1 statsStore).2).1.updatedAt = 9 ∧
    { (updateDashboardStats 9 1 (updateDashboardStats 5 1 statsStore).2).1 with
        lastUpdated := (updateDashboardStats 5 1 statsStore).1.lastUpdated } ≠
      (updateDashboardStats 5 1 statsStore).1 := by
  decide!

/-- C12 (amended): calling `updateDashboardStats` twice in succession, at
instants `now` and `now'`, with no write in between, returns the same stats
document in every field except `lastUpdated` and the automatic timestamp
`updatedAt`, which both carry the instant of the call. -/
theorem updateDashboardStats_idempotent (now now' : Int) (userId : ObjectId) (s : Store) :
    (updateDashboardStats now' userId (updateDashboardStats now userId s).2).1 =
      { (updateDashboardStats now userId s).1 with lastUpdated := now', updatedAt := now' } := by
  obtain ⟨hf, hfind, hp, hc, he, hx⟩ := updateDashboardStats_fields now userId s
  have hcs := computeStats_congr now now' userId s (updateDashboardStats now userId s).2
    hp hc he hx
  generalize updateDashboardStats now userId s = r at hf hfind hcs
  unfold updateDashboardStats
  rw [hfind]
  simp only [hcs]
  rw [hf]
  rfl

/-- C13: `calculateMonthRevenue` throws the invalid-month error exactly when
`month` is not one of the twelve month names, whatever the store and whether
or not the database read would fail, and in that case it has issued no
`Project.find` (with a valid name it issues exactly one). -/
theorem calculateMonthRevenue_invalid_month (cal : Calendar) (now : Int) (findFails : Bool)
    (userId : ObjectId) (year : Int) (month : String) (s : Store) :
    ((calculateMonthRevenue cal now findFails userId year month s).result =
        Except.error RevenueError.invalidMonth ↔ month ∉ months) ∧
    (calculateMonthRevenue cal now findFails userId year month s).projectReads =
      if month ∈ months then 1 else 0 := by
  unfold calculateMonthRevenue
  by_cases hm : month ∈ months
  · cases findFails <;> simp [hm]
  · simp [hm]

/-- C14 (the code at the failing input): in the scenario of one achieved
milestone of 4000 updated on 2025-11-05, evaluated on 2025-11-20,
`calculateCurrentMonthRevenue` returns 4000 for November 2025 while
`calculateMonthRevenue(1, 2025, "November")` returns 0. -/
theorem calculateMonthRevenue_differs_from_current :
    (calculateCurrentMonthRevenue (gregorian 0) 1763596800000 1 scenarioStore).year = 2025 ∧
    (calculateCurrentMonthRevenue (gregorian 0) 1763596800000 1 scenarioStore).month =
      some "November" ∧
    (calculateCurrentMonthRevenue (gregorian 0) 1763596800000 1 scenarioStore).revenue = 4000 ∧
    (calculateMonthRevenue (gregorian 0) 1763596800000 false 1 2025 "November"
        scenarioStore).result.toOption.map (fun r => r.revenue) = some 0 := by
  decide!

/-- C15: the user cascade hook returns without throwing for every outcome of
the three sub-deletes and even when a model is not registered.  When the
models are registered and the query carries the user's `_id`, each sub-delete
is settled on its own: a failing one is reported with count 0 and leaves its
collection as it was, the others still delete every document of the user and
report how many there were; a collection that holds no document of the user
is reported with count 0. -/
theorem userCascadeHook_never_throws (registered : String → Bool) (fails : Dependent → Bool)
    (queryId : Option ObjectId) (s : Store) :
    (∃ run, userCascadeHook registered fails queryId s = Except.ok run) ∧
    (∀ userId, (∀ name, registered name = true) → queryId = some userId →
      ∃ run counts, userCascadeHook registered fails queryId s = Except.ok run ∧
        run.counts = some counts ∧
        (fails Dependent.dashboard = true →
          counts.dashboard = 0 ∧ run.store.dashboards = s.dashboards) ∧
        (fails Dependent.revenue = true →
          counts.revenue = 0 ∧ run.store.revenues = s.revenues) ∧
        (fails Dependent.expense = true →
          counts.expense = 0 ∧ run.store.expenses = s.expenses) ∧
        (fails Dependent.dashboard = false →
          counts.dashboard = (s.dashboards.filter (fun d => d.userId = userId)).length ∧
          ∀ d ∈ run.store.dashboards, d.userId ≠ userId) ∧
        (fails Dependent.revenue = false →
          counts.revenue = (s.revenues.filter (fun r => r.userId = userId)).length ∧
          ∀ r ∈ run.store.revenues, r.userId ≠ userId) ∧
        (fails Dependent.expense = false →
          counts.expense = (s.expenses.filter (fun e => e.userId = userId)).length ∧
          ∀ e ∈ run.store.expenses, e.userId ≠ userId) ∧
        ((∀ d ∈ s.dashboards, d.userId ≠ userId) → counts.dashboard = 0) ∧
        ((∀ r ∈ s.revenues, r.userId ≠ userId) → counts.revenue = 0) ∧
        ((∀ e ∈ s.expenses, e.userId ≠ userId) → counts.expense = 0)) := by
  constructor
  · unfold userCascadeHook
    cases userCascadeBody registered fails queryId s with
    | ok run => exact ⟨run, rfl⟩
    | error e => exact ⟨_, rfl⟩
  · intro userId hreg hq
    subst hq
    simp only [userCascadeHook, userCascadeBody, hreg, not_true_eq_false, if_false]
    refine ⟨_, _, rfl, rfl, ?_, ?_, ?_, ?_, ?_, ?_, ?_, ?_, ?_⟩
    · intro h; simp [h]
    · intro h; simp [h]
    · intro h; simp [h]
    · intro h; simp [h]
    · intro h; simp [h]
    · intro h; simp [h]
    · intro h
      by_cases hf : fails Dependent.dashboard = true
      · simp [hf]
      · simp only [hf, if_false, Bool.false_eq_true, List.length_eq_zero,
          List.filter_eq_nil_iff, decide_eq_true_eq]
        exact h
    · intro h
      by_cases hf : fails Dependent.revenue = true
      · simp [hf]
      · simp only [hf, if_false, Bool.false_eq_true, List.length_eq_zero,
          List.filter_eq_nil_iff, decide_eq_true_eq]
        exact h
    · intro h
      by_cases hf : fails Dependent.expense = true
      · simp [hf]
      · simp only [hf, if_false, Bool.false_eq_true, List.length_eq_zero,
          List.filter_eq_nil_iff, decide_eq_true_eq]
        exact h

theorem userCascadeHook_never_throws_witness :
    ∃ run counts, userCascadeHook (fun _ => true) (fun d => d = Dependent.revenue) (some 1)
          periodStore = Except.ok run ∧
        run.counts = some counts ∧
        ((fun d => decide (d = Dependent.revenue)) Dependent.dashboard = true →
          counts.dashboard = 0 ∧ run.store.dashboards = periodStore.dashboards) ∧
        ((fun d => decide (d = Dependent.revenue)) Dependent.revenue = true →
          counts.revenue = 0 ∧ run.store.revenues = periodStore.revenues) ∧
        ((fun d => decide (d = Dependent.revenue)) Dependent.expense = true →
          counts.expense = 0 ∧ run.store.expenses = periodStore.expenses) ∧
        ((fun d => decide (d = Dependent.revenue)) Dependent.dashboard = false →
          counts.dashboard = (periodStore.dashboards.filter (fun d => d.userId = 1)).length ∧
          ∀ d ∈ run.store.dashboards, d.userId ≠ 1) ∧
        ((fun d => decide (d = Dependent.revenue)) Dependent.revenue = false →
          counts.revenue = (periodStore.revenues.filter (fun r => r.userId = 1)).length ∧
          ∀ r ∈ run.store.revenues, r.userId ≠ 1) ∧
        ((fun d => decide (d = Dependent.revenue)) Dependent.expense = false →
          counts.expense = (periodStore.expenses.filter (fun e => e.userId = 1)).length ∧
          ∀ e ∈ run.store.expenses, e.userId ≠ 1) ∧
        ((∀ d ∈ periodStore.dashboards, d.userId ≠ 1) → counts.dashboard = 0) ∧
        ((∀ r ∈ periodStore.revenues, r.userId ≠ 1) → counts.revenue = 0) ∧
        ((∀ e ∈ periodStore.expenses, e.userId ≠ 1) → counts.expense = 0) :=
  (userCascadeHook_never_throws (fun _ => true) (fun d => d = Dependent.revenue) (some 1)
    periodStore).2 1 (fun _ => rfl) rfl

/-- C16 (the code at the failing input): `updateProject` calls
`getUserIdFromToken`, which the module does not bind, so every request is
answered 500 and nothing is written; a request of the owner to mark a project
without `actualEndDate` completed leaves its status and `actualEndDate` as
they were. -/
theorem updateProject_always_fails :
    (∀ (now : Int) (req : UpdateProjectRequest) (s : Store),
      (updateProject now req s).1.status = 500 ∧ (updateProject now req s).2 = s) ∧
    demoStore.projects.map (fun p => (p._id, p.userId, p.status, p.actualEndDate)) =
      [(10, 1, "active", none)] ∧
    (updateProject 5 demoUpdateRequest demoStore).1.status = 500 ∧
    (updateProject 5 demoUpdateRequest demoStore).2.projects.map
      (fun p => (p._id, p.userId, p.status, p.actualEndDate)) = [(10, 1, "active", none)] := by
  refine ⟨fun now req s => ⟨rfl, rfl⟩, by decide!, by decide!, by decide!⟩

/-- With the helper bound to `req.user.id`, the rest of `updateProject` does
what the handler is written for: a request of the owner that sets the status
to `Completed` or `completed` (and no name) is answered 200 and leaves the
project completed, with `actualEndDate` set to the instant of the call when it
was unset and kept when it was set. -/
theorem updateProjectWith_bound_completed (now : Int) (req : UpdateProjectRequest) (s : Store)
    (p : Project)
    (hown : s.projects.find? (fun q => q._id = req.id ∧ q.userId = req.userId) = some p)
    (hid : s.projects.find? (fun q => q._id = req.id) = some p)
    (hst : req.status = some "Completed" ∨ req.status = some "completed")
    (hn : req.name = none) (ht : req.title = none) :
    (updateProjectWith (some (fun r => r.userId)) now req s).1.status = 200 ∧
    ∃ p', (updateProjectWith (some (fun r => r.userId)) now req s).2.projects.find?
            (fun q => q._id = req.id) = some p' ∧
          p'.status = "completed" ∧
          p'.actualEndDate = (if p.actualEndDate = none then some now else p.actualEndDate) := by
  have hmap : req.status.map (fun st =>
      if st ≠ "" then (statusMapping st).getD (toLowerCase st) else st) = some "completed" := by
    rcases hst with h | h <;> rw [h] <;> decide!
  have hin : "completed" ∈ projectStatuses := by decide!
  unfold updateProjectWith
  simp only [hown, hn, ht, hmap]
  simp only [reduceCtorEq, false_implies, implies_true, true_and, Option.some.injEq,
    forall_eq', hin, if_true]
  have key : ∀ (F : Project → Project), (∀ q, (F q)._id = q._id) →
      (updateFirst (fun q => decide (q._id = req.id)) F s.projects).find?
          (fun q => decide (q._id = req.id)) =
        (s.projects.find? (fun q => decide (q._id = req.id))).map F :=
    fun F hF => find?_updateFirst _ F (fun a => by simp only [hF a]) _
  rw [key]
  · rw [hid]
    refine ⟨_, rfl, rfl, ?_⟩
    by_cases ha : p.actualEndDate = none <;> simp [ha]
  · intro q
    rfl

theorem filter_id_ne_eq_erase {l : List Milestone} {m : Milestone} (hm : m ∈ l)
    (hnodup : (l.map (fun x => x._id)).Nodup) :
    l.filter (fun x => x._id ≠ m._id) = l.erase m := by
  induction l with
  | nil => cases hm
  | cons a t ih =>
    rw [List.map_cons, List.nodup_cons] at hnodup
    by_cases ha : a = m
    · subst ha
      rw [List.erase_cons_head]
      have hrest : ∀ x ∈ t, x._id ≠ a._id := by
        intro x hx h
        exact hnodup.1 (List.mem_map.2 ⟨x, hx, h⟩)
      rw [List.filter_cons]
      simp only [ne_eq, not_true_eq_false, decide_False, Bool.false_eq_true, if_false]
      exact List.filter_eq_self.2 (fun x hx => by simpa using hrest x hx)
    · have hmt : m ∈ t := by
        rcases List.mem_cons.1 hm with h | h
        · exact absurd h.symm ha
        · exact h
      have hne : a._id ≠ m._id := by
        intro h
        exact hnodup.1 (List.mem_map.2 ⟨m, hmt, h.symm⟩)
      rw [List.filter_cons]
      simp only [ne_eq, hne, not_false_eq_true, decide_True, if_true]
      rw [List.erase_cons_tail (by simpa using ha), ih hmt hnodup.2]

/-- C17: for a milestone `m` with sub-id `milestoneId` in the project
`deleteMilestone` finds for the requesting user (no stored milestone has
status "Paid"), the handler answers 200 and the store it leaves differs from
the previous one only in that project, which is stored with `updatedAt` set
and with its milestone list minus exactly `m`: the list is the previous one
with that one element erased, so `m` is gone and every other milestone is kept
as it was and in the same relative order. -/
theorem deleteMilestone_removes_exactly (now : Int) (milestoneId userId : ObjectId)
    (s : Store) (p : Project) (m : Milestone)
    (hfind : s.projects.find? (fun p => p.userId = userId ∧
        p.milestones.any (fun m => m._id = milestoneId)) = some p)
    (hm : m ∈ p.milestones) (hid : m._id = milestoneId)
    (hnodup : (p.milestones.map (fun x => x._id)).Nodup) :
    (deleteMilestone now milestoneId userId s).1.status = 200 ∧
    (deleteMilestone now milestoneId userId s).2 =
      { s with
        projects := s.projects.map (fun q =>
          if q._id = p._id then
            { p with milestones := p.milestones.erase m, updatedAt := now }
          else q) } ∧
    ({ p with milestones := p.milestones.erase m, updatedAt := now } : Project) ∈
      (deleteMilestone now milestoneId userId s).2.projects ∧
    (∀ q ∈ (deleteMilestone now milestoneId userId s).2.projects, q._id = p._id →
      q.milestones = p.milestones.erase m ∧ m ∉ q.milestones) ∧
    (∀ q ∈ (deleteMilestone now milestoneId userId s).2.projects, q._id ≠ p._id →
      q ∈ s.projects) ∧
    (p.milestones.erase m).Sublist p.milestones ∧
    (p.milestones.erase m).length + 1 = p.milestones.length ∧
    ∀ x, x ∈ p.milestones.erase m ↔ x ∈ p.milestones ∧ x ≠ m := by
  have hnd : p.milestones.Nodup := List.Nodup.of_map _ hnodup
  obtain ⟨m', hm'⟩ : ∃ m', p.milestones.find? (fun x => x._id = milestoneId) = some m' := by
    cases h : p.milestones.find? (fun x => x._id = milestoneId) with
    | some m' => exact ⟨m', rfl⟩
    | none =>
      rw [List.find?_eq_none] at h
      exact absurd (by simpa using hid) (h m hm)
  have hid' : m'._id = milestoneId := by simpa using List.find?_some hm'
  have hfilter : p.milestones.filter (fun x => x._id ≠ m'._id) = p.milestones.erase m := by
    rw [hid', ← hid]
    exact filter_id_ne_eq_erase hm hnodup
  have hstore : (deleteMilestone now milestoneId userId s).2 =
      { s with
        projects := s.projects.map (fun q =>
          if q._id = p._id then
            { p with milestones := p.milestones.erase m, updatedAt := now }
          else q) } := by
    simp only [deleteMilestone, hfind, hm', Milestone.status, reduceCtorEq, if_false,
      saveProject]
    rw [← hfilter]
  have hmem_iff : ∀ x, x ∈ p.milestones.erase m ↔ x ∈ p.milestones ∧ x ≠ m := by
    intro x
    rw [hnd.mem_erase_iff]
    exact And.comm
  have hp : p ∈ s.projects := List.mem_of_find?_eq_some hfind
  refine ⟨?_, hstore, ?_, ?_, ?_, List.erase_sublist _ _, ?_, hmem_iff⟩
  · simp only [deleteMilestone, hfind, hm', Milestone.status, reduceCtorEq, if_false]
  · rw [hstore]
    exact List.mem_map.2 ⟨p, hp, by simp⟩
  · intro q hq hqid
    rw [hstore] at hq
    obtain ⟨q0, _, hq0⟩ := List.mem_map.1 hq
    by_cases h0 : q0._id = p._id
    · rw [if_pos h0] at hq0
      subst hq0
      exact ⟨rfl, fun h => ((hmem_iff m).1 h).2 rfl⟩
    · rw [if_neg h0] at hq0
      subst hq0
      exact absurd hqid h0
  · intro q hq hqid
    rw [hstore] at hq
    obtain ⟨q0, hq0mem, hq0⟩ := List.mem_map.1 hq
    by_cases h0 : q0._id = p._id
    · rw [if_pos h0] at hq0
      subst hq0
      exact absurd rfl hqid
    · rw [if_neg h0] at hq0
      subst hq0
      exact hq0mem
  · rw [List.length_erase_of_mem hm]
    have := List.length_pos_of_mem hm
    omega

theorem deleteMilestone_removes_exactly_witness :
    (deleteMilestone 12 11 1 demoStore).1.status = 200 ∧
    (deleteMilestone 12 11 1 demoStore).2 =
      { demoStore with
        projects := demoStore.projects.map (fun q =>
          if q._id = demoProject._id then
            { demoProject with milestones := demoProject.milestones.erase demoMilestone,
                               updatedAt := 12 }
          else q) } ∧
    ({ demoProject with milestones := demoProject.milestones.erase demoMilestone,
                        updatedAt := 12 } : Project) ∈
      (deleteMilestone 12 11 1 demoStore).2.projects ∧
    (∀ q ∈ (deleteMilestone 12 11 1 demoStore).2.projects, q._id = demoProject._id →
      q.milestones = demoProject.milestones.erase demoMilestone ∧ demoMilestone ∉ q.milestones) ∧
    (∀ q ∈ (deleteMilestone 12 11 1 demoStore).2.projects, q._id ≠ demoProject._id →
      q ∈ demoStore.projects) ∧
    (demoProject.milestones.erase demoMilestone).Sublist demoProject.milestones ∧
    (demoProject.milestones.erase demoMilestone).length + 1 = demoProject.milestones.length ∧
    ∀ x, x ∈ demoProject.milestones.erase demoMilestone ↔
      x ∈ demoProject.milestones ∧ x ≠ demoMilestone :=
  deleteMilestone_removes_exactly 12 11 1 demoStore demoProject demoMilestone
    (by decide!) (by decide!) (by decide!) (by decide!)

theorem achievedAt_id (now : Int) (i : ObjectId) (x : Milestone) :
    (achievedAt now i x)._id = x._id := by
  unfold achievedAt
  split <;> rfl

theorem map_achievedAt_of_absent (now : Int) (i : ObjectId) {l : List Milestone}
    (h : ∀ x ∈ l, x._id ≠ i) : l.map (achievedAt now i) = l := by
  induction l with
  | nil => rfl
  | cons a t ih =>
    rw [List.map_cons, ih (fun x hx => h x (List.mem_cons_of_mem _ hx))]
    simp [achievedAt, h a (List.mem_cons_self _ _)]

theorem updateFirst_mark_eq_map (now : Int) (i : ObjectId) {l : List Milestone}
    (hnd : (l.map (fun x => x._id)).Nodup) :
    updateFirst (fun m => m._id = i)
        (fun m => { m with isAchived := true, updatedAt := some now }) l =
      l.map (achievedAt now i) := by
  induction l with
  | nil => rfl
  | cons a t ih =>
    rw [List.map_cons, List.nodup_cons] at hnd
    unfold updateFirst
    by_cases ha : a._id = i
    · have hrest : ∀ x ∈ t, x._id ≠ i := by
        intro x hx h
        exact hnd.1 (List.mem_map.2 ⟨x, hx, h.trans ha.symm⟩)
      simp [ha, achievedAt, map_achievedAt_of_absent now i hrest]
    · simp [ha, achievedAt, ih hnd.2]

theorem any_id_updateFirst (now : Int) (i : ObjectId) (l : List Milestone) :
    (updateFirst (fun m => m._id = i)
        (fun m => { m with isAchived := true, updatedAt := some now }) l).any
      (fun m => m._id = i) = l.any (fun m => m._id = i) := by
  induction l with
  | nil => rfl
  | cons a t ih =>
    unfold updateFirst
    by_cases ha : a._id = i
    · simp [ha]
    · simp [ha, ih]

theorem updateFirst_eq_map_of_pairwise {α : Type} (p : α → Bool) (f : α → α) {l : List α}
    (h : l.Pairwise (fun a b => ¬ (p a = true ∧ p b = true))) :
    updateFirst p f l = l.map (fun a => if p a then f a else a) := by
  induction l with
  | nil => rfl
  | cons a t ih =>
    rw [List.pairwise_cons] at h
    unfold updateFirst
    by_cases ha : p a = true
    · have : t.map (fun a => if p a then f a else a) = t := by
        conv_rhs => rw [← List.map_id t]
        apply List.map_congr_left
        intro b hb
        have hb' : ¬ p b = true := fun hpb => h.1 b hb ⟨ha, hpb⟩
        simp [hb']
      simp [ha, this]
    · simp [ha, ih h.2]

theorem milestoneIdsDistinct_iff (s : Store) :
    s.milestoneIdsDistinct ↔
      (∀ q ∈ s.projects, (q.milestones.map (fun m => m._id)).Nodup) ∧
      s.projects.Pairwise (fun a b =>
        List.Disjoint (a.milestones.map (fun m => m._id)) (b.milestones.map (fun m => m._id))) := by
  unfold Store.milestoneIdsDistinct
  rw [List.map_flatMap, List.nodup_flatMap]

theorem updateMilestone_projects (now : Int) (i u : ObjectId) (s : Store) (p : Project)
    (hfind : s.projects.find? (fun p => p.userId = u ∧
        p.milestones.any (fun m => m._id = i)) = some p)
    (hnodup : s.milestoneIdsDistinct) :
    (updateMilestone now [] i u s).1.status = 200 ∧
    (updateMilestone now [] i u s).2.projects =
      s.projects.map (fun q =>
        { q with
          milestones := q.milestones.map (achievedAt now i)
          updatedAt :=
            if (q.userId = u ∧ q.milestones.any (fun m => m._id = i)) ∨ q._id = p._id then now
            else q.updatedAt }) := by
  obtain ⟨hnd, hpw⟩ := (milestoneIdsDistinct_iff s).1 hnodup
  have hp : p.userId = u ∧ p.milestones.any (fun m => m._id = i) = true := by
    simpa using List.find?_some hfind
  have hpmem : p ∈ s.projects := List.mem_of_find?_eq_some hfind
  obtain ⟨m', hm'⟩ : ∃ m', p.milestones.find? (fun x => x._id = i) = some m' := by
    cases h : p.milestones.find? (fun x => x._id = i) with
    | some m' => exact ⟨m', rfl⟩
    | none =>
      rw [List.find?_eq_none] at h
      obtain ⟨x, hx, hxi⟩ := List.any_eq_true.1 hp.2
      exact absurd hxi (h x hx)
  have hpair : s.projects.Pairwise (fun a b =>
      ¬ ((fun p : Project => decide (p.userId = u ∧
            p.milestones.any (fun m => m._id = i))) a = true ∧
         (fun p : Project => decide (p.userId = u ∧
            p.milestones.any (fun m => m._id = i))) b = true)) := by
    refine hpw.imp ?_
    intro a b hdis hab
    simp only [decide_eq_true_eq] at hab
    obtain ⟨x, hx, hxi⟩ := List.any_eq_true.1 hab.1.2
    obtain ⟨y, hy, hyi⟩ := List.any_eq_true.1 hab.2.2
    simp only [decide_eq_true_eq] at hxi hyi
    exact hdis (List.mem_map.2 ⟨x, hx, hxi⟩) (List.mem_map.2 ⟨y, hy, hyi⟩)
  have habsent : ∀ q ∈ s.projects, q ≠ p → ∀ x ∈ q.milestones, x._id ≠ i := by
    intro q hq hqp x hx hxi
    obtain ⟨y, hy, hyi⟩ := List.any_eq_true.1 hp.2
    simp only [decide_eq_true_eq] at hyi
    have hsym : Symmetric (fun a b : Project =>
        List.Disjoint (a.milestones.map (fun m => m._id)) (b.milestones.map (fun m => m._id))) :=
      fun a b h => h.symm
    exact hpw.forall hsym hq hpmem hqp (List.mem_map.2 ⟨x, hx, hxi⟩)
      (List.mem_map.2 ⟨y, hy, hyi⟩)
  refine ⟨?_, ?_⟩
  · simp only [updateMilestone, hfind, hm', ne_eq, not_true_eq_false, if_false]
  · simp only [updateMilestone, hfind, hm', ne_eq, not_true_eq_false, if_false]
    rw [updateFirst_eq_map_of_pairwise _ _ hpair, List.map_map]
    apply List.map_congr_left
    intro q hq
    simp only [Function.comp]
    by_cases hP : q.userId = u ∧ q.milestones.any (fun m => m._id = i) = true
    · simp only [hP, and_self, decide_True, if_true, true_or]
      rw [updateFirst_mark_eq_map now i (hnd q hq)]
      split <;> rfl
    · have hqp : q ≠ p := fun h => hP (h ▸ hp)
      simp only [hP, decide_False, if_false, Bool.false_eq_true, false_or]
      rw [map_achievedAt_of_absent now i (habsent q hq hqp)]
      split <;> rfl

theorem achievedAt_twice (now now' : Int) (i : ObjectId) (x : Milestone) :
    achievedAt now' i (achievedAt now i x) = achievedAt now' i x := by
  unfold achievedAt
  by_cases h : x._id = i <;> simp [h]

/-- C18, the claim as stated fails: marking milestone 11 achieved also moves
its `updatedAt` (from 0 to the instant of the call, 5), and marking it again
at instant 9 leaves a milestone state other than the one a single marking
left (`updatedAt` 9 instead of 5). -/
theorem updateMilestone_touches_updatedAt :
    demoStore.projects.map (fun p => p.milestones.map (fun m => (m.isAchived, m.updatedAt))) =
      [[(false, some 0)]] ∧
    (updateMilestone 5 [] 11 1 demoStore).2.projects.map
        (fun p => p.milestones.map (fun m => (m.isAchived, m.updatedAt))) = [[(true, some 5)]] ∧
    (updateMilestone 9 [] 11 1 (updateMilestone 5 [] 11 1 demoStore).2).2.projects.map
        (fun p => p.milestones.map (fun m => (m.isAchived, m.updatedAt))) = [[(true, some 9)]] ∧
    (updateMilestone 9 [] 11 1 (updateMilestone 5 [] 11 1 demoStore).2).2.projects.map
        (fun p => p.milestones) ≠
      (updateMilestone 5 [] 11 1 demoStore).2.projects.map (fun p => p.milestones) := by
  decide!

/-- C18 (amended): for a milestone found by its sub-id in a project of the
requesting user (the milestone `_id`s of the store being distinct),
`updateMilestone` answers 200, gives that milestone `isAchived = true` and
`updatedAt` = the instant of the call, and changes nothing else in any
milestone of any project: name, description, percentage, amount, dueDate,
notes and createdAt of every milestone and every field of every other
milestone are as before (the subdocument has no achievedDate path).  Applying
it again at a later instant gives the milestone state of a single application
at that later instant: the same except for that `updatedAt`. -/
theorem updateMilestone_marks_achieved (now now' : Int) (i u : ObjectId) (s : Store)
    (p : Project)
    (hfind : s.projects.find? (fun p => p.userId = u ∧
        p.milestones.any (fun m => m._id = i)) = some p)
    (hnodup : s.milestoneIdsDistinct) :
    (updateMilestone now [] i u s).1.status = 200 ∧
    (updateMilestone now [] i u s).2.projects.map (fun q => q.milestones) =
      s.projects.map (fun q => q.milestones.map (achievedAt now i)) ∧
    (∀ x : Milestone, x._id = i →
      achievedAt now i x = { x with isAchived := true, updatedAt := some now }) ∧
    (∀ x : Milestone, x._id ≠ i → achievedAt now i x = x) ∧
    (updateMilestone now' [] i u (updateMilestone now [] i u s).2).1.status = 200 ∧
    (updateMilestone now' [] i u (updateMilestone now [] i u s).2).2.projects.map
        (fun q => q.milestones) =
      s.projects.map (fun q => q.milestones.map (achievedAt now' i)) := by
  obtain ⟨h200, hproj⟩ := updateMilestone_projects now i u s p hfind hnodup
  have hms : (updateMilestone now [] i u s).2.projects.map (fun q => q.milestones) =
      s.projects.map (fun q => q.milestones.map (achievedAt now i)) := by
    rw [hproj, List.map_map]
    rfl
  have hp : p.userId = u ∧ p.milestones.any (fun m => m._id = i) = true := by
    simpa using List.find?_some hfind
  -- the lookup of the second call succeeds, and the ids are still distinct
  have hfind' : ∃ p', (updateMilestone now [] i u s).2.projects.find?
      (fun p => p.userId = u ∧ p.milestones.any (fun m => m._id = i)) = some p' := by
    rw [hproj, List.find?_map]
    have hcomp : ((fun p : Project => decide (p.userId = u ∧
          p.milestones.any (fun m => m._id = i) = true)) ∘
        (fun q : Project => { q with
          milestones := q.milestones.map (achievedAt now i)
          updatedAt :=
            if (q.userId = u ∧ q.milestones.any (fun m => m._id = i)) ∨ q._id = p._id then now
            else q.updatedAt })) =
        (fun p : Project => decide (p.userId = u ∧
          p.milestones.any (fun m => m._id = i) = true)) := by
      funext q
      have hc : ((fun m : Milestone => decide (m._id = i)) ∘ achievedAt now i) =
          (fun m : Milestone => decide (m._id = i)) := by
        funext x
        simp only [Function.comp, achievedAt_id]
      simp only [Function.comp, List.any_map, hc]
    rw [hcomp, hfind]
    exact ⟨_, rfl⟩
  obtain ⟨p', hp'⟩ := hfind'
  have hnodup' : (updateMilestone now [] i u s).2.milestoneIdsDistinct := by
    unfold Store.milestoneIdsDistinct at hnodup ⊢
    rw [List.flatMap_def, hms, List.map_flatten, List.map_map]
    rw [List.flatMap_def, List.map_flatten, List.map_map] at hnodup
    have : ((fun l : List Milestone => l.map (fun m => m._id)) ∘
        (fun q : Project => q.milestones.map (achievedAt now i))) =
        ((fun l : List Milestone => l.map (fun m => m._id)) ∘ (fun q : Project => q.milestones)) := by
      funext q
      simp only [Function.comp, List.map_map]
      apply List.map_congr_left
      intro x _
      exact achievedAt_id now i x
    rw [this]
    exact hnodup
  obtain ⟨h200', hproj'⟩ := updateMilestone_projects now' i u _ p' hp' hnodup'
  refine ⟨h200, hms, ?_, ?_, h200', ?_⟩
  · intro x hx
    simp [achievedAt, hx]
  · intro x hx
    simp [achievedAt, hx]
  · have hms' : (updateMilestone now' [] i u (updateMilestone now [] i u s).2).2.projects.map
          (fun q => q.milestones) =
        (updateMilestone now [] i u s).2.projects.map
          (fun q => q.milestones.map (achievedAt now' i)) := by
      rw [hproj', List.map_map]
      rfl
    have e : (updateMilestone now [] i u s).2.projects.map
          (fun q => q.milestones.map (achievedAt now' i)) =
        ((updateMilestone now [] i u s).2.projects.map (fun q => q.milestones)).map
          (fun l => l.map (achievedAt now' i)) := by
      rw [List.map_map]
      rfl
    rw [hms', e, hms, List.map_map]
    apply List.map_congr_left
    intro q _
    simp only [Function.comp, List.map_map]
    apply List.map_congr_left
    intro x _
    exact achievedAt_twice now now' i x

theorem updateMilestone_marks_achieved_witness :
    (updateMilestone 5 [] 11 1 demoStore).1.status = 200 ∧
    (updateMilestone 5 [] 11 1 demoStore).2.projects.map (fun q => q.milestones) =
      demoStore.projects.map (fun q => q.milestones.map (achievedAt 5 11)) ∧
    (∀ x : Milestone, x._id = 11 →
      achievedAt 5 11 x = { x with isAchived := true, updatedAt := some 5 }) ∧
    (∀ x : Milestone, x._id ≠ 11 → achievedAt 5 11 x = x) ∧
    (updateMilestone 9 [] 11 1 (updateMilestone 5 [] 11 1 demoStore).2).1.status = 200 ∧
    (updateMilestone 9 [] 11 1 (updateMilestone 5 [] 11 1 demoStore).2).2.projects.map
        (fun q => q.milestones) =
      demoStore.projects.map (fun q => q.milestones.map (achievedAt 9 11)) :=
  updateMilestone_marks_achieved 5 9 11 1 demoStore demoProject (by decide!)
    (by unfold Store.milestoneIdsDistinct; decide!)

theorem pushMilestone_fields {id : ObjectId} {now : Int} {m : MilestoneInput} {doc : Milestone}
    (h : pushMilestone id now m = some doc) :
    carries m doc ∧ doc._id = id ∧ doc.isAchived = false := by
  unfold pushMilestone at h
  split at h
  · rename_i name percentage amount dueDate hn hpc ha hdd
    split at h
    · simp only [Option.some.injEq] at h
      subst h
      simp [carries, hn, hpc, ha, hdd]
    · simp at h
  · simp at h

theorem pushMilestone_stamps {id : ObjectId} {now : Int} {m : MilestoneInput} {doc : Milestone}
    (h : pushMilestone id now m = some doc) :
    doc.createdAt = some now ∧ doc.updatedAt = some now := by
  unfold pushMilestone at h
  split at h
  · split at h
    · simp only [Option.some.injEq] at h
      subst h
      exact ⟨rfl, rfl⟩
    · simp at h
  · simp at h

/-- C19: whenever `addMilestone` succeeds (201), the store differs from the
previous one only in the project the request addresses (and the source of
fresh ids): the project is stored with its previous milestones, unchanged and
in order, followed by one new last element, which carries the request's name
(trimmed), description, percentage, amount, dueDate and notes, a fresh `_id`,
`isAchived` false and both timestamps at the instant of the call; and the
percentage sum is not checked: adding 50 percent to a project that already
holds a milestone of 100 percent succeeds and leaves a sum of 150. -/
theorem addMilestone_appends_without_sum_check :
    (∀ (now : Int) (req : AddMilestoneRequest) (s : Store),
      (addMilestone now req s).1.status = 201 →
      ∃ projectId p doc,
        req.projectId = some projectId ∧
        findProject s.projects projectId req.clientId req.userId = some p ∧
        findProject (addMilestone now req s).2.projects projectId req.clientId req.userId =
          some { p with milestones := p.milestones ++ [doc], updatedAt := now } ∧
        (addMilestone now req s).2 =
          { s with
            projects := s.projects.map (fun q =>
              if q._id = p._id then
                { p with milestones := p.milestones ++ [doc], updatedAt := now }
              else q)
            nextId := s.nextId + 1 } ∧
        req.name.map jsTrim = some doc.name ∧ doc.description = req.description ∧
        req.percentage = some doc.percentage ∧ req.amount = some doc.amount ∧
        req.dueDate = some (some doc.dueDate) ∧ doc.notes = req.notes ∧
        doc.isAchived = false ∧ doc.createdAt = some now ∧ doc.updatedAt = some now ∧
        doc._id = s.nextId) ∧
    (addMilestone 5 (demoAddRequest 50 5000) demoStore).1.status = 201 ∧
    (addMilestone 5 (demoAddRequest 50 5000) demoStore).2.projects.map
      (fun p => p.milestones.map (fun m => m.percentage)) = [[100, 50]] ∧
    (addMilestone 5 (demoAddRequest 50 5000) demoStore).2.projects.map
      (fun p => p.milestones.map (fun m => (m.name, m.dueDate))) =
      [[("Old", 5), ("Extra", 7)]] ∧
    (100 : ℚ) < ([100, 50] : List ℚ).sum := by
  refine ⟨?_, by decide!, by decide!, by decide!, by decide!⟩
  intro now req s hok
  unfold addMilestone at hok ⊢
  by_cases hv : req.validationErrors ≠ []
  · simp [hv, failure] at hok
  · simp only [hv, if_false] at hok ⊢
    cases hpi : req.projectId with
    | none => simp [hpi, failure] at hok
    | some projectId =>
      cases hn : req.name with
      | none => simp [hpi, hn, failure] at hok
      | some name =>
        cases hpc : req.percentage with
        | none => simp [hpi, hn, hpc, failure] at hok
        | some percentage =>
          cases ha : req.amount with
          | none => simp [hpi, hn, hpc, ha, failure] at hok
          | some amount =>
            cases hd : req.dueDate with
            | none => simp [hpi, hn, hpc, ha, hd, failure] at hok
            | some dueDate =>
              simp only [hpi, hn, hpc, ha, hd] at hok ⊢
              by_cases hz : name = "" ∨ percentage = 0 ∨ amount = 0
              · simp [hz, failure] at hok
              · simp only [hz, if_false] at hok ⊢
                cases hf : findProject s.projects projectId req.clientId req.userId with
                | none => simp [hf, failure] at hok
                | some p =>
                  simp only [hf] at hok ⊢
                  cases hdoc : pushMilestone s.nextId now
                      { name := some name, description := req.description,
                        percentage := some percentage, amount := some amount,
                        dueDate := dueDate, status := some (req.status.getD "Pending"),
                        notes := req.notes } with
                  | none => simp [hdoc, failure] at hok
                  | some doc =>
                    obtain ⟨hcar, hid, hach⟩ := pushMilestone_fields hdoc
                    obtain ⟨hca, hua⟩ := pushMilestone_stamps hdoc
                    obtain ⟨c1, c2, c3, c4, c5, c6⟩ := hcar
                    refine ⟨projectId, p, doc, rfl, hf, ?_, ?_, c1, c2, c3, c4, ?_, c6, hach,
                      hca, hua, hid⟩
                    · exact findProject_saveProject hf rfl rfl rfl
                    · simp only [saveProject]
                    · simp only at c5
                      rw [c5]

theorem addMilestone_appends_without_sum_check_witness :
    ∃ projectId p doc,
      (demoAddRequest 50 5000).projectId = some projectId ∧
      findProject demoStore.projects projectId (demoAddRequest 50 5000).clientId
        (demoAddRequest 50 5000).userId = some p ∧
      findProject (addMilestone 5 (demoAddRequest 50 5000) demoStore).2.projects projectId
        (demoAddRequest 50 5000).clientId (demoAddRequest 50 5000).userId =
        some { p with milestones := p.milestones ++ [doc], updatedAt := 5 } ∧
      (addMilestone 5 (demoAddRequest 50 5000) demoStore).2 =
        { demoStore with
          projects := demoStore.projects.map (fun q =>
            if q._id = p._id then
              { p with milestones := p.milestones ++ [doc], updatedAt := 5 }
            else q)
          nextId := demoStore.nextId + 1 } ∧
      (demoAddRequest 50 5000).name.map jsTrim = some doc.name ∧
      doc.description = (demoAddRequest 50 5000).description ∧
      (demoAddRequest 50 5000).percentage = some doc.percentage ∧
      (demoAddRequest 50 5000).amount = some doc.amount ∧
      (demoAddRequest 50 5000).dueDate = some (some doc.dueDate) ∧
      doc.notes = (demoAddRequest 50 5000).notes ∧
      doc.isAchived = false ∧ doc.createdAt = some 5 ∧ doc.updatedAt = some 5 ∧
      doc._id = demoStore.nextId :=
  addMilestone_appends_without_sum_check.1 5 (demoAddRequest 50 5000) demoStore (by decide!)

theorem statsStep_unclassified (now : Int) (projectName : String) (clientName : Option String)
    (stats : MilestoneStats) (m : Milestone) :
    statsStep now projectName clientName stats m =
      { stats with
        totalMilestones := stats.totalMilestones + 1
        totalValue := stats.totalValue + m.amount } := by
  simp [statsStep, Milestone.status]

theorem stats_inner_loop (now : Int) (projectName : String) (clientName : Option String)
    (ms : List Milestone) (stats : MilestoneStats) :
    ms.foldl (statsStep now projectName clientName) stats =
      { stats with
        totalMilestones := stats.totalMilestones + ms.length
        totalValue := stats.totalValue + (ms.map (fun m => m.amount)).sum } := by
  induction ms generalizing stats with
  | nil => simp
  | cons m rest ih =>
    rw [List.foldl_cons, ih, statsStep_unclassified]
    simp only [List.length_cons, List.map_cons, List.sum_cons]
    congr 1
    · omega
    · ring

theorem stats_outer_loop (now : Int) (clients : List Client) (ps : List Project)
    (stats : MilestoneStats) :
    ps.foldl (fun stats project =>
        project.milestones.foldl
          (statsStep now project.name
            ((clients.find? (fun c => c._id = project.clientId)).map (fun c => c.name)))
          stats) stats =
      { stats with
        totalMilestones := stats.totalMilestones + (ps.flatMap (fun p => p.milestones)).length
        totalValue := stats.totalValue +
          ((ps.flatMap (fun p => p.milestones)).map (fun m => m.amount)).sum } := by
  induction ps generalizing stats with
  | nil => simp
  | cons p rest ih =>
    rw [List.foldl_cons, ih, stats_inner_loop]
    simp only [List.flatMap_cons, List.length_append, List.map_append, List.sum_append]
    congr 1
    · omega
    · ring

/-- C20 (the code at the failing input): `getMilestoneStats` counts every
milestone of the queried projects once in `totalMilestones` and `totalValue`
and writes nothing, but it classifies by `milestone.status`, which no stored
milestone has: the pending, paid and overdue counts and value sums are 0 for
every store.  A milestone created with status "Pending" and a due date (7)
before the evaluation instant (100) is counted in the total and neither as
Overdue nor as Pending, and the three counts (0) do not add up to the total
(1). -/
theorem getMilestoneStats_never_classifies :
    (∀ (now : Int) (userId : ObjectId) (clientId : Option ObjectId) (s : Store),
      (getMilestoneStats now userId clientId s).1.totalMilestones =
        ((s.projects.filter (fun p => p.userId = userId ∧
            ∀ c, clientId = some c → p.clientId = c)).flatMap (fun p => p.milestones)).length ∧
      (getMilestoneStats now userId clientId s).1.totalValue =
        (((s.projects.filter (fun p => p.userId = userId ∧
            ∀ c, clientId = some c → p.clientId = c)).flatMap (fun p => p.milestones)).map
          (fun m => m.amount)).sum ∧
      (getMilestoneStats now userId clientId s).1.pendingMilestones = 0 ∧
      (getMilestoneStats now userId clientId s).1.paidMilestones = 0 ∧
      (getMilestoneStats now userId clientId s).1.overdueMilestones = 0 ∧
      (getMilestoneStats now userId clientId s).1.pendingValue = 0 ∧
      (getMilestoneStats now userId clientId s).1.paidValue = 0 ∧
      (getMilestoneStats now userId clientId s).1.overdueValue = 0 ∧
      (getMilestoneStats now userId clientId s).2 = s) ∧
    (createMilestones 9
        (demoRequest [{ demoInput "Deposit" 40 4000 with status := some "Pending" }])
        demoStore).1.status = 201 ∧
    (createMilestones 9
        (demoRequest [{ demoInput "Deposit" 40 4000 with status := some "Pending" }])
        demoStore).2.projects.map (fun p => p.milestones.map (fun m => m.dueDate)) = [[7]] ∧
    (getMilestoneStats 100 1 none (createMilestones 9
        (demoRequest [{ demoInput "Deposit" 40 4000 with status := some "Pending" }])
        demoStore).2).1.totalMilestones = 1 ∧
    (getMilestoneStats 100 1 none (createMilestones 9
        (demoRequest [{ demoInput "Deposit" 40 4000 with status := some "Pending" }])
        demoStore).2).1.overdueMilestones = 0 ∧
    (getMilestoneStats 100 1 none (createMilestones 9
        (demoRequest [{ demoInput "Deposit" 40 4000 with status := some "Pending" }])
        demoStore).2).1.pendingMilestones = 0 ∧
    (getMilestoneStats 100 1 none (createMilestones 9
        (demoRequest [{ demoInput "Deposit" 40 4000 with status := some "Pending" }])
        demoStore).2).1.paidMilestones = 0 := by
  refine ⟨?_, by decide!, by decide!, by decide!, by decide!, by decide!, by decide!⟩
  intro now userId clientId s
  unfold getMilestoneStats
  simp only [stats_outer_loop, Nat.zero_add, zero_add]
  exact ⟨trivial, trivial, trivial, trivial, trivial, trivial, trivial, trivial, trivial⟩

theorem getMilestoneStats_eq_with :
    getMilestoneStats = getMilestoneStatsWith Milestone.status Milestone.paidDate := rfl

theorem statsStepWith_lists (statusOf : Milestone → Option String)
    (paidDateOf : Milestone → Option Int) (now : Int) (projectName : String)
    (clientName : Option String) (stats : MilestoneStats) (m : Milestone) :
    (statsStepWith statusOf paidDateOf now projectName clientName stats m).upcomingMilestones =
      stats.upcomingMilestones ++
        [({ milestone := m, projectName := projectName, clientName := clientName } :
            StatsEntry)].filter (isUpcoming statusOf now) ∧
    (statsStepWith statusOf paidDateOf now projectName clientName stats m).recentPayments =
      stats.recentPayments ++
        [({ milestone := m, projectName := projectName, clientName := clientName } :
            StatsEntry)].filter (isRecentPayment statusOf paidDateOf now) := by
  unfold statsStepWith isUpcoming isRecentPayment
  by_cases hp : statusOf m = some "Pending"
  · by_cases hd : m.dueDate < now
    · have hn : ¬ now ≤ m.dueDate := not_le.2 hd
      simp [hp, hd, hn, List.filter_cons]
    · have hn : now ≤ m.dueDate := not_lt.1 hd
      by_cases hw : m.dueDate ≤ now + thirtyDays <;>
        simp [hp, hd, hn, hw, List.filter_cons]
  · by_cases hq : statusOf m = some "Paid"
    · cases hpd : paidDateOf m with
      | none => simp [hq, hpd, List.filter_cons]
      | some d =>
        by_cases hr : now ≤ d + thirtyDays
        · simp [hq, hpd, hr, List.filter_cons]
        · have hr' : d + thirtyDays < now := not_le.1 hr
          simp [hq, hpd, hr, hr', List.filter_cons]
    · by_cases ho : statusOf m = some "Overdue" <;>
        simp [hp, hq, ho, List.filter_cons]

theorem stats_inner_lists (statusOf : Milestone → Option String)
    (paidDateOf : Milestone → Option Int) (now : Int) (projectName : String)
    (clientName : Option String) (ms : List Milestone) (stats : MilestoneStats) :
    (ms.foldl (statsStepWith statusOf paidDateOf now projectName clientName)
        stats).upcomingMilestones =
      stats.upcomingMilestones ++
        (ms.map (fun m => ({ milestone := m, projectName := projectName,
                             clientName := clientName } : StatsEntry))).filter
          (isUpcoming statusOf now) ∧
    (ms.foldl (statsStepWith statusOf paidDateOf now projectName clientName)
        stats).recentPayments =
      stats.recentPayments ++
        (ms.map (fun m => ({ milestone := m, projectName := projectName,
                             clientName := clientName } : StatsEntry))).filter
          (isRecentPayment statusOf paidDateOf now) := by
  induction ms generalizing stats with
  | nil => simp
  | cons m rest ih =>
    rw [List.foldl_cons]
    obtain ⟨h1, h2⟩ := ih (statsStepWith statusOf paidDateOf now projectName clientName stats m)
    obtain ⟨s1, s2⟩ := statsStepWith_lists statusOf paidDateOf now projectName clientName stats m
    rw [h1, h2, s1, s2]
    simp only [List.map_cons, List.append_assoc]
    constructor
    · congr 1
      exact (List.filter_append [_] _).symm
    · congr 1
      exact (List.filter_append [_] _).symm

theorem stats_outer_lists (statusOf : Milestone → Option String)
    (paidDateOf : Milestone → Option Int) (now : Int) (clients : List Client)
    (ps : List Project) (stats : MilestoneStats) :
    (ps.foldl (fun stats project =>
        project.milestones.foldl
          (statsStepWith statusOf paidDateOf now project.name
            ((clients.find? (fun c => c._id = project.clientId)).map (fun c => c.name)))
          stats) stats).upcomingMilestones =
      stats.upcomingMilestones ++
        (ps.flatMap (fun p => p.milestones.map (fun m =>
          ({ milestone := m, projectName := p.name,
             clientName := (clients.find? (fun c => c._id = p.clientId)).map (fun c => c.name) } :
            StatsEntry)))).filter (isUpcoming statusOf now) ∧
    (ps.foldl (fun stats project =>
        project.milestones.foldl
          (statsStepWith statusOf paidDateOf now project.name
            ((clients.find? (fun c => c._id = project.clientId)).map (fun c => c.name)))
          stats) stats).recentPayments =
      stats.recentPayments ++
        (ps.flatMap (fun p => p.milestones.map (fun m =>
          ({ milestone := m, projectName := p.name,
             clientName := (clients.find? (fun c => c._id = p.clientId)).map (fun c => c.name) } :
            StatsEntry)))).filter (isRecentPayment statusOf paidDateOf now) := by
  induction ps generalizing stats with
  | nil => simp
  | cons p rest ih =>
    rw [List.foldl_cons]
    obtain ⟨h1, h2⟩ := ih (p.milestones.foldl
      (statsStepWith statusOf paidDateOf now p.name
        ((clients.find? (fun c => c._id = p.clientId)).map (fun c => c.name))) stats)
    obtain ⟨s1, s2⟩ := stats_inner_lists statusOf paidDateOf now p.name
      ((clients.find? (fun c => c._id = p.clientId)).map (fun c => c.name)) p.milestones stats
    rw [h1, h2, s1, s2]
    simp only [List.flatMap_cons, List.filter_append, List.append_assoc]
    exact ⟨trivial, trivial⟩

theorem getMilestoneStatsWith_lists (statusOf : Milestone → Option String)
    (paidDateOf : Milestone → Option Int) (now : Int) (userId : ObjectId)
    (clientId : Option ObjectId) (s : Store) :
    (getMilestoneStatsWith statusOf paidDateOf now userId clientId s).1.upcomingMilestones =
      (((statsEntries userId clientId s).filter (isUpcoming statusOf now)).insertionSort
        (fun a b => a.milestone.dueDate ≤ b.milestone.dueDate)).take 10 ∧
    (getMilestoneStatsWith statusOf paidDateOf now userId clientId s).1.recentPayments =
      (((statsEntries userId clientId s).filter
          (isRecentPayment statusOf paidDateOf now)).insertionSort
        (fun a b => (paidDateOf b.milestone).getD 0 ≤ (paidDateOf a.milestone).getD 0)).take 10 := by
  unfold getMilestoneStatsWith statsEntries
  obtain ⟨h1, h2⟩ := stats_outer_lists statusOf paidDateOf now s.clients
    (s.projects.filter (fun p => p.userId = userId ∧ ∀ c, clientId = some c → p.clientId = c))
    { totalMilestones := 0, pendingMilestones := 0, paidMilestones := 0,
      overdueMilestones := 0, totalValue := 0, pendingValue := 0, paidValue := 0,
      overdueValue := 0, upcomingMilestones := [], recentPayments := [] }
  simp only [List.nil_append] at h1 h2
  simp only [h1, h2]
  exact ⟨trivial, trivial⟩

/-- C21 (the code at the failing input): `getMilestoneStats` fills both lists
by `milestone.status`, which no stored milestone has, so `upcomingMilestones`
and `recentPayments` are empty for every store.  A milestone created with
status "Pending" and due at 7 is counted at instant 3 and is not listed as
upcoming.  Whatever `milestone.status` and `milestone.paidDate` read, the
upcoming list is the first 10, by ascending `dueDate`, of the milestones that
read `Pending` and are due between now and thirty days from now, and the
recent payments are the first 10, by descending `paidDate`, of those that read
`Paid` with a `paidDate` not older than thirty days: were the status read as
submitted, the milestone due at 7 would be listed at instant 3 and not at an
instant more than thirty days before 7. -/
theorem getMilestoneStats_lists_always_empty :
    (∀ (now : Int) (userId : ObjectId) (clientId : Option ObjectId) (s : Store),
      (getMilestoneStats now userId clientId s).1.upcomingMilestones = [] ∧
      (getMilestoneStats now userId clientId s).1.recentPayments = []) ∧
    (∀ (statusOf : Milestone → Option String) (paidDateOf : Milestone → Option Int) (now : Int)
        (userId : ObjectId) (clientId : Option ObjectId) (s : Store),
      (getMilestoneStatsWith statusOf paidDateOf now userId clientId s).1.upcomingMilestones =
        (((statsEntries userId clientId s).filter (isUpcoming statusOf now)).insertionSort
          (fun a b => a.milestone.dueDate ≤ b.milestone.dueDate)).take 10 ∧
      (getMilestoneStatsWith statusOf paidDateOf now userId clientId s).1.recentPayments =
        (((statsEntries userId clientId s).filter
            (isRecentPayment statusOf paidDateOf now)).insertionSort
          (fun a b =>
            (paidDateOf b.milestone).getD 0 ≤ (paidDateOf a.milestone).getD 0)).take 10) ∧
    getMilestoneStats = getMilestoneStatsWith Milestone.status Milestone.paidDate ∧
    (createMilestones 9
        (demoRequest [{ demoInput "Deposit" 40 4000 with status := some "Pending" }])
        demoStore).1.status = 201 ∧
    (getMilestoneStats 3 1 none (createMilestones 9
        (demoRequest [{ demoInput "Deposit" 40 4000 with status := some "Pending" }])
        demoStore).2).1.totalMilestones = 1 ∧
    (getMilestoneStats 3 1 none (createMilestones 9
        (demoRequest [{ demoInput "Deposit" 40 4000 with status := some "Pending" }])
        demoStore).2).1.upcomingMilestones = [] ∧
    ((getMilestoneStatsWith (fun _ => some "Pending") (fun _ => none) 3 1 none (createMilestones 9
        (demoRequest [{ demoInput "Deposit" 40 4000 with status := some "Pending" }])
        demoStore).2).1.upcomingMilestones.map (fun e => (e.milestone.name, e.milestone.dueDate))) =
      [("Deposit", 7)] ∧
    (getMilestoneStatsWith (fun _ => some "Pending") (fun _ => none) (-2592000000) 1 none
      (createMilestones 9
        (demoRequest [{ demoInput "Deposit" 40 4000 with status := some "Pending" }])
        demoStore).2).1.upcomingMilestones = [] := by
  refine ⟨?_, getMilestoneStatsWith_lists, getMilestoneStats_eq_with, by decide!, by decide!,
    by decide!, by decide!, by decide!⟩
  intro now userId clientId s
  rw [getMilestoneStats_eq_with]
  obtain ⟨h1, h2⟩ := getMilestoneStatsWith_lists Milestone.status Milestone.paidDate now userId
    clientId s
  rw [h1, h2]
  have e1 : (statsEntries userId clientId s).filter (isUpcoming Milestone.status now) = [] := by
    rw [List.filter_eq_nil_iff]
    intro e _
    simp [isUpcoming, Milestone.status]
  have e2 : (statsEntries userId clientId s).filter
      (isRecentPayment Milestone.status Milestone.paidDate now) = [] := by
    rw [List.filter_eq_nil_iff]
    intro e _
    simp [isRecentPayment, Milestone.status]
  rw [e1, e2]
  exact ⟨rfl, rfl⟩

/-- C23 (the code at the failing input): `deleteClient` issues its three
`deleteMany` calls before it looks at the result of `findOneAndDelete`.  In
the store a `deleteClient` leaves behind when its `Project.deleteMany`
rejected (client 2 gone, its project 10 still stored), client 2 identifies no
client of user 1: `deleteClient` answers 404 "Client not found" and has
deleted project 10.  With `strictQuery` on, a `deleteClient` for the unknown
client 999 answers 404 and has deleted every Revenue row of user 1. -/
theorem deleteClient_not_found_still_deletes :
    (deleteClient false (fun op => op = DbOp.projectDeleteMany) 2 1 demoStore).store.clients = [] ∧
    (deleteClient false (fun op => op = DbOp.projectDeleteMany) 2 1 demoStore).store.projects =
      [demoProject] ∧
    (deleteClient false (fun _ => false) 2 1
      (deleteClient false (fun op => op = DbOp.projectDeleteMany) 2 1 demoStore).store).response =
      { status := 404, success := none, message := [Piece.text "Client not found"] } ∧
    (deleteClient false (fun _ => false) 2 1
      (deleteClient false (fun op => op = DbOp.projectDeleteMany) 2 1
        demoStore).store).store.projects = [] ∧
    periodStore.clients.find? (fun c => c._id = 999 ∧ c.userId = 1) = none ∧
    (deleteClient true (fun _ => false) 999 1 periodStore).response.status = 404 ∧
    (deleteClient true (fun _ => false) 999 1 periodStore).store.revenues =
      [demoRevenue 27 2 2024 "January"] := by
  decide!

/-- C27: `deleteClient` issues no Estimate delete and the project cascade hook
does nothing for a filter without `_id`.  When no database call fails the
Estimate collection is unchanged, the hook run on the filter of
`Project.deleteMany({ clientId, userId })` leaves the store as it is, and for a
stored project whose `_id` only projects of the client and the user carry, the
project is gone and each of its estimates is still stored while no stored
project has the `_id` its `projectId` names. -/
theorem deleteClient_orphans_estimates (strictQuery : Bool) (clientId userId : ObjectId)
    (s : Store) (p : Project) (e : Estimate)
    (hp : p ∈ s.projects)
    (hid : ∀ q ∈ s.projects, q._id = p._id → q.clientId = clientId ∧ q.userId = userId)
    (he : e ∈ s.estimates) (hep : e.projectId = p._id) :
    (deleteClient strictQuery (fun _ => false) clientId userId s).store.estimates = s.estimates ∧
    (∀ (registered : String → Bool) (estimateFails : Bool),
      projectCascadeHook registered estimateFails (deleteClientProjectFilter clientId userId) s =
        (s, none)) ∧
    p ∉ (deleteClient strictQuery (fun _ => false) clientId userId s).store.projects ∧
    e ∈ (deleteClient strictQuery (fun _ => false) clientId userId s).store.estimates ∧
    ∀ q ∈ (deleteClient strictQuery (fun _ => false) clientId userId s).store.projects,
      q._id ≠ e.projectId := by
  have hest : (deleteClient strictQuery (fun _ => false) clientId userId s).store.estimates =
      s.estimates := by
    simp [deleteClient]
  have hproj : (deleteClient strictQuery (fun _ => false) clientId userId s).store.projects =
      s.projects.filter (fun p => ¬ (p.clientId = clientId ∧ p.userId = userId)) := by
    simp [deleteClient]
  refine ⟨hest, ?_, ?_, ?_, ?_⟩
  · intro registered estimateFails
    unfold projectCascadeHook deleteClientProjectFilter
    split <;> rfl
  · rw [hproj]
    have := hid p hp rfl
    simp [this.1, this.2]
  · rw [hest]
    exact he
  · intro q hq hqe
    rw [hproj, List.mem_filter] at hq
    have := hid q hq.1 (hqe.trans hep)
    simp [this.1, this.2] at hq

theorem deleteClient_orphans_estimates_witness :
    (deleteClient false (fun _ => false) 2 1 zeroCountStore).store.estimates =
      zeroCountStore.estimates ∧
    (∀ (registered : String → Bool) (estimateFails : Bool),
      projectCascadeHook registered estimateFails (deleteClientProjectFilter 2 1) zeroCountStore =
        (zeroCountStore, none)) ∧
    demoProject ∉ (deleteClient false (fun _ => false) 2 1 zeroCountStore).store.projects ∧
    ({ _id := 31, projectId := 10, name := "Basic", description := "d", timeline := "2w",
       price := 500, features := [], techStack := [], isSelected := true } : Estimate) ∈
      (deleteClient false (fun _ => false) 2 1 zeroCountStore).store.estimates ∧
    ∀ q ∈ (deleteClient false (fun _ => false) 2 1 zeroCountStore).store.projects,
      q._id ≠ ({ _id := 31, projectId := 10, name := "Basic", description := "d",
                 timeline := "2w", price := 500, features := [], techStack := [],
                 isSelected := true } : Estimate).projectId :=
  deleteClient_orphans_estimates false 2 1 zeroCountStore demoProject
    { _id := 31, projectId := 10, name := "Basic", description := "d", timeline := "2w",
      price := 500, features := [], techStack := [], isSelected := true }
    (by decide!) (by decide!) (by decide!) rfl

/-- C22 (counterexample): user 1 is authenticated (valid token, stored user)
and `updateDashboardStats` rejects: `protect` answers 500 "Internal server
error" and does not call `next`; the same when
`calculateCurrentMonthRevenue` rejects. -/
theorem protect_answers_500_on_failed_recomputation :
    (protect (gregorian 0) 1762300800000 (some "t") (fun _ => some 1) [1]
      (fun op => op = ProtectOp.updateDashboardStats) demoStore).1 =
      ProtectOutcome.answered (failure 500 "Internal server error") ∧
    (protect (gregorian 0) 1762300800000 (some "t") (fun _ => some 1) [1]
      (fun op => op = ProtectOp.calculateCurrentMonthRevenue) demoStore).1 =
      ProtectOutcome.answered (failure 500 "Internal server error") ∧
    (protect (gregorian 0) 1762300800000 (some "t") (fun _ => some 1) [1]
      (fun op => op = ProtectOp.updateDashboardStats) demoStore).1 ≠ ProtectOutcome.next := by
  decide!

/-- C22 (amended): for a valid token of a stored user, `protect` calls `next`
exactly when none of `User.findById`, `updateDashboardStats`,
`calculateCurrentMonthRevenue` and the Revenue upsert rejects; when one of
them rejects it answers 500 "Internal server error". -/
theorem protect_next_iff_all_succeed (cal : Calendar) (now : Int) (token : String)
    (verify : String → Option ObjectId) (users : List ObjectId) (fails : ProtectOp → Bool)
    (s : Store) (id : ObjectId) (hv : verify token = some id) (hu : id ∈ users) :
    ((protect cal now (some token) verify users fails s).1 = ProtectOutcome.next ↔
      ∀ op, fails op = false) ∧
    ((∃ op, fails op = true) →
      (protect cal now (some token) verify users fails s).1 =
        ProtectOutcome.answered (failure 500 "Internal server error")) := by
  have hall : (∀ op, fails op = false) ↔
      fails ProtectOp.userFindById = false ∧ fails ProtectOp.updateDashboardStats = false ∧
      fails ProtectOp.calculateCurrentMonthRevenue = false ∧
      fails ProtectOp.revenueUpdateOne = false := by
    constructor
    · intro h
      exact ⟨h _, h _, h _, h _⟩
    · rintro ⟨h1, h2, h3, h4⟩ op
      cases op <;> assumption
  have hex : (∃ op, fails op = true) ↔ ¬ ∀ op, fails op = false := by
    simp
  rw [hex, hall]
  cases h1 : fails ProtectOp.userFindById <;>
  cases h2 : fails ProtectOp.updateDashboardStats <;>
  cases h3 : fails ProtectOp.calculateCurrentMonthRevenue <;>
  cases h4 : fails ProtectOp.revenueUpdateOne <;>
  simp [protect, hv, hu, h1, h2, h3, h4, protectCaught]

theorem protect_next_iff_all_succeed_witness :
    ((protect (gregorian 0) 1762300800000 (some "t") (fun _ => some 1) [1]
        (fun _ => false) demoStore).1 = ProtectOutcome.next ↔
      ∀ op, (fun (_ : ProtectOp) => false) op = false) ∧
    ((∃ op, (fun (_ : ProtectOp) => false) op = true) →
      (protect (gregorian 0) 1762300800000 (some "t") (fun _ => some 1) [1]
        (fun _ => false) demoStore).1 =
        ProtectOutcome.answered (failure 500 "Internal server error")) :=
  protect_next_iff_all_succeed (gregorian 0) 1762300800000 "t" (fun _ => some 1) [1]
    (fun _ => false) demoStore 1 rfl (by decide)

theorem validateEstimates_of_bad {es : List EstimateInput}
    (h : ∃ e ∈ es, lacksField e = true ∨ negativePrice e = true) :
    ∃ r, validateEstimates es = some r ∧ r.status = 400 := by
  induction es with
  | nil => simp at h
  | cons e rest ih =>
    unfold validateEstimates
    by_cases h1 : lacksField e = true
    · simp [h1, failure]
    · by_cases h2 : negativePrice e = true
      · simp [h1, h2, failure]
      · simp only [h1, h2, if_false, Bool.false_eq_true]
        apply ih
        obtain ⟨x, hx, hb⟩ := h
        rcases List.mem_cons.1 hx with rfl | hx
        · rcases hb with hb | hb
          · exact absurd hb h1
          · exact absurd hb h2
        · exact ⟨x, hx, hb⟩

theorem existing_deleted (projectId : ObjectId) (s : Store) :
    (if (s.estimates.filter (fun e => e.projectId = projectId)).length > 0 then
        { s with estimates := s.estimates.filter (fun e => e.projectId ≠ projectId) }
      else s) =
      { s with estimates := s.estimates.filter (fun e => e.projectId ≠ projectId) } := by
  split
  · rfl
  · rename_i h
    have h0 : s.estimates.filter (fun e => e.projectId = projectId) = [] := by
      rw [← List.length_eq_zero]
      omega
    have : s.estimates.filter (fun e => e.projectId ≠ projectId) = s.estimates := by
      rw [List.filter_eq_self]
      intro a ha
      rw [List.filter_eq_nil_iff] at h0
      simpa using h0 a ha
    rw [this]

/-- C28: `AddAllEstimate` deletes the project's stored estimates before its
validation loop.  A non-empty request for a valid project id containing an
estimate that lacks `name`, `description`, `timeline` or `price`, or has a
negative price, is answered 400, and the store it leaves holds the estimates
of the other projects and none of the project. -/
theorem AddAllEstimate_invalid_leaves_none (req : AddAllEstimateRequest) (s : Store)
    (projectId : ObjectId) (estimates : List EstimateInput)
    (hreq : req.estimates = some estimates) (hp : req.projectId = some projectId)
    (hbad : ∃ e ∈ estimates, lacksField e = true ∨ negativePrice e = true) :
    (AddAllEstimate req s).1.status = 400 ∧
    (AddAllEstimate req s).2 =
      { s with estimates := s.estimates.filter (fun e => e.projectId ≠ projectId) } ∧
    (AddAllEstimate req s).2.estimates.filter (fun e => e.projectId = projectId) = [] := by
  obtain ⟨r, hr, h400⟩ := validateEstimates_of_bad hbad
  have hne : estimates.length ≠ 0 := by
    obtain ⟨e, he, _⟩ := hbad
    intro h0
    rw [List.length_eq_zero] at h0
    rw [h0] at he
    simp at he
  have hrun : AddAllEstimate req s =
      (r, { s with estimates := s.estimates.filter (fun e => e.projectId ≠ projectId) }) := by
    simp only [AddAllEstimate, hreq, hp, hne, if_false, hr, existing_deleted]
  rw [hrun]
  refine ⟨h400, rfl, ?_⟩
  rw [List.filter_eq_nil_iff]
  intro a ha
  simp only [List.mem_filter] at ha
  simpa using ha.2

theorem AddAllEstimate_invalid_leaves_none_witness :
    (AddAllEstimate
      (demoEstimateRequest [demoEstimateInput "Basic" 100, demoEstimateInput "Bad" (-5)])
      zeroCountStore).1.status = 400 ∧
    (AddAllEstimate
      (demoEstimateRequest [demoEstimateInput "Basic" 100, demoEstimateInput "Bad" (-5)])
      zeroCountStore).2 =
      { zeroCountStore with
        estimates := zeroCountStore.estimates.filter (fun e => e.projectId ≠ 10) } ∧
    (AddAllEstimate
      (demoEstimateRequest [demoEstimateInput "Basic" 100, demoEstimateInput "Bad" (-5)])
      zeroCountStore).2.estimates.filter (fun e => e.projectId = 10) = [] :=
  AddAllEstimate_invalid_leaves_none
    (demoEstimateRequest [demoEstimateInput "Basic" 100, demoEstimateInput "Bad" (-5)])
    zeroCountStore 10 [demoEstimateInput "Basic" 100, demoEstimateInput "Bad" (-5)] rfl rfl
    ⟨demoEstimateInput "Bad" (-5), by simp, Or.inr (by decide!)⟩

theorem castEstimates_spec {id projectId : ObjectId} {es : List EstimateInput}
    {docs : List Estimate} (h : castEstimates id projectId es = some docs) :
    List.Forall₂ (estimateCarries projectId) es docs ∧
    docs.map (fun d => d._id) = List.range' id es.length ∧
    ∀ d ∈ docs, d.projectId = projectId ∧ d.isSelected = false := by
  induction es generalizing id docs with
  | nil =>
    simp [castEstimates] at h
    subst h
    simp
  | cons e rest ih =>
    unfold castEstimates at h
    cases hd : castEstimate id projectId e with
    | none => simp [hd] at h
    | some d =>
      cases hr : castEstimates (id + 1) projectId rest with
      | none => simp [hd, hr] at h
      | some ds =>
        simp only [hd, hr, Option.some.injEq] at h
        subst h
        obtain ⟨h1, h2, h3⟩ := ih hr
        have hcar : estimateCarries projectId e d ∧ d._id = id := by
          unfold castEstimate at hd
          split at hd
          · rename_i name description timeline price hn hds ht hpr
            split at hd
            · simp only [Option.some.injEq] at hd
              subst hd
              simp [estimateCarries, hn, hds, ht, hpr]
            · simp at hd
          · simp at hd
        refine ⟨List.Forall₂.cons hcar.1 h1, ?_, ?_⟩
        · simp [h2, hcar.2, List.range'_succ]
        · intro x hx
          rcases List.mem_cons.1 hx with rfl | hx
          · exact ⟨hcar.1.1, hcar.1.2.2.2.2.2.2.2⟩
          · exact h3 x hx

theorem validateEstimates_status {es : List EstimateInput} {r : Response}
    (h : validateEstimates es = some r) : r.status = 400 := by
  induction es with
  | nil => simp [validateEstimates] at h
  | cons e rest ih =>
    unfold validateEstimates at h
    split at h
    · simp only [Option.some.injEq] at h
      subst h
      rfl
    · split at h
      · simp only [Option.some.injEq] at h
        subst h
        rfl
      · exact ih h

theorem AddAllEstimate_success {req : AddAllEstimateRequest} {s : Store}
    (hok : (AddAllEstimate req s).1.status = 201) :
    ∃ projectId estimates docs, req.projectId = some projectId ∧
      req.estimates = some estimates ∧ estimates ≠ [] ∧
      castEstimates s.nextId projectId estimates = some docs ∧
      (AddAllEstimate req s).2 =
        { s with
          estimates := s.estimates.filter (fun e => e.projectId ≠ projectId) ++ docs
          nextId := s.nextId + estimates.length } := by
  unfold AddAllEstimate at hok ⊢
  cases he : req.estimates with
  | none => simp [he, failure] at hok
  | some estimates =>
    by_cases hl : estimates.length = 0
    · simp [he, hl, failure] at hok
    · cases hp : req.projectId with
      | none => simp [he, hl, hp, failure] at hok
      | some projectId =>
        simp only [he, hl, hp, if_false, existing_deleted] at hok ⊢
        cases hv : validateEstimates estimates with
        | some answer =>
          exfalso
          have h400 : answer.status = 400 := validateEstimates_status hv
          simp [hv, h400] at hok
        | none =>
          cases hc : castEstimates s.nextId projectId estimates with
          | none => simp [hv, hc, failure] at hok
          | some docs =>
            refine ⟨projectId, estimates, docs, rfl, rfl, ?_, hc, ?_⟩
            · intro h0
              exact hl (by rw [h0]; rfl)
            · simp only [hv, hc]

/-- C25 (counterexample): a valid estimate submitted with the name " Basic "
is stored under the name "Basic", and its feature " login " as "login": the
stored estimate is not the submitted one. -/
theorem AddAllEstimate_stores_trimmed_name :
    (AddAllEstimate (demoEstimateRequest [demoEstimateInput " Basic " 100])
      zeroCountStore).1.status = 201 ∧
    (demoEstimateInput " Basic " 100).name = some " Basic " ∧
    ((AddAllEstimate (demoEstimateRequest [demoEstimateInput " Basic " 100])
      zeroCountStore).2.estimates.filter (fun e => e.projectId = 10)).map
        (fun e => (e.name, e.features)) = [("Basic", ["login"])] := by
  decide!

/-- C25 (amended): a successful `AddAllEstimate` leaves, for the project, one
stored estimate per submitted estimate, in input order, with fresh `_id`s,
each carrying the submitted description, timeline and price, the name and the
entries of features and techStack trimmed, and `isSelected` false; the
estimates of the other projects stay and none stored before for the project
remains. -/
theorem AddAllEstimate_replaces_estimates (req : AddAllEstimateRequest) (s : Store)
    (projectId : ObjectId) (estimates : List EstimateInput)
    (hp : req.projectId = some projectId) (he : req.estimates = some estimates)
    (hok : (AddAllEstimate req s).1.status = 201) :
    ∃ docs, (AddAllEstimate req s).2.estimates =
              s.estimates.filter (fun e => e.projectId ≠ projectId) ++ docs ∧
            (AddAllEstimate req s).2.estimates.filter (fun e => e.projectId = projectId) = docs ∧
            List.Forall₂ (estimateCarries projectId) estimates docs ∧
            docs.map (fun d => d._id) = List.range' s.nextId estimates.length := by
  obtain ⟨projectId', estimates', docs, hp', he', _, hc, hrun⟩ := AddAllEstimate_success hok
  have e1 : projectId' = projectId := by rw [hp] at hp'; exact (Option.some.inj hp').symm
  have e2 : estimates' = estimates := by rw [he] at he'; exact (Option.some.inj he').symm
  subst e1 e2
  obtain ⟨hcar, hids, hall⟩ := castEstimates_spec hc
  have hdocs : ∀ d ∈ docs, d.projectId = projectId' := fun d hd => (hall d hd).1
  refine ⟨docs, by rw [hrun], ?_, hcar, hids⟩
  rw [hrun]
  simp only [List.filter_append, List.filter_filter]
  have h1 : s.estimates.filter
      (fun a => decide (a.projectId = projectId') && decide (a.projectId ≠ projectId')) = [] := by
    rw [List.filter_eq_nil_iff]
    intro a _
    by_cases h : a.projectId = projectId' <;> simp [h]
  have h2 : docs.filter (fun e => e.projectId = projectId') = docs := by
    rw [List.filter_eq_self]
    intro a ha
    simpa using hdocs a ha
  rw [h1, h2, List.nil_append]

theorem AddAllEstimate_replaces_estimates_witness :
    ∃ docs, (AddAllEstimate
              (demoEstimateRequest [demoEstimateInput " Basic " 100, demoEstimateInput "Pro" 900])
              zeroCountStore).2.estimates =
              zeroCountStore.estimates.filter (fun e => e.projectId ≠ 10) ++ docs ∧
            (AddAllEstimate
              (demoEstimateRequest [demoEstimateInput " Basic " 100, demoEstimateInput "Pro" 900])
              zeroCountStore).2.estimates.filter (fun e => e.projectId = 10) = docs ∧
            List.Forall₂ (estimateCarries 10)
              [demoEstimateInput " Basic " 100, demoEstimateInput "Pro" 900] docs ∧
            docs.map (fun d => d._id) = List.range' zeroCountStore.nextId
              [demoEstimateInput " Basic " 100, demoEstimateInput "Pro" 900].length :=
  AddAllEstimate_replaces_estimates
    (demoEstimateRequest [demoEstimateInput " Basic " 100, demoEstimateInput "Pro" 900])
    zeroCountStore 10 [demoEstimateInput " Basic " 100, demoEstimateInput "Pro" 900] rfl rfl
    (by decide!)

theorem selectedBy_id (ids : List (Option ObjectId)) (e : Estimate) :
    (selectedBy ids e)._id = e._id := by
  unfold selectedBy
  split <;> rfl

theorem selectedBy_cons (id : Option ObjectId) (ids : List (Option ObjectId)) (e : Estimate) :
    selectedBy ids (selectedBy [id] e) = selectedBy (id :: ids) e := by
  unfold selectedBy
  by_cases h1 : some e._id = id <;> by_cases h2 : some e._id ∈ ids <;>
    simp [h1, h2, List.mem_cons]

theorem SelectEstimateById_store (id : Option ObjectId) (s : Store)
    (hn : (s.estimates.map (fun e => e._id)).Nodup) :
    (SelectEstimateById id s).2 = { s with estimates := s.estimates.map (selectedBy [id]) } := by
  have hident : (∀ e ∈ s.estimates, some e._id ≠ id) →
      s.estimates.map (selectedBy [id]) = s.estimates := by
    intro h
    conv_rhs => rw [← List.map_id s.estimates]
    apply List.map_congr_left
    intro e he
    simp [selectedBy, h e he]
  cases id with
  | none =>
    rw [hident (fun e _ => by simp)]
    rfl
  | some i =>
    cases hf : s.estimates.find? (fun e => e._id = i) with
    | none =>
      simp only [SelectEstimateById, hf]
      rw [List.find?_eq_none] at hf
      rw [hident (fun e he => by simpa using hf e he)]
    | some _ =>
      simp only [SelectEstimateById, hf]
      congr 1
      rw [updateFirst_eq_map_of_pairwise]
      · apply List.map_congr_left
        intro e _
        by_cases h : e._id = i <;> simp [selectedBy, h]
      · unfold List.Nodup at hn
        rw [List.pairwise_map] at hn
        refine hn.imp ?_
        intro a b hab h
        simp only [decide_eq_true_eq] at h
        exact hab (h.1.trans h.2.symm)

theorem selectEstimates_store (ids : List (Option ObjectId)) (s : Store)
    (hn : (s.estimates.map (fun e => e._id)).Nodup) :
    selectEstimates ids s = { s with estimates := s.estimates.map (selectedBy ids) } := by
  induction ids generalizing s with
  | nil =>
    have : s.estimates.map (selectedBy []) = s.estimates := by
      conv_rhs => rw [← List.map_id s.estimates]
      apply List.map_congr_left
      intro e _
      simp [selectedBy]
    rw [this]
    rfl
  | cons id rest ih =>
    have hstep : selectEstimates (id :: rest) s = selectEstimates rest (SelectEstimateById id s).2 :=
      rfl
    rw [hstep, SelectEstimateById_store id s hn, ih]
    · simp only [List.map_map]
      congr 1
      apply List.map_congr_left
      intro e _
      exact selectedBy_cons id rest e
    · simp only [List.map_map]
      have : ((fun e => e._id) ∘ selectedBy [id]) = (fun e : Estimate => e._id) := by
        funext e
        exact selectedBy_id [id] e
      rw [this]
      exact hn

theorem AddAllEstimate_ids_nodup {req : AddAllEstimateRequest} {s : Store}
    (hfresh : s.estimateIdsFresh) (hok : (AddAllEstimate req s).1.status = 201) :
    ((AddAllEstimate req s).2.estimates.map (fun e => e._id)).Nodup := by
  obtain ⟨projectId, estimates, docs, _, _, _, hc, hrun⟩ := AddAllEstimate_success hok
  obtain ⟨_, hids, _⟩ := castEstimates_spec hc
  rw [hrun]
  simp only [List.map_append]
  rw [List.nodup_append]
  refine ⟨(hfresh.1.sublist ((List.filter_sublist _).map _)), ?_, ?_⟩
  · rw [hids]
    exact List.nodup_range' _ _
  · intro x hx hy
    rw [hids, List.mem_range'_1] at hy
    rw [List.mem_map] at hx
    obtain ⟨e, he, rfl⟩ := hx
    have h1 : e._id < s.nextId := hfresh.2 e (List.mem_of_mem_filter he)
    have h2 : s.nextId ≤ e._id := hy.1
    exact absurd h1 (not_lt.2 h2)

/-- C24 (counterexample): after `AddAllEstimate` stored two estimates for
project 10 (with `_id`s 100 and 101), two `SelectEstimateById` calls, one on
each, are both answered 200 and leave both estimates of the project selected. -/
theorem SelectEstimateById_selects_two :
    (AddAllEstimate (demoEstimateRequest [demoEstimateInput "Basic" 100, demoEstimateInput "Pro" 900])
      zeroCountStore).1.status = 201 ∧
    (SelectEstimateById (some 100)
      (AddAllEstimate
        (demoEstimateRequest [demoEstimateInput "Basic" 100, demoEstimateInput "Pro" 900])
        zeroCountStore).2).1.status = 200 ∧
    (SelectEstimateById (some 101)
      (SelectEstimateById (some 100)
        (AddAllEstimate
          (demoEstimateRequest [demoEstimateInput "Basic" 100, demoEstimateInput "Pro" 900])
          zeroCountStore).2).2).1.status = 200 ∧
    ((selectEstimates [some 100, some 101]
      (AddAllEstimate
        (demoEstimateRequest [demoEstimateInput "Basic" 100, demoEstimateInput "Pro" 900])
        zeroCountStore).2).estimates.filter
          (fun e => e.projectId = 10 ∧ e.isSelected = true)).map (fun e => e._id) =
      [100, 101] := by
  decide!

/-- C24 (amended): `SelectEstimateById` sets `isSelected` on the estimate it
addresses and clears it on no other.  In a store whose estimate `_id`s are
distinct and below the source of fresh ids, after a successful
`AddAllEstimate` for a project no estimate of the project is selected, and
after any sequence of `SelectEstimateById` calls that follows every stored
estimate is as before except that the addressed ones are selected: an estimate
of the project is selected exactly when one of the calls addressed it. -/
theorem selectEstimates_selected_iff_addressed (req : AddAllEstimateRequest) (s : Store)
    (projectId : ObjectId) (ids : List (Option ObjectId))
    (hp : req.projectId = some projectId) (hfresh : s.estimateIdsFresh)
    (hok : (AddAllEstimate req s).1.status = 201) :
    (∀ e ∈ (AddAllEstimate req s).2.estimates, e.projectId = projectId → e.isSelected = false) ∧
    selectEstimates ids (AddAllEstimate req s).2 =
      { (AddAllEstimate req s).2 with
        estimates := (AddAllEstimate req s).2.estimates.map (selectedBy ids) } ∧
    ∀ e ∈ (selectEstimates ids (AddAllEstimate req s).2).estimates, e.projectId = projectId →
      (e.isSelected = true ↔ some e._id ∈ ids) := by
  have hnodup := AddAllEstimate_ids_nodup hfresh hok
  have hsel := selectEstimates_store ids (AddAllEstimate req s).2 hnodup
  have hnone : ∀ e ∈ (AddAllEstimate req s).2.estimates, e.projectId = projectId →
      e.isSelected = false := by
    obtain ⟨projectId0, estimates, docs, hp0, _, _, hc, hrun⟩ := AddAllEstimate_success hok
    have e1 : projectId0 = projectId := by rw [hp] at hp0; exact (Option.some.inj hp0).symm
    subst e1
    obtain ⟨_, _, hall⟩ := castEstimates_spec hc
    intro e he hpe
    rw [hrun] at he
    rcases List.mem_append.1 he with h | h
    · rw [List.mem_filter] at h
      simp [hpe] at h
    · exact (hall e h).2
  refine ⟨hnone, hsel, ?_⟩
  intro e he hpe
  rw [hsel] at he
  obtain ⟨e0, he0, rfl⟩ := List.mem_map.1 he
  unfold selectedBy at hpe ⊢
  by_cases h : some e0._id ∈ ids
  · simp [h]
  · simp only [h, if_false] at hpe ⊢
    simp [hnone e0 he0 hpe]

theorem selectEstimates_selected_iff_addressed_witness :
    (∀ e ∈ (AddAllEstimate
        (demoEstimateRequest [demoEstimateInput "Basic" 100, demoEstimateInput "Pro" 900])
        zeroCountStore).2.estimates, e.projectId = 10 → e.isSelected = false) ∧
    selectEstimates [some 101, none, some 7, some 101]
      (AddAllEstimate
        (demoEstimateRequest [demoEstimateInput "Basic" 100, demoEstimateInput "Pro" 900])
        zeroCountStore).2 =
      { (AddAllEstimate
          (demoEstimateRequest [demoEstimateInput "Basic" 100, demoEstimateInput "Pro" 900])
          zeroCountStore).2 with
        estimates := (AddAllEstimate
          (demoEstimateRequest [demoEstimateInput "Basic" 100, demoEstimateInput "Pro" 900])
          zeroCountStore).2.estimates.map (selectedBy [some 101, none, some 7, some 101]) } ∧
    ∀ e ∈ (selectEstimates [some 101, none, some 7, some 101]
        (AddAllEstimate
          (demoEstimateRequest [demoEstimateInput "Basic" 100, demoEstimateInput "Pro" 900])
          zeroCountStore).2).estimates, e.projectId = 10 →
      (e.isSelected = true ↔ some e._id ∈ [some 101, none, some 7, some 101]) :=
  selectEstimates_selected_iff_addressed
    (demoEstimateRequest [demoEstimateInput "Basic" 100, demoEstimateInput "Pro" 900])
    zeroCountStore 10 [some 101, none, some 7, some 101] rfl
    ⟨by decide!, by decide!⟩ (by decide!)

theorem month_inner_loop (cal : Calendar) (year : Int) (monthNumber : Int)
    (ms : List Milestone) (acc : ℚ) :
    ms.foldl (fun totalRevenue milestone =>
        match milestone.isAchieved, milestone.updatedAt with
        | some true, some updatedAt =>
          if (cal.getMonth updatedAt : Int) = monthNumber ∧ cal.getFullYear updatedAt = year then
            totalRevenue + milestone.amount
          else totalRevenue
        | _, _ => totalRevenue) acc = acc := by
  induction ms generalizing acc with
  | nil => rfl
  | cons m rest ih =>
    rw [List.foldl_cons]
    simp only [Milestone.isAchieved]
    exact ih acc

/-- C26: for every calendar, user, year, valid month name and store (stored
milestones carry the schema's `isAchived` and no `isAchieved`), when the read
of the projects succeeds `calculateMonthRevenue` returns revenue 0 for that
year and month, however many milestones were achieved in it. -/
theorem calculateMonthRevenue_always_zero (cal : Calendar) (now : Int) (userId : ObjectId)
    (year : Int) (month : String) (s : Store) (hm : month ∈ months) :
    (calculateMonthRevenue cal now false userId year month s).result =
      Except.ok { userId := userId, year := year, month := some month, revenue := 0,
                  calculatedAt := now } := by
  unfold calculateMonthRevenue
  simp only [hm, not_true_eq_false, if_false, Bool.false_eq_true]
  congr 2
  generalize s.projects.filter (fun p => p.userId = userId ∨ p.clientId = userId) = ps
  suffices h : ∀ acc : ℚ, ps.foldl (fun totalRevenue project =>
      if project.milestones.length > 0 then
        project.milestones.foldl (fun totalRevenue milestone =>
          match milestone.isAchieved, milestone.updatedAt with
          | some true, some updatedAt =>
            if (cal.getMonth updatedAt : Int) = getMonthNumber month ∧
                cal.getFullYear updatedAt = year then
              totalRevenue + milestone.amount
            else totalRevenue
          | _, _ => totalRevenue) totalRevenue
      else totalRevenue) acc = acc from h 0
  induction ps with
  | nil => intro acc; rfl
  | cons p rest ih =>
    intro acc
    rw [List.foldl_cons, month_inner_loop, ite_self]
    exact ih acc

theorem calculateMonthRevenue_always_zero_witness :
    (calculateMonthRevenue (gregorian 0) 1763596800000 false 1 2025 "November"
        scenarioStore).result =
      Except.ok { userId := 1, year := 2025, month := some "November", revenue := 0,
                  calculatedAt := 1763596800000 } :=
  calculateMonthRevenue_always_zero (gregorian 0) 1763596800000 1 2025 "November" scenarioStore
    (by decide!)

/-- C29: a request that passed `validationResult` and whose percentage is 0
or whose amount is 0 is answered 400 with the 'Missing required fields'
message and nothing is stored; yet the schema accepts both values: a bulk
creation with percentage 0 and amount 0 is answered 201 and stores them. -/
theorem addMilestone_rejects_zero (now : Int) (req : AddMilestoneRequest) (s : Store)
    (hv : req.validationErrors = [])
    (hz : req.percentage = some 0 ∨ req.amount = some 0) :
    (addMilestone now req s).1 =
      failure 400 "Missing required fields: projectId, name, percentage, amount, dueDate" ∧
    (addMilestone now req s).2 = s ∧
    (createMilestones 9 (demoRequest [demoInput "Free" 0 0]) demoStore).1.status = 201 ∧
    (createMilestones 9 (demoRequest [demoInput "Free" 0 0]) demoStore).2.projects.map
      (fun p => p.milestones.map (fun m => (m.percentage, m.amount))) = [[(0, 0)]] := by
  refine ⟨?_, ?_, by decide!, by decide!⟩
  · unfold addMilestone
    simp only [hv, ne_eq, not_true_eq_false, if_false]
    split
    · rename_i projectId name percentage amount dueDate _ _ hp ha _
      have : name = "" ∨ percentage = 0 ∨ amount = 0 := by
        rcases hz with h | h
        · rw [hp] at h
          exact Or.inr (Or.inl (Option.some.inj h))
        · rw [ha] at h
          exact Or.inr (Or.inr (Option.some.inj h))
      simp only [this, if_true]
    · rfl
  · unfold addMilestone
    simp only [hv, ne_eq, not_true_eq_false, if_false]
    split
    · rename_i projectId name percentage amount dueDate _ _ hp ha _
      have : name = "" ∨ percentage = 0 ∨ amount = 0 := by
        rcases hz with h | h
        · rw [hp] at h
          exact Or.inr (Or.inl (Option.some.inj h))
        · rw [ha] at h
          exact Or.inr (Or.inr (Option.some.inj h))
      simp only [this, if_true]
    · rfl

theorem addMilestone_rejects_zero_witness :
    (addMilestone 5 (demoAddRequest 0 5000) demoStore).1 =
      failure 400 "Missing required fields: projectId, name, percentage, amount, dueDate" ∧
    (addMilestone 5 (demoAddRequest 0 5000) demoStore).2 = demoStore ∧
    (createMilestones 9 (demoRequest [demoInput "Free" 0 0]) demoStore).1.status = 201 ∧
    (createMilestones 9 (demoRequest [demoInput "Free" 0 0]) demoStore).2.projects.map
      (fun p => p.milestones.map (fun m => (m.percentage, m.amount))) = [[(0, 0)]] :=
  addMilestone_rejects_zero 5 (demoAddRequest 0 5000) demoStore rfl (Or.inl rfl)

theorem forRange_empty {a b : Int} (h : b < a) : forRange a b = [] := by
  unfold forRange
  have : (b + 1 - a).toNat = 0 := by omega
  rw [this]
  rfl

/-- C30: `getRevenueForPeriod` does not check that the start is not after the
end.  With `startYear = endYear` and the start month after the end month the
`$in` list of the month filter is empty and no row is returned.  With
`startYear > endYear` (stored rows carrying one of the twelve month names) the
result is, up to order, every row of the user in `startYear` from the start
month on and every row in `endYear` up to the end month. -/
theorem getRevenueForPeriod_unchecked_range (userId : ObjectId) (startYear endYear : Int)
    (startMonth endMonth : String) (s : Store)
    (hrows : ∀ r ∈ s.revenues, r.month ∈ months) :
    (startYear = endYear → getMonthNumber endMonth < getMonthNumber startMonth →
      (periodQuery userId startYear startMonth endYear endMonth).month = some [] ∧
      getRevenueForPeriod userId startYear startMonth endYear endMonth s = []) ∧
    (endYear < startYear →
      (getRevenueForPeriod userId startYear startMonth endYear endMonth s).Perm
        (s.revenues.filter (fun r => r.userId = userId ∧
          ((r.year = startYear ∧ getMonthNumber startMonth ≤ getMonthNumber r.month) ∨
           (r.year = endYear ∧ getMonthNumber r.month ≤ getMonthNumber endMonth))))) := by
  constructor
  · intro hy hm
    have hq : (periodQuery userId startYear startMonth endYear endMonth).month = some [] := by
      unfold periodQuery
      simp only [hy, if_true, forRange_empty hm, List.map_nil]
    refine ⟨hq, ?_⟩
    unfold getRevenueForPeriod
    have : s.revenues.filter
        (periodQuery userId startYear startMonth endYear endMonth).matches = [] := by
      rw [List.filter_eq_nil_iff]
      intro r _
      simp [RevenueQuery.matches, hq, monthIn]
    rw [this]
    rfl
  · intro hy
    unfold getRevenueForPeriod
    have hfilter : s.revenues.filter
        (periodQuery userId startYear startMonth endYear endMonth).matches =
        s.revenues.filter (fun r => r.userId = userId ∧
          ((r.year = startYear ∧ getMonthNumber startMonth ≤ getMonthNumber r.month) ∨
           (r.year = endYear ∧ getMonthNumber r.month ≤ getMonthNumber endMonth))) := by
      apply List.filter_congr
      intro r hr
      rw [Bool.eq_iff_iff, periodQuery_matches_iff (hrows r hr)]
      simp only [decide_eq_true_eq]
      constructor
      · rintro ⟨hu, h⟩
        refine ⟨hu, ?_⟩
        omega
      · rintro ⟨hu, h⟩
        refine ⟨hu, ?_⟩
        omega
    rw [hfilter]
    exact List.perm_insertionSort _ _

theorem getRevenueForPeriod_unchecked_range_witness :
    ((periodQuery 1 2023 "December" 2023 "November").month = some [] ∧
      getRevenueForPeriod 1 2023 "December" 2023 "November" periodStore = []) ∧
    (getRevenueForPeriod 1 2024 "February" 2023 "November" periodStore).Perm
      (periodStore.revenues.filter (fun r => r.userId = 1 ∧
        ((r.year = 2024 ∧ getMonthNumber "February" ≤ getMonthNumber r.month) ∨
         (r.year = 2023 ∧ getMonthNumber r.month ≤ getMonthNumber "November")))) :=
  ⟨(getRevenueForPeriod_unchecked_range 1 2023 2023 "December" "November" periodStore
      (by decide!)).1 rfl (by decide!),
   (getRevenueForPeriod_unchecked_range 1 2024 2023 "February" "November" periodStore
      (by decide!)).2 (by decide!)⟩

end FreelanceFlow
